import Mathlib

/-!
The frame capture and streaming pipeline of `app/ffmpeg/video.go`.

The package-level variables of `video.go` become the fields of `State`; every
thread of the pipeline (the render thread running `MakeFrame` / `stopVideo`,
the two worker loops started by `startVideo`, the conversion goroutines and the
GPU that signals fences) becomes a family of atomic steps of a step function.
Blocking operations (`sync.WaitGroup.Wait`, `sync.Mutex.Lock`, channel send and
receive, `gl.WaitSync`) are steps that are enabled only when the operation can
return.  Go run-time panics are recorded in the `fault` field.
-/

namespace Video

/-! ## Data model -/

/-- The values of `pixconv.PixFmt` that `video.go` names; `other` stands for any
further value of the type. -/
inductive PixFmt where
  | ARGB
  | I420
  | I422
  | I444
  | NV12
  | NV21
  | other (n : Nat)
  deriving DecidableEq, Repr

/-- `const MaxVideoBuffers = 10`. -/
def MaxVideoBuffers : Nat := 10

/-- The state of the fence object named by `PBO.sync`: no fence yet, fence
created by `gl.FenceSync` and not signaled, signaled, or removed by
`gl.DeleteSync`. -/
inductive Fence where
  | none
  | pending
  | signaled
  | deleted
  deriving DecidableEq, Repr

/-- The slice `PBO.convData`: `nil`, the very slice `pbo.data` (after
`pbo.convData = pbo.data`), or a buffer of its own made by `make([]byte, n)`. -/
inductive Buf where
  | nil
  | alias
  | own (bytes : List Nat)
  deriving DecidableEq, Repr

/-- `type PBO struct`; `handle` and `memPointer` are represented by the index of
the slot and by `data`, `convertSync` by the counter of the wait group. -/
structure PBO where
  data : List Nat
  convFormat : PixFmt
  convData : Buf
  sync : Fence
  convertSync : Nat
  deriving DecidableEq, Repr

/-- The configuration `startVideo` reads (`w`, `h`, `parsedFormat`, the motion
blur settings) together with the two functions of package `pixconv` that
`video.go` calls and whose source is not part of the development. -/
structure Settings where
  w : Nat
  h : Nat
  parsedFormat : PixFmt
  motionBlur : Bool
  oversampleMultiplier : Int
  /-- `pixconv.GetRequiredBufferSize(format, w, h)`. -/
  requiredBufferSize : PixFmt → Nat → Nat → Nat
  /-- Byte `i` of the target buffer after `pixconv.Convert(src, srcFmt, dst, dstFmt, w, h)`,
  as `convertByte srcFmt dstFmt w h src i`. -/
  convertByte : PixFmt → PixFmt → Nat → Nat → List Nat → Nat → Nat

/-- The size of the mapped buffer, `glSize` in `createPBO`. -/
def glSize (c : Settings) (format : PixFmt) : Nat :=
  if format = .I420 ∨ format = .NV12 ∨ format = .NV21 then c.w * c.h * 3 / 2
  else c.w * c.h * 3

/-- The function `createPBO`; freshly made and freshly mapped buffers hold zeros. -/
def createPBO (c : Settings) (format : PixFmt) : PBO :=
  { convFormat := format
    data := List.replicate (glSize c format) 0
    convData :=
      if format = .I420 ∨ format = .NV12 ∨ format = .NV21 then
        if format = .NV12 ∨ format = .NV21 then
          .own (List.replicate (c.w * c.h * 3 / 2) 0)
        else .nil
      else if format ≠ .ARGB ∧ format ≠ .I444 then
        .own (List.replicate (c.requiredBufferSize format c.w c.h) 0)
      else .nil
    sync := .none
    convertSync := 0 }

/-- The test of Stage A, `pbo.convFormat == I444 || == I420 || == ARGB`:
the formats that are dumped without conversion. -/
def passThrough (format : PixFmt) : Bool :=
  format == .I444 || format == .I420 || format == .ARGB

/-- Modelled from the spec: `pixconv.Convert` (package `framework/util/pixconv`
is not among the sources) is a stateless, pure transform of the captured bytes
in a source layout into target-layout bytes; it fills the target buffer, here
of `n` bytes, and cannot change its length. -/
def convertBytes (c : Settings) (src : List Nat) (srcFmt : PixFmt) (n : Nat)
    (dstFmt : PixFmt) : List Nat :=
  (List.range n).map (c.convertByte srcFmt dstFmt c.w c.h src)

/-- The source layout Stage A passes to `pixconv.Convert` for a target format. -/
def sourceLayout (format : PixFmt) : PixFmt :=
  if format = .NV12 ∨ format = .NV21 then .I420 else .I444

/-- The body of the conversion goroutine of Stage A: `pixconv.Convert` writes
into the buffer `pbo.convData`. -/
def convertPBO (c : Settings) (p : PBO) : PBO :=
  match p.convData with
  | .nil => p
  | .alias =>
    { p with data := convertBytes c p.data (sourceLayout p.convFormat) p.data.length p.convFormat }
  | .own b =>
    { p with
      convData := Buf.own (convertBytes c p.data (sourceLayout p.convFormat) b.length p.convFormat) }

/-- The bytes `videoPipe.Write(pbo.convData)` sends. -/
def convBytes (p : PBO) : List Nat :=
  match p.convData with
  | .nil => []
  | .alias => p.data
  | .own b => b

/-- What the readback commands of `MakeFrame` leave in the mapped buffer of
`n` bytes when the GPU image holds `frame`: the buffer keeps its size. -/
def readPixels (n : Nat) (frame : List Nat) : List Nat :=
  (List.range n).map (fun i => frame.getD i 0)

/-- Go run-time panics the pipeline can raise. -/
inductive Fault where
  | indexOutOfRange
  | negativeWaitGroup
  | sendOnClosedChannel
  | closeOfClosedChannel
  | divideByZero
  | writeFailed
  deriving DecidableEq, Repr

/-- The caller of `checkData`: line 347 and line 389 of `MakeFrame`, line 291 of
`stopVideo`. -/
inductive Ret where
  | acquire
  | limiter
  | stop
  deriving DecidableEq, Repr

/-- Program counter of the render thread. -/
inductive RenderPc where
  /-- Outside `MakeFrame` and `stopVideo`. -/
  | idle
  /-- At the head of the loop of `checkData`, iteration `i`. -/
  | checkData (i : Nat) (waitForFirst waitForAll : Bool) (ret : Ret)
  /-- At `videoQueue <- pbo` in `checkData`. -/
  | checkSend (i : Nat) (waitForFirst waitForAll : Bool) (ret : Ret) (pbo : Nat)
  /-- At `if len(pboPool) == 0` (line 349). -/
  | poolTest
  /-- Inside `emptySync.Wait()`. -/
  | emptyWait
  /-- At `pboSync.Lock()` (line 353). -/
  | lock
  /-- At `pbo := pboPool[0]` (line 355), holding the lock. -/
  | take
  /-- At `if len(pboPool) == 0 { emptySync.Add(1) }` (line 358). -/
  | add (pbo : Nat)
  /-- At `pboSync.Unlock()` (line 362). -/
  | unlock (pbo : Nat)
  /-- Lines 364 to 387: readback, fence, `syncPool = append(syncPool, pbo)`. -/
  | readback (pbo : Nat)
  /-- At `limiter.Sync()`. -/
  | limiterSync
  /-- At `close(videoQueue)`. -/
  | closeVideoQueue
  /-- At `endSyncVideo.Wait()`. -/
  | waitVideo
  /-- At `close(readyQueue)`. -/
  | closeReadyQueue
  /-- At `endSyncReady.Wait()`. -/
  | waitReady
  /-- At `videoPipe.Close()`. -/
  | closePipe
  /-- At `cmdVideo.Wait()`. -/
  | waitCmd
  /-- After `stopVideo` has returned. -/
  | stopped
  deriving DecidableEq, Repr

/-- Program counter of the first worker loop (Stage A, lines 225 to 254). -/
inductive StageAPc where
  /-- At `pbo, keepOpen := <-videoQueue`. -/
  | recv
  /-- At the format test (line 230) with a received slot. -/
  | dispatch (pbo : Nat)
  /-- At `readyQueue <- pbo`. -/
  | send (pbo : Nat)
  /-- After `endSyncVideo.Done()` and `break`. -/
  | exited
  deriving DecidableEq, Repr

/-- Program counter of the second worker loop (Stage B, lines 256 to 285). -/
inductive StageBPc where
  /-- At `pbo, keepOpen := <-readyQueue`. -/
  | recv
  /-- Inside `pbo.convertSync.Wait()`. -/
  | wait (pbo : Nat)
  /-- At `videoPipe.Write(pbo.convData)`. -/
  | write (pbo : Nat)
  /-- At `pboSync.Lock()`. -/
  | lock (pbo : Nat)
  /-- At `if len(pboPool) == 0 { emptySync.Done() }`, holding the lock. -/
  | test (pbo : Nat)
  /-- At `pboPool = append(pboPool, pbo)`. -/
  | append (pbo : Nat)
  /-- At `pboSync.Unlock()`. -/
  | unlock
  /-- After `endSyncReady.Done()` and `break`. -/
  | exited
  deriving DecidableEq, Repr

/-- The package-level variables of `video.go`, the program counters of its
threads, and three history fields (`captured`, `acquired`, `released`) that no
step reads. -/
structure State where
  /-- The `PBO` structs, by slot index (the pointers in the pools and queues). -/
  slots : Nat → PBO
  pboPool : List Nat
  syncPool : List Nat
  videoQueue : List Nat
  videoQueueClosed : Bool
  readyQueue : List Nat
  readyQueueClosed : Bool
  /-- Whether the mutex `pboSync` is locked. -/
  pboSync : Bool
  /-- Counters of the wait groups. -/
  emptySync : Nat
  endSyncVideo : Nat
  endSyncReady : Nat
  frameNumber : Int
  /-- The image the readback commands of the current frame deliver. -/
  frameBuffer : List Nat
  /-- Slots whose conversion goroutine has been started and has not finished. -/
  tasks : List Nat
  /-- The buffers written to `videoPipe`, in order. -/
  written : List (List Nat)
  pipeClosed : Bool
  /-- Whether `cmdVideo.Wait()` has returned. -/
  cmdWaited : Bool
  render : RenderPc
  stageA : StageAPc
  stageB : StageBPc
  fault : Option Fault
  /-- History: the data of every readback issued, in order. -/
  captured : List (List Nat)
  /-- History: how often line 355 has taken a slot from `pboPool`. -/
  acquired : Nat
  /-- History: how often Stage B has appended a slot to `pboPool`. -/
  released : Nat

/-- Replace the struct of slot `i`. -/
def setSlot (m : Nat → PBO) (i : Nat) (p : PBO) : Nat → PBO :=
  fun j => if j = i then p else m j

/-- The state `startVideo` leaves: ten slots made by `createPBO(parsedFormat)`
in `pboPool`, empty channels, `endSyncVideo` and `endSyncReady` at one, both
worker loops at their receive, `frameNumber` at its initial value. -/
def startVideo (c : Settings) : State :=
  { slots := fun _ => createPBO c c.parsedFormat
    pboPool := List.range MaxVideoBuffers
    syncPool := []
    videoQueue := []
    videoQueueClosed := false
    readyQueue := []
    readyQueueClosed := false
    pboSync := false
    emptySync := 0
    endSyncVideo := 1
    endSyncReady := 1
    frameNumber := -1
    frameBuffer := []
    tasks := []
    written := []
    pipeClosed := false
    cmdWaited := false
    render := .idle
    stageA := .recv
    stageB := .recv
    fault := none
    captured := []
    acquired := 0
    released := 0 }

/-! ## The render thread: `MakeFrame`, `checkData`, `stopVideo` -/

/-- Go's `int64` wrap-around. -/
def wrap64 (x : Int) : Int := (x + 2 ^ 63) % 2 ^ 64 - 2 ^ 63

/-- The test of lines 325 to 330 on the incremented `frameNumber`: whether the
call returns without capturing (`%` of Go truncates, as `Int.tmod`). -/
def skipFrame (c : Settings) (frameNumber : Int) : Bool :=
  c.motionBlur && Int.tmod frameNumber c.oversampleMultiplier != 0

/-- Where `checkData` returns to. -/
def retPc : Ret → RenderPc
  | .acquire => .poolTest
  | .limiter => .limiterSync
  | .stop => .closeVideoQueue

/-- A call of `MakeFrame` by the renderer, up to the evaluation of the argument
`len(pboPool) == 0` of the first `checkData` (lines 323 to 347); `frame` is the
image the renderer has drawn. -/
def MakeFrame (c : Settings) (s : State) (frame : List Nat) : Option State :=
  match s.render with
  | .idle =>
    if c.motionBlur && c.oversampleMultiplier == 0 then
      some { s with
        frameNumber := wrap64 (s.frameNumber + 1), frameBuffer := frame
        fault := some .divideByZero }
    else if skipFrame c (wrap64 (s.frameNumber + 1)) then
      some { s with frameNumber := wrap64 (s.frameNumber + 1), frameBuffer := frame }
    else
      some { s with
        frameNumber := wrap64 (s.frameNumber + 1), frameBuffer := frame
        render := .checkData 0 (s.pboPool.length == 0) false .acquire }
  | _ => none

/-- A call of `stopVideo`: it starts with `checkData(true, true)`. -/
def stopVideo (s : State) : Option State :=
  match s.render with
  | .idle => some { s with render := .checkData 0 true true .stop }
  | _ => none

/-- The fence of the oldest entry has been found signaled (lines 411 to 414):
`gl.DeleteSync(pbo.sync)` and `syncPool = syncPool[1:]`. -/
def retire (s : State) (i : Nat) (waitForFirst waitForAll : Bool) (ret : Ret)
    (pbo : Nat) (rest : List Nat) : State :=
  { s with
    slots := setSlot s.slots pbo { s.slots pbo with sync := .deleted }
    syncPool := rest
    render := .checkSend i waitForFirst waitForAll ret pbo }

/-- The GPU commands of lines 364 to 385 on a slot: the readback into the mapped
buffer and `pbo.sync = gl.FenceSync(...)`. The bytes the readback delivers are
those of the image at the time of the call; the CPU reads them only after the
fence. -/
def readback (p : PBO) (frame : List Nat) : PBO :=
  { p with data := readPixels p.data.length frame, sync := .pending }

/-- One step of the render thread inside `MakeFrame` or `stopVideo`.
`gl.WaitSync` returns once the fence is signaled, as the assignment
`status = gl.SIGNALED` that follows it assumes. -/
def renderStep (s : State) : Option State :=
  match s.render with
  | .idle => none
  | .stopped => none
  | .checkData i waitForFirst waitForAll ret =>
    match s.syncPool with
    | [] => some { s with render := retPc ret }
    | pbo :: rest =>
      if (i == 0 && waitForFirst) || waitForAll then
        if (s.slots pbo).sync = .signaled then
          some (retire s i waitForFirst waitForAll ret pbo rest)
        else none
      else if (s.slots pbo).sync = .signaled then
        some (retire s i waitForFirst waitForAll ret pbo rest)
      else some { s with render := retPc ret }
  | .checkSend i waitForFirst waitForAll ret pbo =>
    if s.videoQueueClosed then some { s with fault := some .sendOnClosedChannel }
    else if s.videoQueue.length < MaxVideoBuffers then
      some { s with
        videoQueue := s.videoQueue ++ [pbo]
        render := .checkData (i + 1) waitForFirst waitForAll ret }
    else none
  | .poolTest =>
    some { s with render := if s.pboPool.length == 0 then .emptyWait else .lock }
  | .emptyWait => if s.emptySync = 0 then some { s with render := .lock } else none
  | .lock => if s.pboSync then none else some { s with pboSync := true, render := .take }
  | .take =>
    match s.pboPool with
    | [] => some { s with fault := some .indexOutOfRange }
    | pbo :: rest =>
      some { s with pboPool := rest, acquired := s.acquired + 1, render := .add pbo }
  | .add pbo =>
    some { s with
      emptySync := if s.pboPool.length == 0 then s.emptySync + 1 else s.emptySync
      render := .unlock pbo }
  | .unlock pbo => some { s with pboSync := false, render := .readback pbo }
  | .readback pbo =>
    some { s with
      slots := setSlot s.slots pbo (readback (s.slots pbo) s.frameBuffer)
      syncPool := s.syncPool ++ [pbo]
      captured := s.captured ++ [readPixels (s.slots pbo).data.length s.frameBuffer]
      render := .checkData 0 false false .limiter }
  | .limiterSync => some { s with render := .idle }
  | .closeVideoQueue =>
    if s.videoQueueClosed then some { s with fault := some .closeOfClosedChannel }
    else some { s with videoQueueClosed := true, render := .waitVideo }
  | .waitVideo =>
    if s.endSyncVideo = 0 then some { s with render := .closeReadyQueue } else none
  | .closeReadyQueue =>
    if s.readyQueueClosed then some { s with fault := some .closeOfClosedChannel }
    else some { s with readyQueueClosed := true, render := .waitReady }
  | .waitReady =>
    if s.endSyncReady = 0 then some { s with render := .closePipe } else none
  | .closePipe => some { s with pipeClosed := true, render := .waitCmd }
  | .waitCmd => some { s with cmdWaited := true, render := .stopped }

/-! ## The worker loops of `startVideo` -/

/-- One step of Stage A (lines 225 to 254). A receive on the closed and empty
channel yields `nil, false`, so the loop runs `endSyncVideo.Done()` and ends. -/
def stageAStep (s : State) : Option State :=
  match s.stageA with
  | .recv =>
    match s.videoQueue with
    | pbo :: rest => some { s with videoQueue := rest, stageA := .dispatch pbo }
    | [] =>
      if s.videoQueueClosed then
        if s.endSyncVideo = 0 then some { s with fault := some .negativeWaitGroup }
        else some { s with endSyncVideo := s.endSyncVideo - 1, stageA := .exited }
      else none
  | .dispatch pbo =>
    if passThrough (s.slots pbo).convFormat then
      some { s with
        slots := setSlot s.slots pbo { s.slots pbo with convData := .alias }
        stageA := .send pbo }
    else
      some { s with
        slots := setSlot s.slots pbo
          { s.slots pbo with convertSync := (s.slots pbo).convertSync + 1 }
        tasks := s.tasks ++ [pbo]
        stageA := .send pbo }
  | .send pbo =>
    if s.readyQueueClosed then some { s with fault := some .sendOnClosedChannel }
    else if s.readyQueue.length < MaxVideoBuffers then
      some { s with readyQueue := s.readyQueue ++ [pbo], stageA := .recv }
    else none
  | .exited => none

/-- The conversion goroutine started for slot `pbo` runs `pixconv.Convert` and
`pbo.convertSync.Done()`. -/
def convertStep (c : Settings) (s : State) (pbo : Nat) : Option State :=
  if pbo ∈ s.tasks then
    if (s.slots pbo).convertSync = 0 then some { s with fault := some .negativeWaitGroup }
    else
      some { s with
        slots := setSlot s.slots pbo
          { convertPBO c (s.slots pbo) with convertSync := (s.slots pbo).convertSync - 1 }
        tasks := s.tasks.erase pbo }
  else none

/-- One step of Stage B (lines 256 to 285). -/
def stageBStep (s : State) : Option State :=
  match s.stageB with
  | .recv =>
    match s.readyQueue with
    | pbo :: rest => some { s with readyQueue := rest, stageB := .wait pbo }
    | [] =>
      if s.readyQueueClosed then
        if s.endSyncReady = 0 then some { s with fault := some .negativeWaitGroup }
        else some { s with endSyncReady := s.endSyncReady - 1, stageB := .exited }
      else none
  | .wait pbo =>
    if (s.slots pbo).convertSync = 0 then some { s with stageB := .write pbo } else none
  | .write pbo =>
    if s.pipeClosed then some { s with fault := some .writeFailed }
    else some { s with written := s.written ++ [convBytes (s.slots pbo)], stageB := .lock pbo }
  | .lock pbo =>
    if s.pboSync then none else some { s with pboSync := true, stageB := .test pbo }
  | .test pbo =>
    if s.pboPool.length == 0 then
      if s.emptySync = 0 then some { s with fault := some .negativeWaitGroup }
      else some { s with emptySync := s.emptySync - 1, stageB := .append pbo }
    else some { s with stageB := .append pbo }
  | .append pbo =>
    some { s with
      pboPool := s.pboPool ++ [pbo], released := s.released + 1, stageB := .unlock }
  | .unlock => some { s with pboSync := false, stageB := .recv }
  | .exited => none

/-- The write of Stage B returns an error (the encoder has gone): the loop panics. -/
def pipeError (s : State) : Option State :=
  match s.stageB with
  | .write _ => some { s with fault := some .writeFailed }
  | _ => none

/-- The GPU completes the commands before the fence of slot `pbo`. -/
def gpuSignal (s : State) (pbo : Nat) : Option State :=
  if (s.slots pbo).sync = .pending then
    some { s with slots := setSlot s.slots pbo { s.slots pbo with sync := .signaled } }
  else none

/-! ## The step function -/

/-- Who moves next. -/
inductive Action where
  | makeFrame (frame : List Nat)
  | stopVideo
  | render
  | stageA
  | stageB
  | convert (pbo : Nat)
  | gpuSignal (pbo : Nat)
  | pipeError
  deriving DecidableEq, Repr

/-- One atomic step of the pipeline; `none` when the action is not enabled.
A panic ends the process. -/
def step (c : Settings) (s : State) (a : Action) : Option State :=
  if s.fault.isSome then none
  else
    match a with
    | .makeFrame frame => MakeFrame c s frame
    | .stopVideo => stopVideo s
    | .render => renderStep s
    | .stageA => stageAStep s
    | .stageB => stageBStep s
    | .convert pbo => convertStep c s pbo
    | .gpuSignal pbo => gpuSignal s pbo
    | .pipeError => pipeError s

/-- The states the pipeline can be in after `startVideo`. -/
inductive Reachable (c : Settings) : State → Prop where
  | start : Reachable c (startVideo c)
  | step {s s' : State} (a : Action) : Reachable c s → step c s a = some s' → Reachable c s'

/-- Run a schedule from a state; an action that is not enabled is skipped. -/
def exec (c : Settings) (s : State) (as : List Action) : State :=
  as.foldl (fun s a => (step c s a).getD s) s

/-! ## The lock `pboSync` and the wait group `emptySync` -/

/-- Whether the render thread is between `pboSync.Lock()` and `pboSync.Unlock()`. -/
def renderHolds : RenderPc → Bool
  | .take => true
  | .add _ => true
  | .unlock _ => true
  | _ => false

/-- Whether Stage B is between `pboSync.Lock()` and `pboSync.Unlock()`. -/
def stageBHolds : StageBPc → Bool
  | .test _ => true
  | .append _ => true
  | .unlock => true
  | _ => false

/-- Stage B has run its `emptySync.Done()` test and not yet appended. -/
def stageBAppending : StageBPc → Bool
  | .append _ => true
  | _ => false

/-- The render thread has taken a slot and not yet run its `emptySync.Add(1)` test. -/
def renderAdding : RenderPc → Bool
  | .add _ => true
  | _ => false

/-- The counter of `emptySync` agrees with the pool: one when `pboPool` is
empty, zero otherwise. -/
def emptyAgrees (emptySync : Nat) (pboPool : List Nat) : Prop :=
  (pboPool = [] → emptySync = 1) ∧ (pboPool ≠ [] → emptySync = 0)

/-- The lock discipline of `pboSync` and the counter of `emptySync`, on the
fields it concerns: the lock is held exactly inside the two critical sections,
which exclude each other; the counter agrees with the pool except between a
test of `len(pboPool) == 0` and the change of the pool it belongs to; the
render thread reaches line 355 only with a slot in the pool. -/
def lockOK (pboSync : Bool) (emptySync : Nat) (pboPool : List Nat) (render : RenderPc)
    (stageB : StageBPc) : Prop :=
  pboSync = (renderHolds render || stageBHolds stageB) ∧
  (renderHolds render = false ∨ stageBHolds stageB = false) ∧
  (if stageBAppending stageB || renderAdding render then emptySync = 0
    else emptyAgrees emptySync pboPool) ∧
  (render = .lock → pboPool ≠ [] ∨ stageBAppending stageB = true) ∧
  (render = .take → pboPool ≠ [])

/-- The lock invariant of a state. -/
def LockInv (s : State) : Prop :=
  lockOK s.pboSync s.emptySync s.pboPool s.render s.stageB

/-! ## Where the slots are -/

/-- The slot in the local variable `pbo` of `MakeFrame`, between line 355 and
the append to `syncPool`. -/
def renderAcquired : RenderPc → List Nat
  | .add p => [p]
  | .unlock p => [p]
  | .readback p => [p]
  | _ => []

/-- The slot in the local variable `pbo` of `checkData`, between
`syncPool = syncPool[1:]` and the send to `videoQueue`. -/
def renderSending : RenderPc → List Nat
  | .checkSend _ _ _ _ p => [p]
  | _ => []

/-- The slot Stage A has received and not yet sent on. -/
def stageAHeld : StageAPc → List Nat
  | .dispatch p => [p]
  | .send p => [p]
  | _ => []

/-- The slot Stage B has received and not yet appended to `pboPool`. -/
def stageBHeld : StageBPc → List Nat
  | .wait p => [p]
  | .write p => [p]
  | .lock p => [p]
  | .test p => [p]
  | .append p => [p]
  | _ => []

/-- Every place a slot can be in, one after the other: the free pool, the fence
list, the two channels and the local variables of the three threads. -/
def allSlots (s : State) : List Nat :=
  s.pboPool ++ renderAcquired s.render ++ s.syncPool ++ renderSending s.render ++
    s.videoQueue ++ stageAHeld s.stageA ++ s.readyQueue ++ stageBHeld s.stageB

/-- Each of the `MaxVideoBuffers` slots is in exactly one place, on the fields
concerned. -/
def slotsOK (pboPool syncPool videoQueue readyQueue : List Nat) (render : RenderPc)
    (stageA : StageAPc) (stageB : StageBPc) : Prop :=
  ∀ a, pboPool.count a + (renderAcquired render).count a + syncPool.count a +
      (renderSending render).count a + videoQueue.count a + (stageAHeld stageA).count a +
      readyQueue.count a + (stageBHeld stageB).count a = (List.range MaxVideoBuffers).count a

/-- Each slot is in exactly one place. -/
def SlotsInv (s : State) : Prop :=
  slotsOK s.pboPool s.syncPool s.videoQueue s.readyQueue s.render s.stageA s.stageB

/-- The history counters: every slot missing from the pool has been taken at
line 355 and not yet given back by Stage B. -/
def CountInv (s : State) : Prop :=
  s.pboPool.length + s.acquired = MaxVideoBuffers + s.released

/-! ## The shutdown protocol of `stopVideo` -/

/-- How far `stopVideo` has come: 0 outside of it, 1 inside `checkData(true, true)`,
then one more for each statement reached: `close(videoQueue)` (2),
`endSyncVideo.Wait()` (3), `close(readyQueue)` (4), `endSyncReady.Wait()` (5),
`videoPipe.Close()` (6), `cmdVideo.Wait()` (7), returned (8). -/
def stopStage : RenderPc → Nat
  | .checkData _ _ _ .stop => 1
  | .checkSend _ _ _ .stop _ => 1
  | .closeVideoQueue => 2
  | .waitVideo => 3
  | .closeReadyQueue => 4
  | .waitReady => 5
  | .closePipe => 6
  | .waitCmd => 7
  | .stopped => 8
  | _ => 0

/-- Inside the `checkData` of `stopVideo` the argument `waitForAll` is true. -/
def drainArgs : RenderPc → Prop
  | .checkData _ _ waitForAll .stop => waitForAll = true
  | .checkSend _ _ waitForAll .stop _ => waitForAll = true
  | _ => True

/-- The shutdown protocol, on the fields it concerns. -/
def stopOK (videoQueueClosed readyQueueClosed pipeClosed cmdWaited : Bool)
    (endSyncVideo endSyncReady : Nat) (syncPool videoQueue readyQueue : List Nat)
    (render : RenderPc) (stageA : StageAPc) (stageB : StageBPc) : Prop :=
  (videoQueueClosed = true ↔ 3 ≤ stopStage render) ∧
  (readyQueueClosed = true ↔ 5 ≤ stopStage render) ∧
  (pipeClosed = true ↔ 7 ≤ stopStage render) ∧
  (cmdWaited = true ↔ 8 ≤ stopStage render) ∧
  (stageA = .exited → endSyncVideo = 0) ∧
  (stageA ≠ .exited → endSyncVideo = 1) ∧
  (stageB = .exited → endSyncReady = 0) ∧
  (stageB ≠ .exited → endSyncReady = 1) ∧
  (stageA = .exited → videoQueueClosed = true ∧ videoQueue = []) ∧
  (stageB = .exited → readyQueueClosed = true ∧ readyQueue = []) ∧
  (4 ≤ stopStage render → stageA = .exited) ∧
  (6 ≤ stopStage render → stageB = .exited) ∧
  (2 ≤ stopStage render → syncPool = []) ∧
  drainArgs render

/-- The shutdown invariant of a state. -/
def StopInv (s : State) : Prop :=
  stopOK s.videoQueueClosed s.readyQueueClosed s.pipeClosed s.cmdWaited s.endSyncVideo
    s.endSyncReady s.syncPool s.videoQueue s.readyQueue s.render s.stageA s.stageB

/-! ## The contents of the slots -/

/-- The size of the conversion buffer `createPBO` makes for a format that is
converted. -/
def convSize (c : Settings) (format : PixFmt) : Nat :=
  if format = .NV12 ∨ format = .NV21 then c.w * c.h * 3 / 2
  else c.requiredBufferSize format c.w c.h

/-- The bytes the pipeline is to send for a frame whose readback delivered
`data`: the data itself for the formats Stage A passes through, the result of
`pixconv.Convert` into the conversion buffer otherwise. -/
def converted (c : Settings) (data : List Nat) : List Nat :=
  if passThrough c.parsedFormat then data
  else convertBytes c data (sourceLayout c.parsedFormat) (convSize c c.parsedFormat)
    c.parsedFormat

/-- What stays true of every slot: its format, the size of its mapped buffer,
and the kind and size of its conversion buffer. -/
def slotShape (c : Settings) (p : PBO) : Prop :=
  p.convFormat = c.parsedFormat ∧ p.data.length = glSize c c.parsedFormat ∧
  (if passThrough c.parsedFormat then p.convData = .nil ∨ p.convData = .alias
    else ∃ b, p.convData = .own b ∧ b.length = convSize c c.parsedFormat)

/-- Every slot has the shape `createPBO` gave it. -/
def ShapeInv (c : Settings) (s : State) : Prop := ∀ i, slotShape c (s.slots i)

/-! ## The conversion goroutines -/

/-- The slot Stage B has received and not yet written. -/
def stageBWriting : StageBPc → List Nat
  | .wait p => [p]
  | .write p => [p]
  | _ => []

/-- The slot Stage A has dispatched and not yet sent on. -/
def stageASending : StageAPc → List Nat
  | .send p => [p]
  | _ => []

/-- The conversion goroutines, on the fields concerned: the counter of
`convertSync` of a slot is the number of its running goroutines; a goroutine
runs only for a slot that Stage A has dispatched and Stage B has not written;
goroutines exist only for a format that is converted; Stage B is at its write
only when the goroutine of its slot is over. -/
def taskOK (c : Settings) (slots : Nat → PBO) (tasks readyQueue : List Nat)
    (stageA : StageAPc) (stageB : StageBPc) : Prop :=
  (∀ i, (slots i).convertSync = tasks.count i) ∧
  (∀ i, tasks.count i ≤
    (stageBWriting stageB).count i + readyQueue.count i + (stageASending stageA).count i) ∧
  (tasks ≠ [] → passThrough c.parsedFormat = false) ∧
  (∀ p, stageB = .write p → tasks.count p = 0)

/-- The invariant of the conversion goroutines. -/
def TaskInv (c : Settings) (s : State) : Prop :=
  taskOK c s.slots s.tasks s.readyQueue s.stageA s.stageB

/-! ## The order of the frames -/

/-- The slots that hold a captured frame not yet written, oldest first: the slot
Stage B is about to write, `readyQueue`, the slot in Stage A, `videoQueue`, the
slot `checkData` is sending, `syncPool`. -/
def inflight (syncPool videoQueue readyQueue : List Nat) (render : RenderPc)
    (stageA : StageAPc) (stageB : StageBPc) : List Nat :=
  stageBWriting stageB ++ readyQueue ++ stageAHeld stageA ++ videoQueue ++
    renderSending render ++ syncPool

/-- The frames of a state that are captured and not yet written, oldest first. -/
def State.inflight (s : State) : List Nat :=
  Video.inflight s.syncPool s.videoQueue s.readyQueue s.render s.stageA s.stageB

/-- The order of the frames, on the fields concerned: a dispatched slot whose
goroutine is over holds the converted bytes of its data, and the buffers written
followed by the converted bytes of the frames in flight are the converted bytes
of the captured frames, in capture order. -/
def orderOK (c : Settings) (slots : Nat → PBO) (tasks : List Nat)
    (written captured : List (List Nat)) (syncPool videoQueue readyQueue : List Nat)
    (render : RenderPc) (stageA : StageAPc) (stageB : StageBPc) : Prop :=
  (∀ i, i ∈ stageBWriting stageB ++ readyQueue ++ stageASending stageA → i ∉ tasks →
    convBytes (slots i) = converted c (slots i).data) ∧
  written ++ (inflight syncPool videoQueue readyQueue render stageA stageB).map
    (fun i => converted c (slots i).data) = captured.map (converted c)

/-- The order invariant of a state. -/
def OrderInv (c : Settings) (s : State) : Prop :=
  orderOK c s.slots s.tasks s.written s.captured s.syncPool s.videoQueue s.readyQueue
    s.render s.stageA s.stageB

/-! ## Panics -/

/-- The only panics the pipeline can raise: a failed write to the encoder, and
the division by zero of a motion blur with an oversample multiplier of zero. -/
def faultOK (c : Settings) (fault : Option Fault) : Prop :=
  fault = none ∨ fault = some .writeFailed ∨
    (fault = some .divideByZero ∧ c.motionBlur = true ∧ c.oversampleMultiplier = 0)

/-- The panic invariant of a state. -/
def FaultInv (c : Settings) (s : State) : Prop := faultOK c s.fault

/-! ## The captured frames and the fences -/

/-- Every readback delivers a buffer of the size of the mapped memory, and a
fence that is not yet signaled belongs to a slot of `syncPool`. -/
def CapInv (c : Settings) (s : State) : Prop :=
  (∀ d ∈ s.captured, d.length = glSize c c.parsedFormat) ∧
  (∀ i, (s.slots i).sync = .pending → i ∈ s.syncPool)

/-! ## The invariant of the pipeline -/

/-- All invariants of the pipeline together. -/
structure Inv (c : Settings) (s : State) : Prop where
  lock : LockInv s
  slots : SlotsInv s
  count : CountInv s
  stop : StopInv s
  shape : ShapeInv c s
  task : TaskInv c s
  order : OrderInv c s
  fault : FaultInv c s
  cap : CapInv c s

/-! ## A run of the pipeline used to instantiate the theorems -/

/-- A small configuration: 2 by 2 pixels, NV12, no motion blur. -/
def demo : Settings :=
  { w := 2, h := 2, parsedFormat := .NV12, motionBlur := false, oversampleMultiplier := 1
    requiredBufferSize := fun _ w h => w * h * 2
    convertByte := fun _ _ _ _ src i => src.getD i 0 + 100 }

/-- The render thread runs `n` steps. -/
def renders (n : Nat) : List Action := List.replicate n .render

/-- Stage A runs `n` steps. -/
def stageAs (n : Nat) : List Action := List.replicate n .stageA

/-- Stage B runs `n` steps. -/
def stageBs (n : Nat) : List Action := List.replicate n .stageB

/-- A complete session: two frames are captured, the GPU signals both fences,
`stopVideo` is called, the conversion of the second frame finishes before that
of the first, and the pipeline drains. -/
def demoRun : List Action :=
  [.makeFrame [1, 2, 3, 4, 5, 6]] ++ renders 9 ++ [.makeFrame [7, 8, 9, 10, 11, 12]] ++
  renders 9 ++ [.gpuSignal 0, .gpuSignal 1, .stopVideo] ++ renders 6 ++ stageAs 7 ++
  [.convert 1, .convert 0] ++ renders 2 ++ stageBs 15 ++ renders 3

/-- The same configuration with packed RGB output, 2 by 1 pixels. -/
def demoRGB : Settings := { demo with h := 1, parsedFormat := .ARGB }

/-- A session of `demoRGB`: one frame goes through the whole pipeline. -/
def demoRunRGB : List Action :=
  [.makeFrame [1, 2, 3, 4, 5, 6]] ++ renders 9 ++ [.gpuSignal 0, .stopVideo] ++ renders 4 ++
  stageAs 4 ++ renders 2 ++ stageBs 8 ++ renders 3

/-! ## C3: backpressure -/

/-- Ten captures with no step of the workers in between, and the start of the
eleventh `MakeFrame`, which waits for a fence and then inside `emptySync.Wait()`. -/
def demoFull : List Action :=
  ((List.range 10).map (fun n => [Action.makeFrame [n]] ++ renders 9)).flatten ++
    [.makeFrame [10], .gpuSignal 0] ++ renders 10

/-! ## C6: release signalling -/

/-- The schedule `demoFull` followed by the steps that bring slot 0 through
Stage A, its conversion goroutine and Stage B up to Stage B's test of
`len(pboPool) == 0`, made with the lock held. -/
def demoRelease : List Action := demoFull ++ stageAs 3 ++ [.convert 0] ++ stageBs 4

/-! ## C5: `checkData` as a sequential function -/

/-- The calls `checkData` makes to the GL library. -/
inductive GLCall where
  | WaitSync (pbo : Nat)
  | GetSynciv (pbo : Nat)
  | DeleteSync (pbo : Nat)
  deriving DecidableEq, Repr

/-- What a call of `checkData` leaves: `syncPool`, the contents of `videoQueue`
and the GL calls made, in order. -/
structure CheckResult where
  syncPool : List Nat
  videoQueue : List Nat
  calls : List GLCall
  deriving DecidableEq, Repr

/-- The loop of `checkData` (lines 395 to 422) from iteration `i` on, run without
interruption. `signaled pbo` is the status `gl.GetSynciv` reports for the fence of
`pbo` when the loop polls it (each entry is polled at most once); `gl.WaitSync`
returns once the fence is signaled. -/
def checkDataLoop (signaled : Nat → Bool) (waitForFirst waitForAll : Bool) :
    Nat → List Nat → List Nat → List GLCall → CheckResult
  | _, [], videoQueue, calls => ⟨[], videoQueue, calls⟩
  | i, pbo :: rest, videoQueue, calls =>
    if (i == 0 && waitForFirst) || waitForAll then
      checkDataLoop signaled waitForFirst waitForAll (i + 1) rest (videoQueue ++ [pbo])
        (calls ++ [.WaitSync pbo, .DeleteSync pbo])
    else if signaled pbo then
      checkDataLoop signaled waitForFirst waitForAll (i + 1) rest (videoQueue ++ [pbo])
        (calls ++ [.GetSynciv pbo, .DeleteSync pbo])
    else ⟨pbo :: rest, videoQueue, calls ++ [.GetSynciv pbo]⟩

/-- The function `checkData(waitForFirst, waitForAll)`. -/
def checkData (signaled : Nat → Bool) (waitForFirst waitForAll : Bool)
    (syncPool videoQueue : List Nat) : CheckResult :=
  checkDataLoop signaled waitForFirst waitForAll 0 syncPool videoQueue []

/-- The reference: the entry at position `i` is waited on when it is the first
and `blockFirst` is set, or `blockAll` is set. -/
def waitedOn (blockFirst blockAll : Bool) (i : Nat) : Bool :=
  (i == 0 && blockFirst) || blockAll

/-- The reference: the walk passes an entry (position, slot) that was waited on
or polled as signaled. -/
def passed (signaled : Nat → Bool) (blockFirst blockAll : Bool) (e : Nat × Nat) : Bool :=
  waitedOn blockFirst blockAll e.1 || signaled e.2

/-- The reference: the GL calls for a list of entries (position, slot): a wait or
a poll, then the destruction of the fence, for each entry of the longest prefix
of passed entries, and a poll for the entry that stops the walk. -/
def retireCalls (signaled : Nat → Bool) (blockFirst blockAll : Bool)
    (entries : List (Nat × Nat)) : List GLCall :=
  ((entries.takeWhile (passed signaled blockFirst blockAll)).map (fun e =>
      [if waitedOn blockFirst blockAll e.1 then GLCall.WaitSync e.2 else GLCall.GetSynciv e.2,
        GLCall.DeleteSync e.2])).flatten ++
    ((entries.dropWhile (passed signaled blockFirst blockAll)).head?.map
      (fun e => GLCall.GetSynciv e.2)).toList

/-- The reference retire of the specification: remove the longest prefix of
`syncPool` whose entries were waited on or polled as signaled, hand the removed
slots to the conversion queue in the same order, leave the rest. -/
def retireSpec (signaled : Nat → Bool) (blockFirst blockAll : Bool)
    (syncPool videoQueue : List Nat) : CheckResult :=
  { syncPool :=
      syncPool.drop ((syncPool.enum.takeWhile (passed signaled blockFirst blockAll)).length)
    videoQueue := videoQueue ++
      syncPool.take ((syncPool.enum.takeWhile (passed signaled blockFirst blockAll)).length)
    calls := retireCalls signaled blockFirst blockAll syncPool.enum }

/-- The slot whose fence a GL call destroys. -/
def destroyed : GLCall → Option Nat
  | .DeleteSync p => some p
  | _ => none

/-! ## C10: oversampling -/

/-- Every slot of `syncPool` has a fence that is pending or signaled. -/
def FenceInv (s : State) : Prop :=
  ∀ i ∈ s.syncPool, (s.slots i).sync = .pending ∨ (s.slots i).sync = .signaled

/-- The number of slots of a list whose fence is pending. -/
def pendingIn (slots : Nat → PBO) (l : List Nat) : Nat :=
  l.countP (fun i => decide ((slots i).sync = .pending))

/-- Weight of the statements of `stopVideo` still to run. -/
def renderWeight : RenderPc → Nat
  | .checkData _ _ _ _ => 7
  | .checkSend _ _ _ _ _ => 20
  | .closeVideoQueue => 6
  | .waitVideo => 5
  | .closeReadyQueue => 4
  | .waitReady => 3
  | .closePipe => 2
  | .waitCmd => 1
  | _ => 0

/-- Weight of the position of Stage A in its loop, the slot it holds included. -/
def stageAWeight : StageAPc → Nat
  | .recv => 1
  | .dispatch _ => 12
  | .send _ => 10
  | .exited => 0

/-- Weight of the position of Stage B in its loop, the slot it holds included. -/
def stageBWeight : StageBPc → Nat
  | .recv => 1
  | .wait _ => 7
  | .write _ => 6
  | .lock _ => 5
  | .test _ => 4
  | .append _ => 3
  | .unlock => 2
  | .exited => 0

/-- The work left before `stopVideo` returns: a bound on the number of steps the
threads, the conversion goroutines and the GPU can still take. -/
def drainMeasure (s : State) : Nat :=
  renderWeight s.render + stageAWeight s.stageA + stageBWeight s.stageB +
    14 * s.syncPool.length + pendingIn s.slots s.syncPool + 12 * s.videoQueue.length +
    8 * s.readyQueue.length + s.tasks.length

/-- The actions of the pipeline itself: the render thread, the two worker loops,
the conversion goroutines and the GPU; not a call by the renderer, not a failure
of the encoder. -/
def isProgress : Action → Bool
  | .render => true
  | .stageA => true
  | .stageB => true
  | .convert _ => true
  | .gpuSignal _ => true
  | _ => false

/-- The scheduler used to drain the pipeline: finish a conversion, else let
Stage B run, else Stage A, else let the GPU signal the oldest fence, else let the
render thread run. -/
def nextAction (s : State) : Action :=
  match s.tasks with
  | k :: _ => .convert k
  | [] =>
    if (stageBStep s).isSome then .stageB
    else if (stageAStep s).isSome then .stageA
    else
      match s.syncPool with
      | k :: _ => if (s.slots k).sync = .pending then .gpuSignal k else .render
      | [] => .render

/-- Run a schedule of which every action has to be enabled. -/
def run (c : Settings) (s : State) : List Action → Option State
  | [] => some s
  | a :: as => (step c s a).bind (fun s' => run c s' as)

/-! ## The steps of the render thread run `checkData` -/

/-- The status `gl.GetSynciv` reports in a state. -/
def signaledIn (s : State) (p : Nat) : Bool := decide ((s.slots p).sync = .signaled)

/-! ## C11: the sizes of package `attribute` -/

/-- `type Type int` of package `attribute`: the type of an OpenGL attribute. -/
abbrev Attribute.AttrType := ℤ

/-- `Int = Type(gl.INT)`; the values of the constants are those of the OpenGL
enumerants that package `gl` exports. -/
def Attribute.Int : Attribute.AttrType := 0x1404

/-- `Float = Type(gl.FLOAT)`. -/
def Attribute.Float : Attribute.AttrType := 0x1406

/-- `Vec2 = Type(gl.FLOAT_VEC2)`. -/
def Attribute.Vec2 : Attribute.AttrType := 0x8B50

/-- `Vec3 = Type(gl.FLOAT_VEC3)`. -/
def Attribute.Vec3 : Attribute.AttrType := 0x8B51

/-- `Vec4 = Type(gl.FLOAT_VEC4)`. -/
def Attribute.Vec4 : Attribute.AttrType := 0x8B52

/-- `Mat2 = Type(gl.FLOAT_MAT2)`. -/
def Attribute.Mat2 : Attribute.AttrType := 0x8B5A

/-- `Mat23 = Type(gl.FLOAT_MAT2x3)`. -/
def Attribute.Mat23 : Attribute.AttrType := 0x8B65

/-- `Mat24 = Type(gl.FLOAT_MAT2x4)`. -/
def Attribute.Mat24 : Attribute.AttrType := 0x8B66

/-- `Mat3 = Type(gl.FLOAT_MAT3)`. -/
def Attribute.Mat3 : Attribute.AttrType := 0x8B5B

/-- `Mat32 = Type(gl.FLOAT_MAT3x2)`. -/
def Attribute.Mat32 : Attribute.AttrType := 0x8B67

/-- `Mat34 = Type(gl.FLOAT_MAT3x4)`. -/
def Attribute.Mat34 : Attribute.AttrType := 0x8B68

/-- `Mat4 = Type(gl.FLOAT_MAT4)`. -/
def Attribute.Mat4 : Attribute.AttrType := 0x8B5C

/-- `Mat42 = Type(gl.FLOAT_MAT4x2)`. -/
def Attribute.Mat42 : Attribute.AttrType := 0x8B69

/-- `Mat43 = Type(gl.FLOAT_MAT4x3)`. -/
def Attribute.Mat43 : Attribute.AttrType := 0x8B6A

/-- The method `Type.Size`; `none` is the panic of the `default` case. -/
def Attribute.AttrType.Size (t : Attribute.AttrType) : Option ℤ :=
  if t = Attribute.Int then some 4
  else if t = Attribute.Float then some 4
  else if t = Attribute.Vec2 then some (2 * 4)
  else if t = Attribute.Vec3 then some (3 * 4)
  else if t = Attribute.Vec4 then some (4 * 4)
  else if t = Attribute.Mat2 then some (2 * 2 * 4)
  else if t = Attribute.Mat23 then some (2 * 3 * 4)
  else if t = Attribute.Mat24 then some (2 * 4 * 4)
  else if t = Attribute.Mat3 then some (3 * 3 * 4)
  else if t = Attribute.Mat32 then some (3 * 2 * 4)
  else if t = Attribute.Mat34 then some (3 * 4 * 4)
  else if t = Attribute.Mat4 then some (4 * 4 * 4)
  else if t = Attribute.Mat42 then some (4 * 2 * 4)
  else if t = Attribute.Mat43 then some (4 * 3 * 4)
  else none

/-- `type VertexAttribute struct`. -/
structure Attribute.VertexAttribute where
  Name : String
  /-- The field `Type`. -/
  Type_ : Attribute.AttrType
  Location : Nat
  deriving DecidableEq, Repr

/-- `type Format []VertexAttribute`. -/
abbrev Attribute.Format := List Attribute.VertexAttribute

/-- The loop of `Format.Size` from a value of `total`: `total += attr.Type_.Size()`
on the `int` of Go, for every attribute in order; a panic of `Type.Size` ends it. -/
def Attribute.Format.sizeLoop : Attribute.Format → ℤ → Option ℤ
  | [], total => some total
  | attr :: rest, total =>
    match Attribute.AttrType.Size attr.Type_ with
    | none => none
    | some n => Attribute.Format.sizeLoop rest (wrap64 (total + n))

/-- The method `Format.Size`. -/
def Attribute.Format.Size (af : Attribute.Format) : Option ℤ :=
  Attribute.Format.sizeLoop af 0

/-- The fourteen attribute types the package lists, in the order of the list. -/
def Attribute.listed : List Attribute.AttrType :=
  [Attribute.Int, Attribute.Float, Attribute.Vec2, Attribute.Vec3, Attribute.Vec4,
    Attribute.Mat2, Attribute.Mat23, Attribute.Mat24, Attribute.Mat3, Attribute.Mat32,
    Attribute.Mat34, Attribute.Mat4, Attribute.Mat42, Attribute.Mat43]

/-- The size of a listed type in bytes, zero for any other value. -/
def Attribute.bytes (t : Attribute.AttrType) : ℤ := (Attribute.AttrType.Size t).getD 0

/-- The sum of the sizes of the attributes of a format. -/
def Attribute.sumBytes (af : Attribute.Format) : ℤ :=
  (af.map (fun a => Attribute.bytes a.Type_)).sum

/-- A vertex format of a position, a colour and a transform. -/
def Attribute.demoFormat : Attribute.Format :=
  [⟨"position", Attribute.Vec2, 0⟩, ⟨"color", Attribute.Vec4, 1⟩, ⟨"transform", Attribute.Mat34, 2⟩]

/-! ## C12: the layout of a 4:2:0 readback -/

/-- The conversion `int32(x)` of Go, on an `int`. -/
def int32 (x : ℤ) : ℤ := (x + 2 ^ 31) % 2 ^ 32 - 2 ^ 31

/-- The length of the array type `[1 << 30]byte` through which `createPBO` slices
the mapped memory: `(*[1 << 30]byte)(pbo.memPointer)[:glSize:glSize]` panics for
a larger `glSize`. -/
def mappedArrayLen : Nat := 1 <<< 30

/-- A readback command of `MakeFrame` (`gl.GetTextureSubImage` or
`gl.ReadPixels`), by the arguments that fix where it writes in the buffer bound
to `gl.PIXEL_PACK_BUFFER`: `width`, `height`, the bytes per pixel of the format
(one for `gl.RED`, `gl.GREEN`, `gl.BLUE`, three for `gl.RGB`, all of
`gl.UNSIGNED_BYTE`), the argument `bufSize` (absent for `gl.ReadPixels`) and the
offset given as `pixels`. -/
structure ReadCall where
  width : ℤ
  height : ℤ
  channels : Nat
  bufSize : Option ℤ
  offset : Nat
  deriving DecidableEq, Repr

/-- The readback commands `MakeFrame` issues for a slot of a format (lines 370
to 380). -/
def readbackCalls (c : Settings) (format : PixFmt) : List ReadCall :=
  if format = .I420 ∨ format = .NV12 ∨ format = .NV21 then
    [ { width := int32 c.w, height := int32 c.h, channels := 1
        bufSize := some (int32 ((c.w * c.h : Nat) : ℤ)), offset := 0 },
      { width := int32 ((c.w / 2 : Nat) : ℤ), height := int32 ((c.h / 2 : Nat) : ℤ), channels := 1
        bufSize := some (int32 ((c.w * c.h / 4 : Nat) : ℤ)), offset := c.w * c.h },
      { width := int32 ((c.w / 2 : Nat) : ℤ), height := int32 ((c.h / 2 : Nat) : ℤ), channels := 1
        bufSize := some (int32 ((c.w * c.h / 4 : Nat) : ℤ)), offset := c.w * c.h * 5 / 4 } ]
  else if format ≠ .ARGB then
    [ { width := int32 c.w, height := int32 c.h, channels := 1
        bufSize := some (int32 ((c.w * c.h : Nat) : ℤ)), offset := 0 },
      { width := int32 c.w, height := int32 c.h, channels := 1
        bufSize := some (int32 ((c.w * c.h : Nat) : ℤ)), offset := c.w * c.h },
      { width := int32 c.w, height := int32 c.h, channels := 1
        bufSize := some (int32 ((c.w * c.h : Nat) : ℤ)), offset := c.w * c.h * 2 } ]
  else
    [ { width := int32 c.w, height := int32 c.h, channels := 3, bufSize := none, offset := 0 } ]

/-- The number of bytes a readback command delivers: with `gl.PACK_ALIGNMENT` at
1 (line 368) the rows are packed, `width * height` pixels of `channels` bytes. -/
def ReadCall.bytes (r : ReadCall) : Nat := (r.width * r.height * r.channels).toNat

/-- The byte positions of the buffer a readback command writes. -/
def ReadCall.region (r : ReadCall) : List Nat := List.range' r.offset r.bytes

/-- A frame of 3 by 3 pixels in I420. -/
def demoOdd : Settings := { demo with w := 3, h := 3, parsedFormat := .I420 }

/-- The three regions of a 4:2:0 frame as the specification gives them: the luma
plane of `w*h` bytes at offset 0 and two chroma planes of `(w/2)*(h/2)` bytes at
the offsets `w*h` and `w*h*5/4`. -/
def planes420 (w h : Nat) : List (List Nat) :=
  [List.range' 0 (w * h), List.range' (w * h) ((w / 2) * (h / 2)),
    List.range' (w * h * 5 / 4) ((w / 2) * (h / 2))]

/-! ## C13: the pixel format declared to the encoder -/

/-- What `startVideo` reads from `settings.Recording`, together with the
functions and values of other packages it uses on the way to the argument list
of the encoder: `strings.ToLower`, `strings.TrimSpace`, the name of the input
(`"-"` on Windows, the name of the pipe made by `files.NewNamedPipe` elsewhere,
`none` when the pipe cannot be made), the result of
`GetEncoderOptions().GenerateFFmpegArgs()` (`none` for an error) and the output
path built by `filepath.Join`. -/
structure VideoEnv where
  PixelFormat : String
  Filters : String
  Encoder : String
  ToLower : String → String
  TrimSpace : String → String
  inputName : Option String
  encOptions : Option (List String)
  outputPath : String

/-- The assignment to `parsedFormat` (lines 102 to 115): `pixconv.ARGB` unless the
`switch` on the lowercased setting finds one of its five cases. -/
def parseFormat (e : VideoEnv) : PixFmt :=
  if e.ToLower e.PixelFormat = "yuv420p" then .I420
  else if e.ToLower e.PixelFormat = "yuv422p" then .I422
  else if e.ToLower e.PixelFormat = "yuv444p" then .I444
  else if e.ToLower e.PixelFormat = "nv12" then .NV12
  else if e.ToLower e.PixelFormat = "nv21" then .NV21
  else .ARGB

/-- The variable `inputPixFmt` (lines 117 to 120). -/
def inputPixFmt (e : VideoEnv) : String :=
  if parseFormat e ≠ .ARGB then e.ToLower e.PixelFormat else "rgb24"

/-- The variable `videoFilters` (lines 122 to 125). -/
def videoFilters (e : VideoEnv) : String :=
  if (e.TrimSpace e.Filters).utf8ByteSize > 0 then "," ++ e.TrimSpace e.Filters
  else e.TrimSpace e.Filters

/-- The frame rate `startVideo` declares: `fps /= OversampleMultiplier` under
motion blur, a division of Go on `int`; `none` is the panic of a division by
zero. -/
def declaredFps (c : Settings) (fps : ℤ) : Option ℤ :=
  if c.motionBlur then
    if c.oversampleMultiplier = 0 then none
    else some (wrap64 (Int.tdiv fps c.oversampleMultiplier))
  else some fps

/-- The slice `options` with which `startVideo` runs the encoder (lines 139 to
174); `none` when `startVideo` panics before. -/
def encoderOptions (c : Settings) (e : VideoEnv) (fps : ℤ) : Option (List String) :=
  match declaredFps c fps, e.inputName, e.encOptions with
  | some r, some input, some enc =>
    some (["-y",
      "-f", "rawvideo",
      "-vcodec", "rawvideo",
      "-s", toString c.w ++ "x" ++ toString c.h,
      "-pix_fmt", inputPixFmt e,
      "-r", toString r,
      "-i", input,
      "-an",
      "-vf", "vflip" ++ videoFilters e,
      "-c:v", e.Encoder,
      "-color_range", "1",
      "-colorspace", "1",
      "-color_trc", "1",
      "-color_primaries", "1",
      "-movflags", "+write_colr"] ++
      (if parseFormat e = .ARGB then ["-pix_fmt", e.ToLower e.PixelFormat] else []) ++
      enc ++ [e.outputPath])
  | _, _, _ => none

/-- The layout of the bytes the readback of `MakeFrame` leaves in a slot (lines
370 to 380): planar 4:2:0 for I420, NV12 and NV21, planar 4:4:4 for every other
format but `ARGB`, packed RGB of three bytes for `ARGB`. -/
def readbackLayout (format : PixFmt) : PixFmt :=
  if format = .I420 ∨ format = .NV12 ∨ format = .NV21 then .I420
  else if format ≠ .ARGB then .I444
  else .ARGB

/-- The layout of the bytes Stage B writes for a slot: the layout read back when
Stage A passes the slot through, the target layout of `pixconv.Convert`
otherwise. -/
def streamedLayout (format : PixFmt) : PixFmt :=
  if passThrough format then readbackLayout format else format

/-- The name under which the encoder knows a layout (its `-pix_fmt` values);
`ARGB` stands for the packed RGB of three bytes that `gl.ReadPixels` with
`gl.RGB` delivers. -/
def pixFmtName : PixFmt → Option String
  | .ARGB => some "rgb24"
  | .I420 => some "yuv420p"
  | .I422 => some "yuv422p"
  | .I444 => some "yuv444p"
  | .NV12 => some "nv12"
  | .NV21 => some "nv21"
  | .other _ => none

/-- The lowercase of the ASCII letters, the part of `strings.ToLower` that
matters for the five names. -/
def asciiLower (s : String) : String := String.mk (s.data.map Char.toLower)

/-- The removal of leading and trailing ASCII white space, the part of
`strings.TrimSpace` on ASCII text. -/
def asciiTrim (s : String) : String :=
  String.mk ((s.data.dropWhile Char.isWhitespace).reverse.dropWhile Char.isWhitespace).reverse

/-- An environment with the setting `"NV12"`. -/
def demoEnv : VideoEnv :=
  { PixelFormat := "NV12", Filters := " hflip ", Encoder := "libx264", ToLower := asciiLower
    TrimSpace := asciiTrim, inputName := some "-", encOptions := some ["-crf", "14"]
    outputPath := "video.mp4" }

/-- The argument list `startVideo` builds in `demoEnv` for a frame of 2 by 2 pixels
at 60 frames per second. -/
def demoOptions : List String :=
  ["-y", "-f", "rawvideo", "-vcodec", "rawvideo", "-s", "2x2", "-pix_fmt", "nv12", "-r", "60",
    "-i", "-", "-an", "-vf", "vflip,hflip", "-c:v", "libx264", "-color_range", "1",
    "-colorspace", "1", "-color_trc", "1", "-color_primaries", "1", "-movflags", "+write_colr",
    "-crf", "14", "video.mp4"]

/-! ## C14: allocation and conversion agree -/

/-- The slots that Stage A has dispatched and Stage B has not yet written hold a
buffer in `convData`, on the fields concerned. -/
def dispOK (slots : Nat → PBO) (readyQueue : List Nat) (stageA : StageAPc)
    (stageB : StageBPc) : Prop :=
  ∀ i, i ∈ stageBWriting stageB ++ readyQueue ++ stageASending stageA →
    (slots i).convData ≠ .nil

/-- The invariant of the dispatched slots. -/
def DispInv (s : State) : Prop := dispOK s.slots s.readyQueue s.stageA s.stageB

/-! ## The lock `pboSync` and the wait group `emptySync` -/

theorem lockInv_start (c : Settings) : LockInv (startVideo c) := by
  simp [LockInv, lockOK, startVideo, renderHolds, stageBHolds, stageBAppending, renderAdding,
    emptyAgrees, MaxVideoBuffers, List.range_succ]

set_option maxHeartbeats 4000000 in
theorem lockInv_step {c : Settings} {s s' : State} {a : Action}
    (h : LockInv s) (hs : step c s a = some s') : LockInv s' := by
  obtain ⟨slots, pboPool, syncPool, videoQueue, videoQueueClosed, readyQueue, readyQueueClosed,
    pboSync, emptySync, endSyncVideo, endSyncReady, frameNumber, frameBuffer, tasks, written,
    pipeClosed, cmdWaited, render, stageA, stageB, fault, captured, acquired, released⟩ := s
  simp only [LockInv] at h
  unfold step at hs
  split at hs
  · simp at hs
  rename_i hf
  simp only [Option.not_isSome_iff_eq_none] at hf
  subst hf
  cases a <;>
    simp only [MakeFrame, stopVideo, renderStep, retire, stageAStep, stageBStep, convertStep,
      gpuSignal, pipeError] at hs
  all_goals repeat' split at hs
  all_goals first | (simp at hs; done) | skip
  all_goals cases hs
  all_goals simp only [LockInv]
  all_goals try cases ‹Ret›
  all_goals first
    | exact h
    | (simp_all [lockOK, renderHolds, renderAdding, emptyAgrees, retPc, stageBAppending,
        stageBHolds]; done)
    | (subst_vars; cases stageB <;>
        simp_all [lockOK, renderHolds, renderAdding, emptyAgrees, stageBAppending, stageBHolds]; done)
    | (subst_vars; cases render <;>
        simp_all [lockOK, renderHolds, renderAdding, emptyAgrees, stageBAppending, stageBHolds]; done)

/-! ## Where the slots are -/

theorem slotsInv_start (c : Settings) : SlotsInv (startVideo c) := by
  simp [SlotsInv, slotsOK, startVideo, renderAcquired, renderSending, stageAHeld, stageBHeld]

set_option maxHeartbeats 4000000 in
theorem slotsInv_step {c : Settings} {s s' : State} {a : Action}
    (h : SlotsInv s) (hs : step c s a = some s') : SlotsInv s' := by
  obtain ⟨slots, pboPool, syncPool, videoQueue, videoQueueClosed, readyQueue, readyQueueClosed,
    pboSync, emptySync, endSyncVideo, endSyncReady, frameNumber, frameBuffer, tasks, written,
    pipeClosed, cmdWaited, render, stageA, stageB, fault, captured, acquired, released⟩ := s
  simp only [SlotsInv] at h
  unfold step at hs
  split at hs
  · simp at hs
  rename_i hf
  clear hf
  cases a <;>
    simp only [MakeFrame, stopVideo, renderStep, retire, stageAStep, stageBStep, convertStep,
      gpuSignal, pipeError] at hs
  all_goals repeat' split at hs
  all_goals first | (simp at hs; done) | skip
  all_goals cases hs
  all_goals simp only [SlotsInv]
  all_goals try cases ‹Ret›
  all_goals first
    | exact h
    | (intro a
       have h := h a
       simp only [renderAcquired, renderSending, stageAHeld, stageBHeld, List.count_append,
         List.count_cons, List.count_nil, retPc] at h ⊢
       omega)

theorem countInv_start (c : Settings) : CountInv (startVideo c) := by
  simp [CountInv, startVideo]

set_option maxHeartbeats 4000000 in
theorem countInv_step {c : Settings} {s s' : State} {a : Action}
    (h : CountInv s) (hs : step c s a = some s') : CountInv s' := by
  obtain ⟨slots, pboPool, syncPool, videoQueue, videoQueueClosed, readyQueue, readyQueueClosed,
    pboSync, emptySync, endSyncVideo, endSyncReady, frameNumber, frameBuffer, tasks, written,
    pipeClosed, cmdWaited, render, stageA, stageB, fault, captured, acquired, released⟩ := s
  simp only [CountInv] at h
  unfold step at hs
  split at hs
  · simp at hs
  rename_i hf
  clear hf
  cases a <;>
    simp only [MakeFrame, stopVideo, renderStep, retire, stageAStep, stageBStep, convertStep,
      gpuSignal, pipeError] at hs
  all_goals repeat' split at hs
  all_goals first | (simp at hs; done) | skip
  all_goals cases hs
  all_goals simp only [CountInv]
  all_goals first
    | exact h
    | (simp only [List.length_cons, List.length_append, List.length_nil] at h ⊢
       omega)

/-! ## The shutdown protocol of `stopVideo` -/

theorem stopInv_start (c : Settings) : StopInv (startVideo c) := by
  simp [StopInv, stopOK, startVideo, stopStage, drainArgs]

set_option maxHeartbeats 4000000 in
theorem stopInv_step {c : Settings} {s s' : State} {a : Action}
    (h : StopInv s) (hs : step c s a = some s') : StopInv s' := by
  obtain ⟨slots, pboPool, syncPool, videoQueue, videoQueueClosed, readyQueue, readyQueueClosed,
    pboSync, emptySync, endSyncVideo, endSyncReady, frameNumber, frameBuffer, tasks, written,
    pipeClosed, cmdWaited, render, stageA, stageB, fault, captured, acquired, released⟩ := s
  simp only [StopInv] at h
  unfold step at hs
  split at hs
  · simp at hs
  rename_i hf
  clear hf
  cases a <;>
    simp only [MakeFrame, stopVideo, renderStep, retire, stageAStep, stageBStep, convertStep,
      gpuSignal, pipeError] at hs
  case makeFrame | stopVideo | render =>
    all_goals repeat' split at hs
    all_goals first | (simp at hs; done) | skip
    all_goals cases hs
    all_goals simp only [StopInv]
    all_goals try cases ‹Ret›
    all_goals first
      | exact h
      | (simp only [stopOK] at h
         obtain ⟨h1, h2, h3, h4, h5, h6, h7, h8, h9, h10, h11, h12, h13, h14⟩ := h
         simp_all [stopOK, stopStage, drainArgs, retPc]
         done)
  all_goals repeat' split at hs
  all_goals first | (simp at hs; done) | skip
  all_goals cases hs
  all_goals simp only [StopInv]
  all_goals first
    | exact h
    | (simp only [stopOK] at h
       obtain ⟨h1, h2, h3, h4, h5, h6, h7, h8, h9, h10, h11, h12, h13, h14⟩ := h
       simp_all [stopOK]
       done)
    | (simp only [stopOK] at h
       obtain ⟨h1, h2, h3, h4, h5, h6, h7, h8, h9, h10, h11, h12, h13, h14⟩ := h
       simp_all [stopOK]
       intro hx
       have := (h10 hx).1
       omega)

/-! ## The contents of the slots -/

theorem length_convertBytes (c : Settings) (src : List Nat) (f g : PixFmt) (n : Nat) :
    (convertBytes c src f n g).length = n := by
  simp [convertBytes]

theorem length_readPixels (n : Nat) (frame : List Nat) : (readPixels n frame).length = n := by
  simp [readPixels]

theorem slotShape_createPBO (c : Settings) : slotShape c (createPBO c c.parsedFormat) := by
  unfold slotShape createPBO passThrough convSize glSize
  refine ⟨rfl, by simp, ?_⟩
  cases c.parsedFormat <;> simp

theorem shapeInv_start (c : Settings) : ShapeInv c (startVideo c) :=
  fun _ => slotShape_createPBO c

theorem slotShape_sync {c : Settings} {p : PBO} (h : slotShape c p) (f : Fence) :
    slotShape c { p with sync := f } := h

theorem slotShape_convertSync {c : Settings} {p : PBO} (h : slotShape c p) (n : Nat) :
    slotShape c { p with convertSync := n } := h

theorem slotShape_readback {c : Settings} {p : PBO} (h : slotShape c p) (frame : List Nat) :
    slotShape c (readback p frame) := by
  obtain ⟨h1, h2, h3⟩ := h
  exact ⟨h1, by simp [readback, length_readPixels, h2], h3⟩

theorem slotShape_alias {c : Settings} {p : PBO} (h : slotShape c p)
    (hp : passThrough p.convFormat = true) : slotShape c { p with convData := .alias } := by
  obtain ⟨h1, h2, h3⟩ := h
  refine ⟨h1, h2, ?_⟩
  rw [h1] at hp
  simp [hp]

theorem slotShape_convertPBO {c : Settings} {p : PBO} (h : slotShape c p) :
    slotShape c (convertPBO c p) := by
  obtain ⟨h1, h2, h3⟩ := h
  unfold convertPBO
  split
  · exact ⟨h1, h2, h3⟩
  · exact ⟨h1, by simp [length_convertBytes, h2], h3⟩
  · rename_i b hb
    refine ⟨h1, h2, ?_⟩
    split
    · rename_i hp; simp [hp, hb] at h3
    · rename_i hp
      simp only [hp, hb] at h3
      obtain ⟨b', hb', hl⟩ := h3
      cases hb'
      exact ⟨_, rfl, by simp [length_convertBytes, hl]⟩

theorem shape_setSlot {c : Settings} {m : Nat → PBO} (h : ∀ i, slotShape c (m i)) (i : Nat)
    {p : PBO} (hp : slotShape c p) : ∀ j, slotShape c (setSlot m i p j) := by
  intro j
  unfold setSlot
  split
  · exact hp
  · exact h j

set_option maxHeartbeats 4000000 in
theorem shapeInv_step {c : Settings} {s s' : State} {a : Action}
    (h : ShapeInv c s) (hs : step c s a = some s') : ShapeInv c s' := by
  obtain ⟨slots, pboPool, syncPool, videoQueue, videoQueueClosed, readyQueue, readyQueueClosed,
    pboSync, emptySync, endSyncVideo, endSyncReady, frameNumber, frameBuffer, tasks, written,
    pipeClosed, cmdWaited, render, stageA, stageB, fault, captured, acquired, released⟩ := s
  simp only [ShapeInv] at h
  unfold step at hs
  split at hs
  · simp at hs
  rename_i hf
  clear hf
  cases a <;>
    simp only [MakeFrame, stopVideo, renderStep, retire, stageAStep, stageBStep, convertStep,
      gpuSignal, pipeError] at hs
  all_goals repeat' split at hs
  all_goals first | (simp at hs; done) | skip
  all_goals cases hs
  all_goals simp only [ShapeInv]
  all_goals first
    | exact h
    | exact shape_setSlot h _ (slotShape_sync (h _) _)
    | exact shape_setSlot h _ (slotShape_readback (h _) _)
    | exact shape_setSlot h _ (slotShape_alias (h _) ‹_›)
    | exact shape_setSlot h _ (slotShape_convertSync (h _) _)
    | exact shape_setSlot h _ (slotShape_convertSync (slotShape_convertPBO (h _)) _)

/-! ## The conversion goroutines -/

theorem count_range_le_one (n a : Nat) : (List.range n).count a ≤ 1 :=
  List.nodup_iff_count_le_one.mp (List.nodup_range n) a

@[simp] theorem convertSync_setSlot (m : Nat → PBO) (k : Nat) (p : PBO) (i : Nat) :
    (setSlot m k p i).convertSync = if i = k then p.convertSync else (m i).convertSync := by
  unfold setSlot; split <;> rfl

@[simp] theorem data_setSlot (m : Nat → PBO) (k : Nat) (p : PBO) (i : Nat) :
    (setSlot m k p i).data = if i = k then p.data else (m i).data := by
  unfold setSlot; split <;> rfl

@[simp] theorem convData_setSlot (m : Nat → PBO) (k : Nat) (p : PBO) (i : Nat) :
    (setSlot m k p i).convData = if i = k then p.convData else (m i).convData := by
  unfold setSlot; split <;> rfl

theorem taskInv_start (c : Settings) : TaskInv c (startVideo c) := by
  simp [TaskInv, taskOK, startVideo, createPBO, stageBWriting, stageASending]

theorem taskInv_stageA {c : Settings} {s s' : State}
    (hsl : SlotsInv s) (hsh : ShapeInv c s)
    (h : TaskInv c s) (hs : stageAStep s = some s') : TaskInv c s' := by
  obtain ⟨slots, pboPool, syncPool, videoQueue, videoQueueClosed, readyQueue, readyQueueClosed,
    pboSync, emptySync, endSyncVideo, endSyncReady, frameNumber, frameBuffer, tasks, written,
    pipeClosed, cmdWaited, render, stageA, stageB, fault, captured, acquired, released⟩ := s
  simp only [TaskInv, taskOK] at h
  simp only [SlotsInv, slotsOK] at hsl
  simp only [ShapeInv] at hsh
  obtain ⟨h1, h2, h3, h4⟩ := h
  simp only [stageAStep] at hs
  split at hs
  · -- receive
    repeat' split at hs
    all_goals first | (simp at hs; done) | skip
    all_goals cases hs
    all_goals exact ⟨h1, h2, h3, h4⟩
  · -- dispatch
    rename_i k
    split at hs
    · cases hs
      simp only [TaskInv, taskOK]
      refine ⟨?_, ?_, h3, h4⟩
      · intro i
        simp only [convertSync_setSlot]
        split
        · subst_vars; exact h1 _
        · exact h1 _
      · intro i
        have := h2 i
        simp only [stageASending, List.count_cons, List.count_nil] at this ⊢
        omega
    · rename_i hp
      cases hs
      simp only [TaskInv, taskOK]
      refine ⟨?_, ?_, ?_, ?_⟩
      · intro i
        have := h1 i
        simp only [convertSync_setSlot, List.count_append, List.count_cons, List.count_nil]
        by_cases hik : i = k
        · subst hik; simp; omega
        · have hki : ¬ k = i := fun e => hik e.symm
          simp [hik, hki]; omega
      · intro i
        have := h2 i
        simp only [stageASending, List.count_cons, List.count_nil, List.count_append] at this ⊢
        omega
      · intro _
        have := (hsh k).1
        simp only at this
        rw [this] at hp
        simpa using hp
      · intro p hpw
        subst hpw
        have := h4 p rfl
        have hs1 := hsl p
        have := count_range_le_one MaxVideoBuffers p
        simp only [stageAHeld, stageBHeld, List.count_cons, List.count_nil, List.count_append,
          beq_self_eq_true, if_true] at hs1 ⊢
        omega
  · -- send
    rename_i k
    repeat' split at hs
    all_goals first | (simp at hs; done) | skip
    all_goals cases hs
    all_goals simp only [TaskInv, taskOK]
    · exact ⟨h1, h2, h3, h4⟩
    · refine ⟨h1, ?_, h3, h4⟩
      intro i
      have := h2 i
      simp only [stageASending, List.count_cons, List.count_nil, List.count_append] at this ⊢
      omega
  · simp at hs

theorem taskInv_stageB {c : Settings} {s s' : State}
    (h : TaskInv c s) (hs : stageBStep s = some s') : TaskInv c s' := by
  obtain ⟨slots, pboPool, syncPool, videoQueue, videoQueueClosed, readyQueue, readyQueueClosed,
    pboSync, emptySync, endSyncVideo, endSyncReady, frameNumber, frameBuffer, tasks, written,
    pipeClosed, cmdWaited, render, stageA, stageB, fault, captured, acquired, released⟩ := s
  simp only [TaskInv, taskOK] at h
  obtain ⟨h1, h2, h3, h4⟩ := h
  simp only [stageBStep] at hs
  split at hs
  · -- receive
    repeat' split at hs
    all_goals first | (simp at hs; done) | skip
    all_goals cases hs
    all_goals simp only [TaskInv, taskOK]
    · refine ⟨h1, ?_, h3, by simp⟩
      intro i
      have := h2 i
      simp only [stageBWriting, List.count_cons, List.count_nil] at this ⊢
      omega
    · exact ⟨h1, h2, h3, h4⟩
    · exact ⟨h1, h2, h3, by simp⟩
  · -- wait
    rename_i k
    split at hs
    · rename_i h0
      cases hs
      simp only [TaskInv, taskOK]
      refine ⟨h1, h2, h3, ?_⟩
      intro p hp
      cases hp
      rw [← h1]; exact h0
    · simp at hs
  · -- write
    rename_i k
    split at hs
    · cases hs; exact ⟨h1, h2, h3, h4⟩
    · cases hs
      simp only [TaskInv, taskOK]
      refine ⟨h1, ?_, h3, by simp⟩
      intro i
      have e2 := h2 i
      have e4 := h4 k rfl
      simp only [stageBWriting, List.count_cons, List.count_nil] at e2 ⊢
      by_cases hki : k = i
      · subst hki; omega
      · simp [hki] at e2; omega
  all_goals repeat' split at hs
  all_goals first | (simp at hs; done) | skip
  all_goals cases hs
  all_goals exact ⟨h1, h2, h3, by simp⟩

theorem taskInv_convert {c : Settings} {s s' : State} {k : Nat}
    (h : TaskInv c s) (hs : convertStep c s k = some s') : TaskInv c s' := by
  obtain ⟨slots, pboPool, syncPool, videoQueue, videoQueueClosed, readyQueue, readyQueueClosed,
    pboSync, emptySync, endSyncVideo, endSyncReady, frameNumber, frameBuffer, tasks, written,
    pipeClosed, cmdWaited, render, stageA, stageB, fault, captured, acquired, released⟩ := s
  simp only [TaskInv, taskOK] at h
  obtain ⟨h1, h2, h3, h4⟩ := h
  simp only [convertStep] at hs
  repeat' split at hs
  all_goals first | (simp at hs; done) | skip
  all_goals cases hs
  all_goals simp only [TaskInv, taskOK]
  · exact ⟨h1, h2, h3, h4⟩
  · refine ⟨?_, ?_, ?_, ?_⟩
    · intro i
      have := h1 i
      simp only [convertSync_setSlot]
      by_cases hik : i = k
      · subst hik; simp; omega
      · simp [hik, List.count_erase_of_ne hik]; omega
    · intro i
      have := h2 i
      have : (tasks.erase k).count i ≤ tasks.count i := by
        rw [List.count_erase]; omega
      omega
    · intro hne
      apply h3
      intro e
      rw [e] at hne
      simp at hne
    · intro p hp
      have := h4 p hp
      have : (tasks.erase k).count p ≤ tasks.count p := by
        rw [List.count_erase]; omega
      omega

set_option maxHeartbeats 4000000 in
theorem taskInv_step {c : Settings} {s s' : State} {a : Action}
    (hsl : SlotsInv s) (hsh : ShapeInv c s)
    (h : TaskInv c s) (hs : step c s a = some s') : TaskInv c s' := by
  unfold step at hs
  split at hs
  · simp at hs
  rename_i hf
  clear hf
  cases a <;> simp only at hs
  case stageA => exact taskInv_stageA hsl hsh h hs
  case stageB => exact taskInv_stageB h hs
  case convert k => exact taskInv_convert h hs
  all_goals
    obtain ⟨slots, pboPool, syncPool, videoQueue, videoQueueClosed, readyQueue,
      readyQueueClosed, pboSync, emptySync, endSyncVideo, endSyncReady, frameNumber, frameBuffer,
      tasks, written, pipeClosed, cmdWaited, render, stageA, stageB, fault, captured, acquired,
      released⟩ := s
    simp only [TaskInv, taskOK] at h
    obtain ⟨h1, h2, h3, h4⟩ := h
    simp only [MakeFrame, stopVideo, renderStep, retire, gpuSignal, pipeError] at hs
    repeat' split at hs
  all_goals first | (simp at hs; done) | skip
  all_goals cases hs
  all_goals simp only [TaskInv]
  all_goals first
    | exact ⟨h1, h2, h3, h4⟩
    | (refine ⟨?_, h2, h3, h4⟩
       intro i
       simp only [convertSync_setSlot, readback]
       split
       · subst_vars; exact h1 _
       · exact h1 _)

/-! ## The order of the frames -/

theorem orderInv_start (c : Settings) : OrderInv c (startVideo c) := by
  simp [OrderInv, orderOK, inflight, startVideo, stageBWriting, stageASending, stageAHeld,
    renderSending]

theorem converted_setSlot_of_data (c : Settings) (m : Nat → PBO) (k : Nat) (p : PBO)
    (hd : p.data = (m k).data) :
    (fun i => converted c (setSlot m k p i).data) = fun i => converted c (m i).data := by
  funext i
  simp only [data_setSlot]
  split
  · subst_vars; rw [hd]
  · rfl

theorem convBytes_setSlot_of (m : Nat → PBO) (k : Nat) (p : PBO)
    (hd : p.data = (m k).data) (hc : p.convData = (m k).convData) (i : Nat) :
    convBytes (setSlot m k p i) = convBytes (m i) := by
  unfold setSlot
  split
  · subst_vars; unfold convBytes; rw [hd, hc]
  · rfl

theorem setSlot_of_ne (m : Nat → PBO) (k : Nat) (p : PBO) {i : Nat} (h : i ≠ k) :
    setSlot m k p i = m i := by
  simp [setSlot, h]

theorem setSlot_self (m : Nat → PBO) (k : Nat) (p : PBO) : setSlot m k p k = p := by
  simp [setSlot]

theorem map_setSlot_of_not_mem {β : Type} (g : PBO → β) (m : Nat → PBO) (k : Nat) (p : PBO)
    (l : List Nat) (h : k ∉ l) :
    l.map (fun i => g (setSlot m k p i)) = l.map (fun i => g (m i)) := by
  apply List.map_congr_left
  intro i hi
  have : i ≠ k := fun e => h (e ▸ hi)
  rw [setSlot_of_ne _ _ _ this]

theorem count_stageBWriting_le (p : StageBPc) (k : Nat) :
    (stageBWriting p).count k ≤ (stageBHeld p).count k := by
  cases p <;> simp [stageBWriting, stageBHeld]

theorem count_stageASending_le (p : StageAPc) (k : Nat) :
    (stageASending p).count k ≤ (stageAHeld p).count k := by
  cases p <;> simp [stageASending, stageAHeld]

/-- A change of a slot that leaves its data and its conversion buffer as they
are does not affect the order invariant. -/
theorem orderOK_update {c : Settings} {slots : Nat → PBO} {tasks : List Nat}
    {written captured : List (List Nat)} {syncPool videoQueue readyQueue : List Nat}
    {render : RenderPc} {stageA : StageAPc} {stageB : StageBPc}
    (h : orderOK c slots tasks written captured syncPool videoQueue readyQueue render stageA stageB)
    (k : Nat) (p : PBO) (hd : p.data = (slots k).data) (hc : p.convData = (slots k).convData) :
    orderOK c (setSlot slots k p) tasks written captured syncPool
      videoQueue readyQueue render stageA stageB := by
  obtain ⟨h1, h2⟩ := h
  refine ⟨?_, ?_⟩
  · intro i hi ht
    rw [convBytes_setSlot_of slots k p hd hc, data_setSlot]
    have := h1 i hi ht
    split
    · subst_vars; rw [hd]; exact this
    · exact this
  · rw [converted_setSlot_of_data c slots k p hd]; exact h2

/-- The readback of `MakeFrame` appends the new frame behind all frames in flight. -/
theorem orderOK_readback {c : Settings} {slots : Nat → PBO} {tasks : List Nat}
    {written captured : List (List Nat)} {pboPool syncPool videoQueue readyQueue : List Nat}
    {stageA : StageAPc} {stageB : StageBPc} {k : Nat} (frame : List Nat)
    (hsl : slotsOK pboPool syncPool videoQueue readyQueue (.readback k) stageA stageB)
    (h : orderOK c slots tasks written captured syncPool videoQueue readyQueue (.readback k)
      stageA stageB) :
    orderOK c (setSlot slots k (readback (slots k) frame)) tasks written
      (captured ++ [readPixels (slots k).data.length frame]) (syncPool ++ [k]) videoQueue
      readyQueue (.checkData 0 false false .limiter) stageA stageB := by
  obtain ⟨h1, h2⟩ := h
  have hk := hsl k
  have hr := count_range_le_one MaxVideoBuffers k
  have hb := count_stageBWriting_le stageB k
  have ha := count_stageASending_le stageA k
  simp only [renderAcquired, renderSending, List.count_cons, List.count_nil, beq_self_eq_true,
    if_true] at hk
  have n1 : k ∉ stageBWriting stageB ++ readyQueue ++ stageASending stageA := by
    rw [← List.count_eq_zero]; simp only [List.count_append]; omega
  have n2 : k ∉ inflight syncPool videoQueue readyQueue (.readback k) stageA stageB := by
    rw [← List.count_eq_zero]
    simp only [inflight, renderSending, List.count_append, List.count_nil]; omega
  refine ⟨?_, ?_⟩
  · intro i hi ht
    have hik : i ≠ k := fun e => n1 (e ▸ hi)
    rw [setSlot_of_ne _ _ _ hik]
    exact h1 i hi ht
  · have e : inflight (syncPool ++ [k]) videoQueue readyQueue (.checkData 0 false false .limiter)
        stageA stageB = inflight syncPool videoQueue readyQueue (.readback k) stageA stageB ++ [k] := by
      simp [inflight, renderSending]
    rw [e, List.map_append, map_setSlot_of_not_mem (fun p => converted c p.data) _ _ _ _ n2,
      ← List.append_assoc, h2]
    simp [setSlot_self, readback]

set_option maxHeartbeats 4000000 in
theorem orderInv_render {c : Settings} {s s' : State}
    (hsl : SlotsInv s)
    (h : OrderInv c s) (hs : renderStep s = some s') : OrderInv c s' := by
  obtain ⟨slots, pboPool, syncPool, videoQueue, videoQueueClosed, readyQueue, readyQueueClosed,
    pboSync, emptySync, endSyncVideo, endSyncReady, frameNumber, frameBuffer, tasks, written,
    pipeClosed, cmdWaited, render, stageA, stageB, fault, captured, acquired, released⟩ := s
  simp only [OrderInv] at h
  simp only [SlotsInv, slotsOK] at hsl
  simp only [renderStep, retire] at hs
  repeat' split at hs
  all_goals first | (simp at hs; done) | skip
  all_goals cases hs
  all_goals simp only [OrderInv]
  all_goals try cases ‹Ret›
  all_goals first
    | exact h
    | (simpa [orderOK, inflight, renderSending, retPc] using h)
    | (refine orderOK_update ?_ _ _ rfl rfl
       simpa [orderOK, inflight, renderSending] using h)
    | exact orderOK_readback _ hsl h

theorem orderInv_stageA {c : Settings} {s s' : State}
    (hsh : ShapeInv c s)
    (h : OrderInv c s) (hs : stageAStep s = some s') : OrderInv c s' := by
  obtain ⟨slots, pboPool, syncPool, videoQueue, videoQueueClosed, readyQueue, readyQueueClosed,
    pboSync, emptySync, endSyncVideo, endSyncReady, frameNumber, frameBuffer, tasks, written,
    pipeClosed, cmdWaited, render, stageA, stageB, fault, captured, acquired, released⟩ := s
  simp only [OrderInv] at h
  simp only [ShapeInv] at hsh
  simp only [stageAStep] at hs
  split at hs
  · -- receive
    repeat' split at hs
    all_goals first | (simp at hs; done) | skip
    all_goals cases hs
    all_goals simp only [OrderInv]
    all_goals first
      | exact h
      | (simpa [orderOK, inflight, stageAHeld, stageASending] using h)
  · -- dispatch
    rename_i k
    split at hs
    · rename_i hp
      cases hs
      simp only [OrderInv]
      obtain ⟨h1, h2⟩ := h
      have hf := (hsh k).1
      rw [hf] at hp
      refine ⟨?_, ?_⟩
      · intro i hi ht
        by_cases hik : i = k
        · subst hik
          simp [setSlot_self, convBytes, converted, hp]
        · rw [setSlot_of_ne _ _ _ hik]
          apply h1 i _ ht
          simpa [stageASending, hik] using hi
      · rw [converted_setSlot_of_data c slots k]
        · simpa [inflight, stageAHeld] using h2
        · rfl
    · cases hs
      simp only [OrderInv]
      obtain ⟨h1, h2⟩ := h
      refine ⟨?_, ?_⟩
      · intro i hi ht
        have hik : i ≠ k := fun e => ht (by simp [e])
        rw [setSlot_of_ne _ _ _ hik]
        apply h1 i
        · simpa [stageASending, hik] using hi
        · intro hm; exact ht (by simp [hm])
      · rw [converted_setSlot_of_data c slots k]
        · simpa [inflight, stageAHeld] using h2
        · rfl
  · -- send
    repeat' split at hs
    all_goals first | (simp at hs; done) | skip
    all_goals cases hs
    all_goals simp only [OrderInv]
    all_goals first
      | exact h
      | (simpa [orderOK, inflight, stageAHeld, stageASending] using h)
  · simp at hs

theorem orderInv_stageB {c : Settings} {s s' : State}
    (ht : TaskInv c s)
    (h : OrderInv c s) (hs : stageBStep s = some s') : OrderInv c s' := by
  obtain ⟨slots, pboPool, syncPool, videoQueue, videoQueueClosed, readyQueue, readyQueueClosed,
    pboSync, emptySync, endSyncVideo, endSyncReady, frameNumber, frameBuffer, tasks, written,
    pipeClosed, cmdWaited, render, stageA, stageB, fault, captured, acquired, released⟩ := s
  simp only [OrderInv] at h
  simp only [TaskInv, taskOK] at ht
  simp only [stageBStep] at hs
  split at hs
  case h_3 k =>
    -- write
    split at hs
    · cases hs; exact h
    · cases hs
      simp only [OrderInv]
      obtain ⟨h1, h2⟩ := h
      have hk : k ∉ tasks := List.count_eq_zero.mp (ht.2.2.2 k rfl)
      have e := h1 k (by simp [stageBWriting]) hk
      refine ⟨?_, ?_⟩
      · intro i hi hti
        exact h1 i (by simp [stageBWriting] at hi ⊢; tauto) hti
      · rw [e]
        simpa [inflight, stageBWriting] using h2
  all_goals repeat' split at hs
  all_goals first | (simp at hs; done) | skip
  all_goals cases hs
  all_goals simp only [OrderInv]
  all_goals first
    | exact h
    | (simpa [orderOK, inflight, stageBWriting] using h)

theorem orderInv_convert {c : Settings} {s s' : State} {k : Nat}
    (hsh : ShapeInv c s) (ht : TaskInv c s)
    (h : OrderInv c s) (hs : convertStep c s k = some s') : OrderInv c s' := by
  obtain ⟨slots, pboPool, syncPool, videoQueue, videoQueueClosed, readyQueue, readyQueueClosed,
    pboSync, emptySync, endSyncVideo, endSyncReady, frameNumber, frameBuffer, tasks, written,
    pipeClosed, cmdWaited, render, stageA, stageB, fault, captured, acquired, released⟩ := s
  simp only [OrderInv] at h
  simp only [TaskInv, taskOK] at ht
  simp only [ShapeInv] at hsh
  simp only [convertStep] at hs
  split at hs
  · rename_i hmem
    split at hs
    · cases hs; exact h
    · cases hs
      simp only [OrderInv]
      obtain ⟨h1, h2⟩ := h
      have hnp : passThrough c.parsedFormat = false :=
        ht.2.2.1 (List.ne_nil_of_mem hmem)
      obtain ⟨hfmt, -, hcv⟩ := hsh k
      simp only [hnp] at hcv
      obtain ⟨b, hb, hbl⟩ := hcv
      have hcp : convertPBO c (slots k) = { slots k with
          convData := Buf.own (convertBytes c (slots k).data (sourceLayout (slots k).convFormat)
            b.length (slots k).convFormat) } := by
        unfold convertPBO; rw [hb]
      have hd : (convertPBO c (slots k)).data = (slots k).data := by rw [hcp]
      refine ⟨?_, ?_⟩
      · intro i hi hti
        by_cases hik : i = k
        · subst hik
          rw [setSlot_self]
          simp only [convBytes, hcp, converted, hnp, hfmt, hbl]
          simp
        · rw [setSlot_of_ne _ _ _ hik]
          exact h1 i hi (fun hm => hti ((List.mem_erase_of_ne hik).mpr hm))
      · rw [converted_setSlot_of_data c slots k]
        · exact h2
        · exact hd
  · simp at hs

set_option maxHeartbeats 4000000 in
theorem orderInv_step {c : Settings} {s s' : State} {a : Action}
    (hsl : SlotsInv s) (hsh : ShapeInv c s) (ht : TaskInv c s)
    (h : OrderInv c s) (hs : step c s a = some s') : OrderInv c s' := by
  unfold step at hs
  split at hs
  · simp at hs
  rename_i hf
  clear hf
  cases a <;> simp only at hs
  case render => exact orderInv_render hsl h hs
  case stageA => exact orderInv_stageA hsh h hs
  case stageB => exact orderInv_stageB ht h hs
  case convert k => exact orderInv_convert hsh ht h hs
  all_goals
    obtain ⟨slots, pboPool, syncPool, videoQueue, videoQueueClosed, readyQueue,
      readyQueueClosed, pboSync, emptySync, endSyncVideo, endSyncReady, frameNumber, frameBuffer,
      tasks, written, pipeClosed, cmdWaited, render, stageA, stageB, fault, captured, acquired,
      released⟩ := s
    simp only [OrderInv] at h
    simp only [MakeFrame, stopVideo, gpuSignal, pipeError] at hs
    repeat' split at hs
  all_goals first | (simp at hs; done) | skip
  all_goals cases hs
  all_goals simp only [OrderInv]
  all_goals first
    | exact h
    | (simpa [orderOK, inflight, renderSending] using h)
    | exact orderOK_update h _ _ rfl rfl

/-! ## Panics -/

theorem faultInv_start (c : Settings) : FaultInv c (startVideo c) := by
  simp [FaultInv, faultOK, startVideo]

set_option maxHeartbeats 4000000 in
theorem faultInv_step {c : Settings} {s s' : State} {a : Action}
    (hl : LockInv s) (hst : StopInv s) (ht : TaskInv c s)
    (hs : step c s a = some s') : FaultInv c s' := by
  obtain ⟨slots, pboPool, syncPool, videoQueue, videoQueueClosed, readyQueue, readyQueueClosed,
    pboSync, emptySync, endSyncVideo, endSyncReady, frameNumber, frameBuffer, tasks, written,
    pipeClosed, cmdWaited, render, stageA, stageB, fault, captured, acquired, released⟩ := s
  simp only [LockInv] at hl
  simp only [StopInv] at hst
  simp only [TaskInv] at ht
  unfold step at hs
  split at hs
  · simp at hs
  rename_i hf
  simp only [Option.not_isSome_iff_eq_none] at hf
  subst hf
  cases a <;>
    simp only [MakeFrame, stopVideo, renderStep, retire, stageAStep, stageBStep, convertStep,
      gpuSignal, pipeError] at hs
  all_goals repeat' split at hs
  all_goals first | (simp at hs; done) | skip
  all_goals cases hs
  all_goals first
    | exact Or.inl rfl
    | exact Or.inr (Or.inl rfl)
    | (right; right
       exact ⟨rfl, by simpa using ‹(c.motionBlur && c.oversampleMultiplier == 0) = true›⟩)
    | (exfalso; exact hl.2.2.2.2 rfl rfl)
    | (exfalso
       have e := hst.1.mp ‹_›
       try cases ‹Ret›
       all_goals simp [stopStage] at e
       done)
    | (exfalso
       have e := hst.2.1.mp ‹_›
       simp [stopStage] at e
       done)
    | (exfalso
       have e := hst.2.1.mp ‹_›
       have e' := hst.2.2.2.2.2.2.2.2.2.2.1 (Nat.le_trans (Nat.le_succ 4) e)
       simp at e'
       done)
    | (exfalso
       have e := hst.2.2.2.2.2.1 nofun
       omega)
    | (exfalso
       have e := hst.2.2.2.2.2.2.2.1 nofun
       omega)
    | (exfalso
       rename_i k hm h0
       have e := ht.1 k
       rw [h0] at e
       exact absurd hm (List.count_eq_zero.mp e.symm))
    | (exfalso
       clear hst ht
       simp only [lockOK] at hl
       cases render <;>
         simp_all [renderHolds, renderAdding, stageBHolds, stageBAppending, emptyAgrees]
       done)

/-! ## The captured frames and the fences -/

theorem capInv_start (c : Settings) : CapInv c (startVideo c) := by
  simp [CapInv, startVideo, createPBO]

@[simp] theorem sync_setSlot (m : Nat → PBO) (k : Nat) (p : PBO) (i : Nat) :
    (setSlot m k p i).sync = if i = k then p.sync else (m i).sync := by
  unfold setSlot; split <;> rfl

@[simp] theorem sync_convertPBO (c : Settings) (p : PBO) : (convertPBO c p).sync = p.sync := by
  unfold convertPBO; split <;> rfl

set_option maxHeartbeats 4000000 in
theorem capInv_step {c : Settings} {s s' : State} {a : Action}
    (hsh : ShapeInv c s) (h : CapInv c s) (hs : step c s a = some s') : CapInv c s' := by
  obtain ⟨slots, pboPool, syncPool, videoQueue, videoQueueClosed, readyQueue, readyQueueClosed,
    pboSync, emptySync, endSyncVideo, endSyncReady, frameNumber, frameBuffer, tasks, written,
    pipeClosed, cmdWaited, render, stageA, stageB, fault, captured, acquired, released⟩ := s
  simp only [CapInv] at h
  simp only [ShapeInv] at hsh
  unfold step at hs
  split at hs
  · simp at hs
  rename_i hf
  clear hf
  cases a <;>
    simp only [MakeFrame, stopVideo, renderStep, retire, stageAStep, stageBStep, convertStep,
      gpuSignal, pipeError] at hs
  all_goals repeat' split at hs
  all_goals first | (simp at hs; done) | skip
  all_goals cases hs
  all_goals simp only [CapInv]
  all_goals first
    | exact h
    | (refine ⟨h.1, ?_⟩
       intro i hi
       simp only [sync_setSlot, sync_convertPBO] at hi
       split at hi
       · first
         | simp at hi
         | (subst_vars; exact h.2 _ hi)
       · first
         | exact h.2 i hi
         | (have e := h.2 i hi
            simp_all))
    | (refine ⟨?_, ?_⟩
       · intro d hd
         simp only [List.mem_append, List.mem_singleton] at hd
         rcases hd with hd | hd
         · exact h.1 d hd
         · subst hd
           rw [length_readPixels]
           exact (hsh _).2.1
       · intro i hi
         simp only [sync_setSlot, readback] at hi
         split at hi
         · subst_vars; simp
         · simp [h.2 i hi])

/-! ## The invariant of the pipeline -/

theorem inv_start (c : Settings) : Inv c (startVideo c) :=
  ⟨lockInv_start c, slotsInv_start c, countInv_start c, stopInv_start c, shapeInv_start c,
    taskInv_start c, orderInv_start c, faultInv_start c, capInv_start c⟩

theorem inv_step {c : Settings} {s s' : State} {a : Action} (h : Inv c s)
    (hs : step c s a = some s') : Inv c s' :=
  ⟨lockInv_step h.lock hs, slotsInv_step h.slots hs, countInv_step h.count hs,
    stopInv_step h.stop hs, shapeInv_step h.shape hs, taskInv_step h.slots h.shape h.task hs,
    orderInv_step h.slots h.shape h.task h.order hs, faultInv_step h.lock h.stop h.task hs,
    capInv_step h.shape h.cap hs⟩

theorem inv_of_reachable {c : Settings} {s : State} (h : Reachable c s) : Inv c s := by
  induction h with
  | start => exact inv_start c
  | step a _ hs ih => exact inv_step ih hs

theorem reachable_exec_from (c : Settings) (as : List Action) :
    ∀ s, Reachable c s → Reachable c (exec c s as) := by
  induction as with
  | nil => intro s h; exact h
  | cons a as ih =>
    intro s h
    show Reachable c (exec c ((step c s a).getD s) as)
    apply ih
    cases e : step c s a with
    | none => exact h
    | some s' => exact Reachable.step a h e

/-- Every schedule leads from the start to a reachable state. -/
theorem reachable_exec (c : Settings) (as : List Action) :
    Reachable c (exec c (startVideo c) as) :=
  reachable_exec_from c as _ Reachable.start

theorem perm_allSlots {s : State} (h : SlotsInv s) :
    (allSlots s).Perm (List.range MaxVideoBuffers) := by
  rw [List.perm_iff_count]
  intro a
  have := h a
  simp only [allSlots, List.count_append]
  omega

theorem length_allSlots {s : State} (h : SlotsInv s) : (allSlots s).length = MaxVideoBuffers := by
  rw [(perm_allSlots h).length_eq, List.length_range]

/-! ## A run of the pipeline used to instantiate the theorems -/

theorem length_flatten_of_forall {n : Nat} (l : List (List Nat)) (h : ∀ b ∈ l, b.length = n) :
    l.flatten.length = l.length * n := by
  induction l with
  | nil => simp
  | cons b l ih =>
    have hb : b.length = n := h b (by simp)
    have hl : l.flatten.length = l.length * n := ih (fun x hx => h x (by simp [hx]))
    simp only [List.flatten_cons, List.length_append, List.length_cons, hb, hl]
    rw [Nat.succ_mul]; omega

theorem length_converted {c : Settings} {d : List Nat} (hd : d.length = glSize c c.parsedFormat) :
    (converted c d).length =
      if passThrough c.parsedFormat then glSize c c.parsedFormat else convSize c c.parsedFormat := by
  unfold converted
  split
  · exact hd
  · exact length_convertBytes _ _ _ _ _

/-- Every buffer written has the size `converted` gives a captured frame. -/
theorem length_written {c : Settings} {s : State} (h : Inv c s) :
    ∀ b ∈ s.written, b.length =
      if passThrough c.parsedFormat then glSize c c.parsedFormat else convSize c c.parsedFormat := by
  intro b hb
  have ho := h.order.2
  have hm : b ∈ s.captured.map (converted c) := by
    rw [← ho]; exact List.mem_append_left _ hb
  obtain ⟨d, hd, rfl⟩ := List.mem_map.mp hm
  exact length_converted (h.cap.1 d hd)

/-- What holds once `stopVideo` has returned. -/
theorem stopped_state {c : Settings} {s : State} (h : Inv c s) (hr : s.render = .stopped) :
    s.syncPool = [] ∧ s.videoQueue = [] ∧ s.readyQueue = [] ∧ s.stageA = .exited ∧
    s.stageB = .exited ∧ s.tasks = [] ∧ s.written = s.captured.map (converted c) ∧
    s.pboPool.Perm (List.range MaxVideoBuffers) := by
  have hst := h.stop
  simp only [StopInv, stopOK, hr, stopStage] at hst
  obtain ⟨-, -, -, -, -, -, -, -, h9, h10, h11, h12, h13, -⟩ := hst
  have hA := h11 (by omega)
  have hB := h12 (by omega)
  have hsp := h13 (by omega)
  have hvq := (h9 hA).2
  have hrq := (h10 hB).2
  have htk : s.tasks = [] := by
    have := h.task.2.1
    simp only [hB, hA, hrq, stageBWriting, stageASending, List.count_nil] at this
    exact List.eq_nil_iff_forall_not_mem.mpr (fun i hi =>
      absurd (List.count_pos_iff.mpr hi) (by have := this i; omega))
  refine ⟨hsp, hvq, hrq, hA, hB, htk, ?_, ?_⟩
  · have := h.order.2
    simpa [inflight, hsp, hvq, hrq, hA, hB, hr, stageBWriting, stageAHeld, renderSending] using this
  · have := perm_allSlots h.slots
    simpa [allSlots, hsp, hvq, hrq, hA, hB, hr, stageBHeld, stageAHeld, renderSending,
      renderAcquired] using this

/-! ## C1: frames reach the encoder in capture order -/

/-- C1: in every reachable state of the step model, for every interleaving of
the captures, the fence retirements, the two worker loops and the conversion
goroutines, the buffers written to `videoPipe`, followed by the converted bytes
of the frames still in flight (the slot Stage B is about to write, `readyQueue`,
the slot in Stage A, `videoQueue`, the slot being sent by `checkData`,
`syncPool`, in that order), are the converted bytes of the captured frames in
capture order; so the buffers written are always a beginning of that sequence,
in whatever order the conversions complete. -/
theorem written_in_capture_order (c : Settings) (s : State) (h : Reachable c s) :
    s.written ++ s.inflight.map (fun i => converted c (s.slots i).data) =
      s.captured.map (converted c) ∧
    s.written <+: s.captured.map (converted c) := by
  have ho := (inv_of_reachable h).order.2
  exact ⟨ho, ⟨_, ho⟩⟩

set_option maxRecDepth 1000000 in
/-- C1 at a state of `demoRun` in which the first frame is written and the
second waits in `readyQueue`, its conversion having finished first. -/
theorem written_in_capture_order_witness :
    Reachable demo (exec demo (startVideo demo) (demoRun.take 43)) ∧
    (exec demo (startVideo demo) (demoRun.take 43)).written = [[101, 102, 103, 104, 105, 106]] ∧
    (exec demo (startVideo demo) (demoRun.take 43)).inflight = [1] ∧
    (exec demo (startVideo demo) (demoRun.take 43)).captured =
      [[1, 2, 3, 4, 5, 6], [7, 8, 9, 10, 11, 12]] ∧
    (exec demo (startVideo demo) (demoRun.take 43)).written <+:
      (exec demo (startVideo demo) (demoRun.take 43)).captured.map (converted demo) :=
  ⟨reachable_exec _ _, by decide, by decide, by decide,
    (written_in_capture_order demo _ (reachable_exec _ _)).2⟩

/-! ## C2: the slots form a permutation of the slots made at startup -/

/-- C2: in every reachable state the slots in `pboPool`, `syncPool`,
`videoQueue`, `readyQueue` and in the local variable `pbo` of a thread (of
`MakeFrame` and `checkData` on the render thread, of Stage A, of Stage B) form
a permutation of the `MaxVideoBuffers` = 10 slots made at startup: no slot is in
two places or twice in one, and the counts sum to 10. -/
theorem slots_form_permutation (c : Settings) (s : State) (h : Reachable c s) :
    (allSlots s).Perm (List.range MaxVideoBuffers) ∧ (allSlots s).Nodup ∧
    s.pboPool.length + s.syncPool.length + s.videoQueue.length + s.readyQueue.length +
      ((renderAcquired s.render).length + (renderSending s.render).length +
        (stageAHeld s.stageA).length + (stageBHeld s.stageB).length) = 10 := by
  have hp := perm_allSlots (inv_of_reachable h).slots
  refine ⟨hp, hp.nodup_iff.mpr (List.nodup_range _), ?_⟩
  have hl := length_allSlots (inv_of_reachable h).slots
  simp only [allSlots, List.length_append, MaxVideoBuffers] at hl
  omega

set_option maxRecDepth 1000000 in
/-- C2 at the state of `demoRun` used for C1: slot 0 is in Stage B, slot 1 in
`readyQueue`, the other eight in `pboPool`. -/
theorem slots_form_permutation_witness :
    Reachable demo (exec demo (startVideo demo) (demoRun.take 43)) ∧
    allSlots (exec demo (startVideo demo) (demoRun.take 43)) = [2, 3, 4, 5, 6, 7, 8, 9, 1, 0] ∧
    (allSlots (exec demo (startVideo demo) (demoRun.take 43))).Perm
      (List.range MaxVideoBuffers) :=
  ⟨reachable_exec _ _, by decide,
    (slots_form_permutation demo _ (reachable_exec _ _)).1⟩

/-! ## C3: backpressure -/

/-- C3: in every reachable state, the render thread is at `pbo := pboPool[0]`
only with a slot in the pool, so the index is never out of range; the number of
slots taken so far exceeds the number given back by Stage B by what is missing
from the pool, hence by at most `MaxVideoBuffers`, and at the acquire step by
less: after `MaxVideoBuffers` captures without a release the next `MakeFrame`
does not reach its acquire step before a release. The pool never holds more than
`MaxVideoBuffers` slots, and the slots in the system are always the
`MaxVideoBuffers` made at startup (no step makes a slot). -/
theorem backpressure (c : Settings) (s : State) (h : Reachable c s) :
    (s.render = .take → s.pboPool ≠ []) ∧
    s.fault ≠ some .indexOutOfRange ∧
    s.pboPool.length + s.acquired = MaxVideoBuffers + s.released ∧
    s.acquired ≤ MaxVideoBuffers + s.released ∧
    (s.render = .take → s.acquired < MaxVideoBuffers + s.released) ∧
    s.pboPool.length ≤ MaxVideoBuffers ∧
    (allSlots s).length = MaxVideoBuffers ∧
    (∀ i ∈ allSlots s, i < MaxVideoBuffers) := by
  have hi := inv_of_reachable h
  have hl := hi.lock
  simp only [LockInv, lockOK] at hl
  have hc := hi.count
  simp only [CountInv] at hc
  have hlen := length_allSlots hi.slots
  have hpl : s.pboPool.length ≤ (allSlots s).length := by
    simp only [allSlots, List.length_append]; omega
  refine ⟨hl.2.2.2.2, ?_, hc, by omega, ?_, by omega, hlen, ?_⟩
  · have hf := hi.fault
    simp only [FaultInv, faultOK] at hf
    rcases hf with hf | hf | hf
    · simp [hf]
    · simp [hf]
    · simp [hf.1]
  · intro hr
    have := hl.2.2.2.2 hr
    have : 0 < s.pboPool.length := List.length_pos.mpr this
    omega
  · intro i hm
    exact List.mem_range.mp ((perm_allSlots hi.slots).mem_iff.mp hm)

set_option maxRecDepth 1000000 in
/-- C3 at the state of `demoFull`: all ten slots are taken, none is released, and
the eleventh `MakeFrame` is blocked in `emptySync.Wait()`. -/
theorem backpressure_witness :
    Reachable demo (exec demo (startVideo demo) demoFull) ∧
    (exec demo (startVideo demo) demoFull).pboPool = [] ∧
    (exec demo (startVideo demo) demoFull).acquired = 10 ∧
    (exec demo (startVideo demo) demoFull).released = 0 ∧
    (exec demo (startVideo demo) demoFull).render = .emptyWait ∧
    (renderStep (exec demo (startVideo demo) demoFull)).isNone = true ∧
    (exec demo (startVideo demo) demoFull).acquired ≤
      MaxVideoBuffers + (exec demo (startVideo demo) demoFull).released :=
  ⟨reachable_exec _ _, by decide, by decide, by decide, by decide, by decide,
    (backpressure demo _ (reachable_exec _ _)).2.2.2.1⟩

/-! ## C6: release signalling -/

theorem fault_cases {c : Settings} {s : State} (h : Inv c s) :
    s.fault ≠ some .negativeWaitGroup ∧ s.fault ≠ some .indexOutOfRange ∧
    s.fault ≠ some .sendOnClosedChannel ∧ s.fault ≠ some .closeOfClosedChannel := by
  have hf := h.fault
  simp only [FaultInv, faultOK] at hf
  rcases hf with hf | hf | hf
  · simp [hf]
  · simp [hf]
  · simp [hf.1]

/-- C6: in every reachable state, whenever `pboSync` is not held the counter of
`emptySync` is 1 if `pboPool` is empty and 0 otherwise; no wait group is ever
decremented below zero. At Stage B's test before the append, `emptySync.Done()`
runs exactly when the pool is empty (the counter is then 1 and becomes 0,
otherwise it is 0 and stays); at the test after `MakeFrame`'s acquire the counter
is 0 and `emptySync.Add(1)` runs exactly when the acquire has emptied the pool;
and a render thread inside `emptySync.Wait()` can go on exactly when Stage B has
run that `Done()` and is about to append, or the pool holds a slot. Stage B's
release does happen: from its test, the next three steps of Stage B run the test
(with `Done()` exactly on an empty pool), append the slot to `pboPool` and give
back the lock, after which the slot is the last of the pool, one more release is
counted, the lock is free and the counter is 0; a render thread that waited in
`emptySync.Wait()` on the empty pool could not go on before the test and can go
on after it. On any state the step at the test runs `Done()` exactly when the
pool is empty, and the step after it appends the slot. -/
theorem release_signalling (c : Settings) (s : State) (h : Reachable c s) :
    (s.pboSync = false → s.emptySync = if s.pboPool = [] then 1 else 0) ∧
    s.fault ≠ some .negativeWaitGroup ∧
    (∀ k, s.stageB = .test k →
      (s.pboPool = [] → s.emptySync = 1) ∧ (s.pboPool ≠ [] → s.emptySync = 0) ∧
      ∃ s', stageBStep s = some s' ∧ s'.stageB = .append k ∧ s'.fault = s.fault ∧
        s'.pboPool = s.pboPool ∧ s'.emptySync = 0 ∧
        (s'.emptySync + 1 = s.emptySync ↔ s.pboPool = [])) ∧
    (∀ k, s.render = .add k →
      s.emptySync = 0 ∧
      ∃ s', renderStep s = some s' ∧ s'.render = .unlock k ∧ s'.pboPool = s.pboPool ∧
        s'.emptySync = if s.pboPool = [] then 1 else 0) ∧
    (s.render = .emptyWait →
      ((renderStep s).isSome = true ↔ s.emptySync = 0) ∧
      (s.emptySync = 0 ↔ s.pboPool ≠ [] ∨ ∃ k, s.stageB = .append k)) ∧
    (∀ k, s.stageB = .test k →
      ∃ s1 s2 s3, stageBStep s = some s1 ∧ stageBStep s1 = some s2 ∧ stageBStep s2 = some s3 ∧
        s1.stageB = .append k ∧ s1.pboPool = s.pboPool ∧ s1.emptySync = 0 ∧
        s2.stageB = .unlock ∧ s2.pboPool = s.pboPool ++ [k] ∧
        s2.released = s.released + 1 ∧ s2.emptySync = 0 ∧ s2.pboSync = true ∧
        s3.stageB = .recv ∧ s3.pboPool = s.pboPool ++ [k] ∧ s3.released = s.released + 1 ∧
        s3.emptySync = 0 ∧ s3.pboSync = false ∧ s3.fault = s.fault ∧ s3.render = s.render ∧
        (s.render = .emptyWait → s.pboPool = [] →
          (renderStep s).isSome = false ∧ (renderStep s1).isSome = true ∧
          (renderStep s3).isSome = true)) ∧
    (∀ k, s.stageB = .append k →
      s.emptySync = 0 ∧ s.pboSync = true ∧
      stageBStep s = some { s with
        pboPool := s.pboPool ++ [k], released := s.released + 1, stageB := .unlock }) ∧
    (∀ (t : State) (k : Nat), t.stageB = .test k →
      (t.pboPool ≠ [] → stageBStep t = some { t with stageB := .append k }) ∧
      (t.pboPool = [] → t.emptySync ≠ 0 →
        stageBStep t = some { t with emptySync := t.emptySync - 1, stageB := .append k })) ∧
    (∀ (t : State) (k : Nat), t.stageB = .append k →
      stageBStep t = some { t with
        pboPool := t.pboPool ++ [k], released := t.released + 1, stageB := .unlock }) ∧
    (∀ (t : State), t.stageB = .unlock →
      stageBStep t = some { t with pboSync := false, stageB := .recv }) := by
  have hi := inv_of_reachable h
  have hl := hi.lock
  simp only [LockInv, lockOK] at hl
  obtain ⟨l1, l2, l3, l4, l5⟩ := hl
  refine ⟨?_, (fault_cases hi).1, ?_, ?_, ?_, ?_, ?_, ?_, ?_, ?_⟩
  · intro hp
    rw [hp] at l1
    have l1' := l1.symm
    simp only [Bool.or_eq_false_iff] at l1'
    have ha : stageBAppending s.stageB = false := by
      cases hb : s.stageB <;> simp [hb, stageBHolds, stageBAppending] at l1' ⊢
    have hr : renderAdding s.render = false := by
      cases hb : s.render <;> simp [hb, renderHolds, renderAdding] at l1' ⊢
    simp only [ha, hr, Bool.or_self, Bool.false_eq_true, if_false, emptyAgrees] at l3
    split
    · rename_i he; exact l3.1 he
    · rename_i he; exact l3.2 he
  · intro k hk
    have hr : renderAdding s.render = false := by
      rw [hk] at l2
      cases hb : s.render <;> simp [hb, renderHolds, renderAdding, stageBHolds] at l2 ⊢
    simp only [hk, hr, stageBAppending, Bool.or_self, Bool.false_eq_true, if_false,
      emptyAgrees] at l3
    refine ⟨l3.1, l3.2, ?_⟩
    by_cases he : s.pboPool = []
    · have e1 := l3.1 he
      refine ⟨{ s with emptySync := s.emptySync - 1, stageB := .append k }, ?_, rfl, rfl, rfl,
        by simp [e1], by simp [e1, he]⟩
      simp [stageBStep, hk, he, e1]
    · have e0 := l3.2 he
      refine ⟨{ s with stageB := .append k }, ?_, rfl, rfl, rfl, e0, by simp [e0, he]⟩
      simp [stageBStep, hk, he]
  · intro k hk
    have hb : stageBAppending s.stageB = false := by
      rw [hk] at l2
      cases hb : s.stageB <;> simp [hb, renderHolds, stageBHolds, stageBAppending] at l2 ⊢
    simp only [hk, hb, renderAdding, Bool.or_true, if_true] at l3
    refine ⟨l3, { s with
      emptySync := if s.pboPool.length == 0 then s.emptySync + 1 else s.emptySync
      render := .unlock k }, by simp only [renderStep, hk], rfl, rfl, ?_⟩
    simp only [l3]
    by_cases he : s.pboPool = [] <;> simp [he]
  · intro hk
    refine ⟨by simp [renderStep, hk], ?_⟩
    simp only [hk, renderAdding, Bool.or_false] at l3
    cases hb : s.stageB <;>
      simp_all [stageBAppending, emptyAgrees]
    all_goals
      constructor
      · intro h0 he; have := l3.1 he; omega
      · exact l3.2
  · intro k hk
    have hr : renderAdding s.render = false := by
      rw [hk] at l2
      cases hb : s.render <;> simp [hb, renderHolds, renderAdding, stageBHolds] at l2 ⊢
    have hlock : s.pboSync = true := by
      rw [l1, hk]
      simp [stageBHolds]
    simp only [hk, hr, stageBAppending, Bool.or_self, Bool.false_eq_true, if_false,
      emptyAgrees] at l3
    by_cases he : s.pboPool = []
    · have e1 := l3.1 he
      refine ⟨{ s with emptySync := s.emptySync - 1, stageB := .append k },
        { s with
          emptySync := s.emptySync - 1, pboPool := s.pboPool ++ [k]
          released := s.released + 1, stageB := .unlock },
        { s with
          emptySync := s.emptySync - 1, pboPool := s.pboPool ++ [k]
          released := s.released + 1, pboSync := false, stageB := .recv },
        by simp [stageBStep, hk, he, e1], by simp [stageBStep], by simp [stageBStep],
        rfl, rfl, by simp [e1], rfl, rfl, rfl, by simp [e1], hlock, rfl, rfl, rfl, by simp [e1],
        rfl, rfl, rfl, ?_⟩
      intro hw _
      simp [renderStep, hw, e1]
    · have e0 := l3.2 he
      refine ⟨{ s with stageB := .append k },
        { s with
          pboPool := s.pboPool ++ [k], released := s.released + 1, stageB := .unlock },
        { s with
          pboPool := s.pboPool ++ [k], released := s.released + 1, pboSync := false
          stageB := .recv },
        by simp [stageBStep, hk, he], by simp [stageBStep], by simp [stageBStep],
        rfl, rfl, e0, rfl, rfl, rfl, e0, hlock, rfl, rfl, rfl, e0, rfl, rfl, rfl, ?_⟩
      intro _ hp
      exact absurd hp he
  · intro k hk
    have hlock : s.pboSync = true := by
      rw [l1, hk]
      simp [stageBHolds]
    simp only [hk, stageBAppending, Bool.true_or, if_true] at l3
    exact ⟨l3, hlock, by simp [stageBStep, hk]⟩
  · intro t k hk
    constructor
    · intro hp
      simp [stageBStep, hk, hp]
    · intro hp h0
      simp [stageBStep, hk, hp, h0]
  · intro t k hk
    simp [stageBStep, hk]
  · intro t hk
    simp [stageBStep, hk]

set_option maxRecDepth 1000000 in
/-- C6 on `demoRelease`: all ten slots are taken, the eleventh `MakeFrame` waits in
`emptySync.Wait()` with the counter at 1, and Stage B is at its test with slot 0.
Its next step runs `Done()` (counter 0, the render thread can go on), the step
after appends slot 0 to the pool, the third gives back the lock; the render
thread then takes slot 0, which empties the pool again, and runs `Add(1)`. -/
theorem release_signalling_witness :
    ((fun s => (s.pboSync, s.pboPool, s.emptySync)) (exec demo (startVideo demo) demoFull)) =
      (false, [], 1) ∧
    Reachable demo (exec demo (startVideo demo) demoRelease) ∧
    (exec demo (startVideo demo) demoRelease).stageB = .test 0 ∧
    (exec demo (startVideo demo) demoRelease).render = .emptyWait ∧
    (exec demo (startVideo demo) demoRelease).pboPool = [] ∧
    (exec demo (startVideo demo) demoRelease).emptySync = 1 ∧
    (exec demo (startVideo demo) demoRelease).released = 0 ∧
    (renderStep (exec demo (startVideo demo) demoRelease)).isSome = false ∧
    (stageBStep (exec demo (startVideo demo) demoRelease)).map
      (fun s => (s.stageB, s.pboPool, s.emptySync, (renderStep s).isSome)) =
      some (.append 0, [], 0, true) ∧
    ((fun s => (s.stageB, s.pboPool, s.emptySync, s.pboSync, s.released))
      (exec demo (startVideo demo) (demoRelease ++ stageBs 2))) = (.unlock, [0], 0, true, 1) ∧
    ((fun s => (s.stageB, s.pboPool, s.emptySync, s.pboSync, s.released))
      (exec demo (startVideo demo) (demoRelease ++ stageBs 3))) = (.recv, [0], 0, false, 1) ∧
    ((fun s => (s.render, s.pboPool, s.emptySync, s.acquired))
      (exec demo (startVideo demo) (demoRelease ++ stageBs 3 ++ renders 3))) =
      (.add 0, [], 0, 11) ∧
    ((fun s => (s.render, s.pboPool, s.emptySync, s.acquired))
      (exec demo (startVideo demo) (demoRelease ++ stageBs 3 ++ renders 4))) =
      (.unlock 0, [], 1, 11) ∧
    (∃ s1 s2 s3, stageBStep (exec demo (startVideo demo) demoRelease) = some s1 ∧
      stageBStep s1 = some s2 ∧ stageBStep s2 = some s3 ∧
      s1.stageB = .append 0 ∧ s1.pboPool = (exec demo (startVideo demo) demoRelease).pboPool ∧
      s1.emptySync = 0 ∧
      s2.stageB = .unlock ∧
      s2.pboPool = (exec demo (startVideo demo) demoRelease).pboPool ++ [0] ∧
      s2.released = (exec demo (startVideo demo) demoRelease).released + 1 ∧
      s2.emptySync = 0 ∧ s2.pboSync = true ∧
      s3.stageB = .recv ∧
      s3.pboPool = (exec demo (startVideo demo) demoRelease).pboPool ++ [0] ∧
      s3.released = (exec demo (startVideo demo) demoRelease).released + 1 ∧
      s3.emptySync = 0 ∧ s3.pboSync = false ∧
      s3.fault = (exec demo (startVideo demo) demoRelease).fault ∧
      s3.render = (exec demo (startVideo demo) demoRelease).render ∧
      ((exec demo (startVideo demo) demoRelease).render = .emptyWait →
        (exec demo (startVideo demo) demoRelease).pboPool = [] →
        (renderStep (exec demo (startVideo demo) demoRelease)).isSome = false ∧
        (renderStep s1).isSome = true ∧ (renderStep s3).isSome = true)) :=
  ⟨by decide, reachable_exec _ _, by decide, by decide, by decide, by decide, by decide,
    by decide, by decide, by decide, by decide, by decide, by decide,
    (release_signalling demo _ (reachable_exec _ _)).2.2.2.2.2.1 0 (by decide)⟩

/-! ## C7: formats that are passed through -/

theorem converted_of_passThrough {c : Settings} (hp : passThrough c.parsedFormat = true) :
    converted c = id := by
  funext d
  simp [converted, hp]

/-- C7: when the format is packed RGB (`ARGB`), `I420` or `I444`, in every
reachable state no conversion goroutine has been started and every slot's
`convertSync` is at zero; Stage A at its dispatch only sets
`pbo.convData = pbo.data`; the buffer Stage B is about to write is the slot's
captured data; and the buffers written, followed by the data of the frames in
flight, are byte for byte the captured frames in capture order. -/
theorem pass_through (c : Settings) (s : State) (h : Reachable c s)
    (hf : c.parsedFormat = .ARGB ∨ c.parsedFormat = .I420 ∨ c.parsedFormat = .I444) :
    s.tasks = [] ∧ (∀ i, (s.slots i).convertSync = 0) ∧
    (∀ k, s.stageA = .dispatch k → stageAStep s = some { s with
      slots := setSlot s.slots k { s.slots k with convData := .alias }, stageA := .send k }) ∧
    (∀ k, s.stageB = .write k → convBytes (s.slots k) = (s.slots k).data) ∧
    s.written ++ s.inflight.map (fun i => (s.slots i).data) = s.captured ∧
    s.written <+: s.captured := by
  have hi := inv_of_reachable h
  have hp : passThrough c.parsedFormat = true := by
    rcases hf with hf | hf | hf <;> simp [hf, passThrough]
  have ht := hi.task
  simp only [TaskInv, taskOK] at ht
  obtain ⟨t1, t2, t3, t4⟩ := ht
  have htk : s.tasks = [] := by
    by_contra hne
    have := t3 hne
    rw [hp] at this
    exact absurd this (by simp)
  have ho := hi.order
  simp only [OrderInv, orderOK, converted_of_passThrough hp, List.map_id, id] at ho
  have hw : s.written ++ s.inflight.map (fun i => (s.slots i).data) = s.captured := ho.2
  refine ⟨htk, ?_, ?_, ?_, hw, ⟨_, hw⟩⟩
  · intro i
    rw [t1 i, htk]
    rfl
  · intro k hk
    have := (hi.shape k).1
    simp [stageAStep, hk, this, hp]
  · intro k hk
    apply ho.1 k
    · simp [hk, stageBWriting]
    · simp [htk]

set_option maxRecDepth 1000000 in
/-- C7 on the session `demoRunRGB` of the packed RGB configuration: the frame
arrives at the encoder unchanged. -/
theorem pass_through_witness :
    Reachable demoRGB (exec demoRGB (startVideo demoRGB) demoRunRGB) ∧
    (demoRGB.parsedFormat = .ARGB ∨ demoRGB.parsedFormat = .I420 ∨
      demoRGB.parsedFormat = .I444) ∧
    (exec demoRGB (startVideo demoRGB) demoRunRGB).written = [[1, 2, 3, 4, 5, 6]] ∧
    (exec demoRGB (startVideo demoRGB) demoRunRGB).captured = [[1, 2, 3, 4, 5, 6]] ∧
    (exec demoRGB (startVideo demoRGB) demoRunRGB).tasks = [] :=
  ⟨reachable_exec _ _, Or.inl rfl, by decide, by decide,
    (pass_through demoRGB _ (reachable_exec _ _) (Or.inl rfl)).1⟩

/-! ## C8: the size of a frame on the wire -/

/-- C8: every buffer written to `videoPipe` has exactly `w*h*3` bytes for packed
RGB and for I444, and exactly `w*h*3/2` bytes for I420, NV12 and NV21; the stream
is the concatenation of these buffers with nothing in between, so its length is
the number of writes times the frame size, and once `stopVideo` has returned it is
the number of captured frames times the frame size: `25*1920*1080*3` bytes for 25
frames of 1920 by 1080 in packed RGB. -/
theorem frame_size_on_the_wire (c : Settings) (s : State) (h : Reachable c s) :
    (c.parsedFormat = .ARGB ∨ c.parsedFormat = .I444 →
      (∀ b ∈ s.written, b.length = c.w * c.h * 3) ∧
      s.written.flatten.length = s.written.length * (c.w * c.h * 3) ∧
      (s.render = .stopped → s.written.flatten.length = s.captured.length * (c.w * c.h * 3))) ∧
    (c.parsedFormat = .I420 ∨ c.parsedFormat = .NV12 ∨ c.parsedFormat = .NV21 →
      (∀ b ∈ s.written, b.length = c.w * c.h * 3 / 2) ∧
      s.written.flatten.length = s.written.length * (c.w * c.h * 3 / 2) ∧
      (s.render = .stopped →
        s.written.flatten.length = s.captured.length * (c.w * c.h * 3 / 2))) ∧
    (c.parsedFormat = .ARGB → c.w = 1920 → c.h = 1080 → s.render = .stopped →
      s.captured.length = 25 → s.written.flatten.length = 25 * 1920 * 1080 * 3) := by
  have hi := inv_of_reachable h
  have hlen := length_written hi
  have hstop : s.render = .stopped → s.written.length = s.captured.length := by
    intro hr
    rw [(stopped_state hi hr).2.2.2.2.2.2.1, List.length_map]
  have h1 : c.parsedFormat = .ARGB ∨ c.parsedFormat = .I444 →
      ∀ b ∈ s.written, b.length = c.w * c.h * 3 := by
    intro hf b hb
    rw [hlen b hb]
    rcases hf with hf | hf <;> simp [hf, passThrough, glSize]
  have h2 : c.parsedFormat = .I420 ∨ c.parsedFormat = .NV12 ∨ c.parsedFormat = .NV21 →
      ∀ b ∈ s.written, b.length = c.w * c.h * 3 / 2 := by
    intro hf b hb
    rw [hlen b hb]
    rcases hf with hf | hf | hf <;> simp [hf, passThrough, glSize, convSize]
  refine ⟨fun hf => ⟨h1 hf, length_flatten_of_forall _ (h1 hf), fun hr => ?_⟩,
    fun hf => ⟨h2 hf, length_flatten_of_forall _ (h2 hf), fun hr => ?_⟩, ?_⟩
  · rw [length_flatten_of_forall _ (h1 hf), hstop hr]
  · rw [length_flatten_of_forall _ (h2 hf), hstop hr]
  · intro hf hw hh hr hc
    rw [length_flatten_of_forall _ (h1 (Or.inl hf)), hstop hr, hc, hw, hh]

set_option maxRecDepth 1000000 in
/-- C8 on the finished session `demoRun` (NV12, 2 by 2 pixels, two frames): two
writes of 6 bytes, 12 bytes in all. -/
theorem frame_size_on_the_wire_witness :
    Reachable demo (exec demo (startVideo demo) demoRun) ∧
    (exec demo (startVideo demo) demoRun).render = .stopped ∧
    (exec demo (startVideo demo) demoRun).written.flatten =
      [101, 102, 103, 104, 105, 106, 107, 108, 109, 110, 111, 112] ∧
    (∀ b ∈ (exec demo (startVideo demo) demoRun).written, b.length = demo.w * demo.h * 3 / 2) :=
  ⟨reachable_exec _ _, by decide, by decide,
    ((frame_size_on_the_wire demo _ (reachable_exec _ _)).2.1 (Or.inr (Or.inl rfl))).1⟩

/-! ## C9: the order of the shutdown -/

theorem stopped_of_stopStage {r : RenderPc} (h : 8 ≤ stopStage r) : r = .stopped := by
  cases r <;> first
    | rfl
    | (simp [stopStage] at h; done)
    | (cases ‹Ret› <;> simp [stopStage] at h)

set_option maxHeartbeats 4000000 in
/-- The render thread runs the statements of `stopVideo` one after the other. -/
theorem stop_progress {s s' : State} (hst : StopInv s) (hs : renderStep s = some s') :
    (stopStage s.render = 1 →
      stopStage s'.render = 1 ∨ (stopStage s'.render = 2 ∧ s'.syncPool = [])) ∧
    (2 ≤ stopStage s.render → stopStage s'.render = stopStage s.render + 1) := by
  obtain ⟨slots, pboPool, syncPool, videoQueue, videoQueueClosed, readyQueue, readyQueueClosed,
    pboSync, emptySync, endSyncVideo, endSyncReady, frameNumber, frameBuffer, tasks, written,
    pipeClosed, cmdWaited, render, stageA, stageB, fault, captured, acquired, released⟩ := s
  simp only [StopInv, stopOK] at hst
  simp only [renderStep, retire] at hs
  repeat' split at hs
  all_goals first | (simp at hs; done) | skip
  all_goals cases hs
  all_goals try cases ‹Ret›
  all_goals simp only [stopStage, retPc]
  all_goals first
    | (constructor <;> intro h <;> omega)
    | (simp_all [stopStage, drainArgs]; done)

/-- C9: `stopVideo` starts with `checkData(true, true)` and leaves it only with
`syncPool` empty; from `close(videoQueue)` on, every step of the render thread
executes the next statement of `stopVideo`, in the order `close(videoQueue)`,
`endSyncVideo.Wait()`, `close(readyQueue)`, `endSyncReady.Wait()`,
`videoPipe.Close()`, `cmdVideo.Wait()`, return. So in every reachable state:
`videoQueue` is closed only after the drain; `readyQueue` is closed only after
`videoQueue` is closed and Stage A has exited; `videoPipe` is closed only after
`readyQueue` is closed and Stage B has exited; the encoder has been waited for
only after `videoPipe` is closed; and `stopVideo` has returned exactly when the
encoder has been waited for. -/
theorem shutdown_order (c : Settings) (s : State) (h : Reachable c s) :
    (∀ s', step c s .stopVideo = some s' → s'.render = .checkData 0 true true .stop) ∧
    (∀ s', step c s .render = some s' → stopStage s.render = 1 →
      stopStage s'.render = 1 ∨ (stopStage s'.render = 2 ∧ s'.syncPool = [])) ∧
    (∀ s', step c s .render = some s' → 2 ≤ stopStage s.render →
      stopStage s'.render = stopStage s.render + 1) ∧
    (s.videoQueueClosed = true → s.syncPool = [] ∧ 3 ≤ stopStage s.render) ∧
    (s.readyQueueClosed = true →
      s.videoQueueClosed = true ∧ s.stageA = .exited ∧ 5 ≤ stopStage s.render) ∧
    (s.pipeClosed = true →
      s.readyQueueClosed = true ∧ s.stageB = .exited ∧ 7 ≤ stopStage s.render) ∧
    (s.cmdWaited = true → s.pipeClosed = true) ∧
    (s.render = .stopped ↔ s.cmdWaited = true) := by
  have hi := inv_of_reachable h
  have hst := hi.stop
  simp only [StopInv, stopOK] at hst
  obtain ⟨h1, h2, h3, h4, h5, h6, h7, h8, h9, h10, h11, h12, h13, h14⟩ := hst
  refine ⟨?_, ?_, ?_, ?_, ?_, ?_, ?_, ?_⟩
  · intro s' hs
    simp only [step] at hs
    split at hs
    · simp at hs
    · simp only [stopVideo] at hs
      split at hs
      · cases hs; rfl
      · simp at hs
  · intro s' hs hstage
    simp only [step] at hs
    split at hs
    · simp at hs
    · exact (stop_progress hi.stop hs).1 hstage
  · intro s' hs hstage
    simp only [step] at hs
    split at hs
    · simp at hs
    · exact (stop_progress hi.stop hs).2 hstage
  · intro hc
    have := h1.mp hc
    exact ⟨h13 (by omega), this⟩
  · intro hc
    have := h2.mp hc
    exact ⟨h1.mpr (by omega), h11 (by omega), this⟩
  · intro hc
    have := h3.mp hc
    exact ⟨h2.mpr (by omega), h12 (by omega), this⟩
  · intro hc
    have := h4.mp hc
    exact h3.mpr (by omega)
  · constructor
    · intro hr
      apply h4.mpr
      simp [hr, stopStage]
    · intro hc
      exact stopped_of_stopStage (h4.mp hc)

set_option maxRecDepth 1000000 in
/-- C9 on `demoRun` stopped after `close(readyQueue)`: both channels are closed,
Stage A has exited, Stage B has not yet, and `videoPipe` is still open. -/
theorem shutdown_order_witness :
    Reachable demo (exec demo (startVideo demo) (demoRun.take 40)) ∧
    (exec demo (startVideo demo) (demoRun.take 40)).render = .waitReady ∧
    (exec demo (startVideo demo) (demoRun.take 40)).readyQueueClosed = true ∧
    (exec demo (startVideo demo) (demoRun.take 40)).stageB = .recv ∧
    (exec demo (startVideo demo) (demoRun.take 40)).pipeClosed = false ∧
    (exec demo (startVideo demo) (demoRun.take 40)).videoQueueClosed = true ∧
    (exec demo (startVideo demo) (demoRun.take 40)).stageA = .exited :=
  ⟨reachable_exec _ _, by decide, by decide, by decide, by decide,
    ((shutdown_order demo _ (reachable_exec _ _)).2.2.2.2.1 (by decide)).1,
    ((shutdown_order demo _ (reachable_exec _ _)).2.2.2.2.1 (by decide)).2.1⟩

/-! ## C5: `checkData` as a sequential function -/

theorem checkDataLoop_eq (signaled : Nat → Bool) (wF wA : Bool) (syncPool : List Nat) :
    ∀ (i : Nat) (videoQueue : List Nat) (calls : List GLCall),
      checkDataLoop signaled wF wA i syncPool videoQueue calls =
        { syncPool :=
            syncPool.drop (((syncPool.enumFrom i).takeWhile (passed signaled wF wA)).length)
          videoQueue := videoQueue ++
            syncPool.take (((syncPool.enumFrom i).takeWhile (passed signaled wF wA)).length)
          calls := calls ++ retireCalls signaled wF wA (syncPool.enumFrom i) } := by
  induction syncPool with
  | nil => intro i vq calls; simp [checkDataLoop, retireCalls]
  | cons pbo rest ih =>
    intro i vq calls
    unfold checkDataLoop
    by_cases hw : ((i == 0 && wF) || wA) = true
    · have hp : passed signaled wF wA (i, pbo) = true := by simp [passed, waitedOn, hw]
      have hw' : waitedOn wF wA i = true := hw
      rw [if_pos hw, ih]
      simp [List.enumFrom_cons, List.takeWhile_cons, List.dropWhile_cons, hp, retireCalls, hw']
    · rw [if_neg hw]
      have hw' : waitedOn wF wA i = false := by simpa [waitedOn] using hw
      by_cases hsig : signaled pbo = true
      · have hp : passed signaled wF wA (i, pbo) = true := by simp [passed, hsig]
        rw [if_pos hsig, ih]
        simp [List.enumFrom_cons, List.takeWhile_cons, List.dropWhile_cons, hp, retireCalls, hw']
      · have hp : passed signaled wF wA (i, pbo) = false := by
          simp [passed, hw', hsig]
        rw [if_neg hsig]
        simp [List.enumFrom_cons, List.takeWhile_cons, List.dropWhile_cons, hp, retireCalls]

theorem takeWhile_enumFrom_snd (p : Nat → Bool) (l : List Nat) :
    ∀ i, ((l.enumFrom i).takeWhile (fun e => p e.2)).length = (l.takeWhile p).length := by
  induction l with
  | nil => intro i; simp
  | cons a l ih =>
    intro i
    simp only [List.enumFrom_cons, List.takeWhile_cons]
    split
    · simp [ih]
    · simp

theorem take_takeWhile_length (p : Nat → Bool) (l : List Nat) :
    l.take (l.takeWhile p).length = l.takeWhile p ∧
    l.drop (l.takeWhile p).length = l.dropWhile p := by
  induction l with
  | nil => simp
  | cons a l ih =>
    simp only [List.takeWhile_cons, List.dropWhile_cons]
    split
    · simp [ih.1, ih.2]
    · simp

theorem takeWhile_enumFrom_all (q : Nat × Nat → Bool) (l : List Nat)
    (h : ∀ e, q e = true) : ∀ i, ((l.enumFrom i).takeWhile q).length = l.length := by
  induction l with
  | nil => intro i; simp
  | cons a l ih => intro i; simp [List.enumFrom_cons, List.takeWhile_cons, h, ih]

theorem filterMap_retireCalls (signaled : Nat → Bool) (wF wA : Bool)
    (entries : List (Nat × Nat)) :
    (retireCalls signaled wF wA entries).filterMap destroyed =
      (entries.takeWhile (passed signaled wF wA)).map (fun e => e.2) := by
  induction entries with
  | nil => simp [retireCalls]
  | cons e rest ih =>
    unfold retireCalls at ih ⊢
    simp only [List.takeWhile_cons, List.dropWhile_cons]
    split
    · simp only [List.map_cons, List.flatten_cons, List.append_assoc, List.filterMap_append,
        List.map_cons] at ih ⊢
      rw [ih]
      by_cases hw : waitedOn wF wA e.1 = true <;> simp [hw, destroyed]
    · simp [destroyed]

theorem map_snd_takeWhile_enumFrom (q : Nat × Nat → Bool) (l : List Nat) :
    ∀ i, ((l.enumFrom i).takeWhile q).map (fun e => e.2) =
      l.take ((l.enumFrom i).takeWhile q).length := by
  induction l with
  | nil => intro i; simp
  | cons a l ih =>
    intro i
    simp only [List.enumFrom_cons, List.takeWhile_cons]
    split
    · simp [ih]
    · simp

theorem length_takeWhile_enumFrom_le (q : Nat × Nat → Bool) (l : List Nat) (i : Nat) :
    ((l.enumFrom i).takeWhile q).length ≤ l.length := by
  have := (@List.takeWhile_sublist _ (l.enumFrom i) q).length_le
  simpa using this

/-- C5: `checkData(waitForFirst, waitForAll)` is the reference retire. It walks
`syncPool` from the front; the entry at original position `i` is waited on when
(`i = 0` and `waitForFirst`) or `waitForAll`, and polled otherwise; the call
removes exactly the longest prefix of entries that were waited on or polled as
signaled, destroys the fence of each removed entry, appends the removed slots to
`videoQueue` in the same order and leaves the rest of `syncPool` as it is. So
`checkData(false, false)` removes exactly the longest prefix of signaled entries,
and `checkData(true, false)` on a non-empty `syncPool` retires at least the
oldest entry. -/
theorem checkData_eq_retire (signaled : Nat → Bool) (waitForFirst waitForAll : Bool)
    (syncPool videoQueue : List Nat) :
    checkData signaled waitForFirst waitForAll syncPool videoQueue =
      retireSpec signaled waitForFirst waitForAll syncPool videoQueue ∧
    (checkData signaled waitForFirst waitForAll syncPool videoQueue).calls.filterMap
      destroyed =
      syncPool.take (syncPool.length -
        (checkData signaled waitForFirst waitForAll syncPool videoQueue).syncPool.length) ∧
    (checkData signaled false false syncPool videoQueue).syncPool = syncPool.dropWhile signaled ∧
    (checkData signaled false false syncPool videoQueue).videoQueue =
      videoQueue ++ syncPool.takeWhile signaled ∧
    (∀ pbo rest, syncPool = pbo :: rest →
      ∃ more, (checkData signaled true false syncPool videoQueue).videoQueue =
          videoQueue ++ pbo :: more ∧
        pbo :: more ++ (checkData signaled true false syncPool videoQueue).syncPool =
          syncPool) := by
  refine ⟨?_, ?_, ?_, ?_, ?_⟩
  · simp [checkData, retireSpec, checkDataLoop_eq, List.enum]
  · simp only [checkData, checkDataLoop_eq, List.nil_append, filterMap_retireCalls,
      map_snd_takeWhile_enumFrom, List.length_drop]
    have := length_takeWhile_enumFrom_le (passed signaled waitForFirst waitForAll) syncPool 0
    congr 1
    omega
  · have hp : passed signaled false false = fun e => signaled e.2 := by
      funext e; simp [passed, waitedOn]
    simp only [checkData, checkDataLoop_eq, hp, takeWhile_enumFrom_snd]
    exact (take_takeWhile_length signaled syncPool).2
  · have hp : passed signaled false false = fun e => signaled e.2 := by
      funext e; simp [passed, waitedOn]
    simp only [checkData, checkDataLoop_eq, hp, takeWhile_enumFrom_snd]
    rw [(take_takeWhile_length signaled syncPool).1]
  · intro pbo rest hsp
    subst hsp
    have hp : passed signaled true false (0, pbo) = true := by simp [passed, waitedOn]
    simp only [checkData, checkDataLoop_eq, List.enumFrom_cons, List.takeWhile_cons, hp, if_true,
      List.length_cons, List.take_succ_cons, List.drop_succ_cons]
    exact ⟨_, rfl, by simp⟩

/-! ## C10: oversampling -/

theorem wrap64_of_lt {x : Int} (h0 : 0 ≤ x) (h1 : x < 2 ^ 63) : wrap64 x = x := by
  unfold wrap64
  omega

theorem fenceInv_start (c : Settings) : FenceInv (startVideo c) := by
  simp [FenceInv, startVideo]

set_option maxHeartbeats 4000000 in
theorem fenceInv_step {c : Settings} {s s' : State} {a : Action}
    (hsl : SlotsInv s) (h : FenceInv s) (hs : step c s a = some s') : FenceInv s' := by
  obtain ⟨slots, pboPool, syncPool, videoQueue, videoQueueClosed, readyQueue, readyQueueClosed,
    pboSync, emptySync, endSyncVideo, endSyncReady, frameNumber, frameBuffer, tasks, written,
    pipeClosed, cmdWaited, render, stageA, stageB, fault, captured, acquired, released⟩ := s
  simp only [FenceInv] at h
  simp only [SlotsInv, slotsOK] at hsl
  unfold step at hs
  split at hs
  · simp at hs
  rename_i hf
  clear hf
  cases a <;>
    simp only [MakeFrame, stopVideo, renderStep, retire, stageAStep, stageBStep, convertStep,
      gpuSignal, pipeError] at hs
  all_goals repeat' split at hs
  all_goals first | (simp at hs; done) | skip
  all_goals cases hs
  all_goals simp only [FenceInv]
  all_goals first
    | exact h
    | (intro i hi
       simp only [sync_setSlot, sync_convertPBO]
       split
       · first
         | (subst_vars; exact h _ hi)
         | simp
       · exact h i hi)
    | (rename_i k rest _ _
       intro i hi
       have hk := hsl k
       have hr := count_range_le_one MaxVideoBuffers k
       simp only [List.count_cons, beq_self_eq_true, if_true] at hk
       have hnk : k ∉ rest := by rw [← List.count_eq_zero]; omega
       have hik : i ≠ k := fun e => hnk (e ▸ hi)
       simp only [sync_setSlot, hik, if_false]
       exact h i (by simp [hi]))
    | (intro i hi
       simp only [sync_setSlot, readback]
       split
       · simp
       · rename_i hik
         simp only [List.mem_append, List.mem_singleton, hik, or_false] at hi
         exact h i hi)

theorem pendingIn_setSlot_le (m : Nat → PBO) (k : Nat) (p : PBO) (l : List Nat)
    (h : p.sync = .pending → (m k).sync = .pending) :
    pendingIn (setSlot m k p) l ≤ pendingIn m l := by
  unfold pendingIn
  apply List.countP_mono_left
  intro i _ hi
  simp only [sync_setSlot, decide_eq_true_eq] at hi ⊢
  split at hi
  · subst_vars; exact h hi
  · exact hi

theorem pendingIn_cons_ge (m : Nat → PBO) (k : Nat) (l : List Nat) :
    pendingIn m l ≤ pendingIn m (k :: l) := by
  unfold pendingIn
  rw [List.countP_cons]
  omega

theorem pendingIn_setSlot_lt (m : Nat → PBO) (k : Nat) (p : PBO) (l : List Nat)
    (hk : k ∈ l) (hm : (m k).sync = .pending) (hp : p.sync ≠ .pending) :
    pendingIn (setSlot m k p) l < pendingIn m l := by
  induction l with
  | nil => simp at hk
  | cons a l ih =>
    have e : ∀ (f : Nat → PBO), pendingIn f (a :: l) =
        pendingIn f l + if (f a).sync = .pending then 1 else 0 := by
      intro f
      unfold pendingIn
      rw [List.countP_cons]
      simp
    rw [e, e]
    by_cases hak : a = k
    · subst hak
      have hle := pendingIn_setSlot_le m a p l (fun e => absurd e hp)
      rw [setSlot_self, if_neg hp, if_pos hm]
      omega
    · have hkl : k ∈ l := by
        rcases List.mem_cons.mp hk with e | e
        · exact absurd e.symm hak
        · exact e
      have := ih hkl
      rw [setSlot_of_ne _ _ _ hak]
      omega

set_option maxHeartbeats 4000000 in
/-- During `stopVideo` a step of the render thread makes the measure smaller. -/
theorem drain_render {c : Settings} {s s' : State} (hi : Inv c s)
    (hst : 1 ≤ stopStage s.render) (hs : step c s .render = some s') :
    drainMeasure s' < drainMeasure s ∧ 1 ≤ stopStage s'.render ∧ s'.fault = none ∧
      s'.captured = s.captured := by
  have hf' := fault_cases (inv_step hi hs)
  have hstop := hi.stop
  obtain ⟨slots, pboPool, syncPool, videoQueue, videoQueueClosed, readyQueue, readyQueueClosed,
    pboSync, emptySync, endSyncVideo, endSyncReady, frameNumber, frameBuffer, tasks, written,
    pipeClosed, cmdWaited, render, stageA, stageB, fault, captured, acquired, released⟩ := s
  simp only [StopInv, stopOK] at hstop
  have hda := hstop.2.2.2.2.2.2.2.2.2.2.2.2.2
  clear hstop hi
  simp only at hst
  unfold step at hs
  split at hs
  · simp at hs
  rename_i hf
  simp only [Option.not_isSome_iff_eq_none] at hf
  subst hf
  simp only [renderStep, retire] at hs
  repeat' split at hs
  all_goals first | (simp at hs; done) | skip
  all_goals cases hs
  all_goals simp only at hf'
  all_goals first
    | (exfalso; simp at hf'; done)
    | (exfalso; simp [stopStage] at hst; done)
    | skip
  all_goals try cases ‹Ret›
  all_goals first
    | (exfalso; simp [stopStage] at hst; done)
    | skip
  all_goals refine ⟨?_, by simp [stopStage, retPc], rfl, rfl⟩
  all_goals clear hf'
  all_goals simp only [drainMeasure, renderWeight, retPc,
    List.length_append, List.length_cons, List.length_nil]
  all_goals first
    | omega
    | (rename_i k rest _ _
       have h1 := pendingIn_setSlot_le slots k
         { data := (slots k).data, convFormat := (slots k).convFormat
           convData := (slots k).convData, sync := Fence.deleted
           convertSync := (slots k).convertSync } rest (by simp)
       have h2 := pendingIn_cons_ge slots k rest
       omega)

set_option maxHeartbeats 4000000 in
/-- A step of Stage A makes the measure smaller. -/
theorem drain_stageA {c : Settings} {s s' : State} (hi : Inv c s)
    (hs : step c s .stageA = some s') :
    drainMeasure s' < drainMeasure s ∧ s'.render = s.render ∧ s'.fault = none ∧
      s'.captured = s.captured := by
  have hf' := fault_cases (inv_step hi hs)
  clear hi
  obtain ⟨slots, pboPool, syncPool, videoQueue, videoQueueClosed, readyQueue, readyQueueClosed,
    pboSync, emptySync, endSyncVideo, endSyncReady, frameNumber, frameBuffer, tasks, written,
    pipeClosed, cmdWaited, render, stageA, stageB, fault, captured, acquired, released⟩ := s
  unfold step at hs
  split at hs
  · simp at hs
  rename_i hf
  simp only [Option.not_isSome_iff_eq_none] at hf
  subst hf
  simp only [stageAStep] at hs
  repeat' split at hs
  all_goals first | (simp at hs; done) | skip
  all_goals cases hs
  all_goals simp only at hf'
  all_goals first
    | (exfalso; simp at hf'; done)
    | skip
  all_goals clear hf'
  all_goals refine ⟨?_, rfl, rfl, rfl⟩
  all_goals simp only [drainMeasure, stageAWeight,
    List.length_append, List.length_cons, List.length_nil]
  all_goals first
    | omega
    | (rename_i k _
       have h1 := pendingIn_setSlot_le slots k
         { data := (slots k).data, convFormat := (slots k).convFormat
           convData := Buf.alias, sync := (slots k).sync
           convertSync := (slots k).convertSync } syncPool (fun e => e)
       omega)
    | (rename_i k _
       have h1 := pendingIn_setSlot_le slots k
         { data := (slots k).data, convFormat := (slots k).convFormat
           convData := (slots k).convData, sync := (slots k).sync
           convertSync := (slots k).convertSync + 1 } syncPool (fun e => e)
       omega)

set_option maxHeartbeats 4000000 in
/-- A step of Stage B before the encoder's pipe is closed makes the measure
smaller. -/
theorem drain_stageB {c : Settings} {s s' : State} (hi : Inv c s)
    (hs : step c s .stageB = some s') :
    drainMeasure s' < drainMeasure s ∧ s'.render = s.render ∧ s'.fault = none ∧
      s'.captured = s.captured := by
  have hf' := fault_cases (inv_step hi hs)
  have hstop := hi.stop
  simp only [StopInv, stopOK] at hstop
  have hp := hstop.2.2.1
  have hb := hstop.2.2.2.2.2.2.2.2.2.2.2.1
  clear hi hstop
  obtain ⟨slots, pboPool, syncPool, videoQueue, videoQueueClosed, readyQueue, readyQueueClosed,
    pboSync, emptySync, endSyncVideo, endSyncReady, frameNumber, frameBuffer, tasks, written,
    pipeClosed, cmdWaited, render, stageA, stageB, fault, captured, acquired, released⟩ := s
  simp only at hp hb
  unfold step at hs
  split at hs
  · simp at hs
  rename_i hf
  simp only [Option.not_isSome_iff_eq_none] at hf
  subst hf
  simp only [stageBStep] at hs
  repeat' split at hs
  all_goals first | (simp at hs; done) | skip
  all_goals cases hs
  all_goals simp only at hf'
  all_goals first
    | (exfalso; simp at hf'; done)
    | (exfalso
       rename_i hpc
       have e1 := hp.mp hpc
       have e2 := hb (Nat.le_trans (Nat.le_succ 6) e1)
       simp at e2
       done)
    | skip
  all_goals clear hf'
  all_goals refine ⟨?_, rfl, rfl, rfl⟩
  all_goals simp only [drainMeasure, stageBWeight,
    List.length_append, List.length_cons, List.length_nil]
  all_goals omega

/-- The end of a conversion goroutine makes the measure smaller. -/
theorem drain_convert {c : Settings} {s s' : State} {k : Nat} (hi : Inv c s)
    (hs : step c s (.convert k) = some s') :
    drainMeasure s' < drainMeasure s ∧ s'.render = s.render ∧ s'.fault = none ∧
      s'.captured = s.captured := by
  have hf' := fault_cases (inv_step hi hs)
  clear hi
  obtain ⟨slots, pboPool, syncPool, videoQueue, videoQueueClosed, readyQueue, readyQueueClosed,
    pboSync, emptySync, endSyncVideo, endSyncReady, frameNumber, frameBuffer, tasks, written,
    pipeClosed, cmdWaited, render, stageA, stageB, fault, captured, acquired, released⟩ := s
  unfold step at hs
  split at hs
  · simp at hs
  rename_i hf
  simp only [Option.not_isSome_iff_eq_none] at hf
  subst hf
  simp only [convertStep] at hs
  split at hs
  · rename_i hm
    split at hs
    · cases hs
      simp at hf'
    · cases hs
      refine ⟨?_, rfl, rfl, rfl⟩
      simp only [drainMeasure]
      have h1 := pendingIn_setSlot_le slots k
        { data := (convertPBO c (slots k)).data, convFormat := (convertPBO c (slots k)).convFormat
          convData := (convertPBO c (slots k)).convData, sync := (convertPBO c (slots k)).sync
          convertSync := (slots k).convertSync - 1 } syncPool (by simp)
      have h2 := List.length_erase_of_mem hm
      have h3 : 0 < tasks.length := List.length_pos_of_mem hm
      omega
  · simp at hs

/-- The signal of a pending fence makes the measure smaller. -/
theorem drain_gpuSignal {c : Settings} {s s' : State} {k : Nat} (hi : Inv c s)
    (hs : step c s (.gpuSignal k) = some s') :
    drainMeasure s' < drainMeasure s ∧ s'.render = s.render ∧ s'.fault = none ∧
      s'.captured = s.captured := by
  have hcap := hi.cap.2
  clear hi
  obtain ⟨slots, pboPool, syncPool, videoQueue, videoQueueClosed, readyQueue, readyQueueClosed,
    pboSync, emptySync, endSyncVideo, endSyncReady, frameNumber, frameBuffer, tasks, written,
    pipeClosed, cmdWaited, render, stageA, stageB, fault, captured, acquired, released⟩ := s
  simp only at hcap
  unfold step at hs
  split at hs
  · simp at hs
  rename_i hf
  simp only [Option.not_isSome_iff_eq_none] at hf
  subst hf
  simp only [gpuSignal] at hs
  split at hs
  · rename_i hp
    cases hs
    refine ⟨?_, rfl, rfl, rfl⟩
    simp only [drainMeasure]
    have h1 := pendingIn_setSlot_lt slots k
      { data := (slots k).data, convFormat := (slots k).convFormat
        convData := (slots k).convData, sync := Fence.signaled
        convertSync := (slots k).convertSync } syncPool (hcap k hp) hp (by simp)
    omega
  · simp at hs

/-- During `stopVideo` every step of the pipeline itself makes the measure
smaller, raises no panic and captures nothing. -/
theorem drain_step {c : Settings} {s s' : State} {a : Action} (hi : Inv c s)
    (hst : 1 ≤ stopStage s.render) (ha : isProgress a = true) (hs : step c s a = some s') :
    drainMeasure s' < drainMeasure s ∧ 1 ≤ stopStage s'.render ∧ s'.fault = none ∧
      s'.captured = s.captured := by
  cases a <;> simp [isProgress] at ha
  · exact drain_render hi hst hs
  · obtain ⟨h1, h2, h3, h4⟩ := drain_stageA hi hs
    exact ⟨h1, h2 ▸ hst, h3, h4⟩
  · obtain ⟨h1, h2, h3, h4⟩ := drain_stageB hi hs
    exact ⟨h1, h2 ▸ hst, h3, h4⟩
  · obtain ⟨h1, h2, h3, h4⟩ := drain_convert hi hs
    exact ⟨h1, h2 ▸ hst, h3, h4⟩
  · obtain ⟨h1, h2, h3, h4⟩ := drain_gpuSignal hi hs
    exact ⟨h1, h2 ▸ hst, h3, h4⟩

/-- Once `videoQueue` is closed, Stage A can always take a step until it has exited. -/
theorem stageA_enabled {c : Settings} {s : State} (hi : Inv c s)
    (hst : 3 ≤ stopStage s.render) (hA : s.stageA ≠ .exited) :
    (stageAStep s).isSome = true := by
  have hstop := hi.stop
  have hlen := length_allSlots hi.slots
  simp only [StopInv, stopOK] at hstop
  have hc := hstop.1.mpr hst
  simp only [allSlots, List.length_append, MaxVideoBuffers] at hlen
  unfold stageAStep
  cases hs : s.stageA with
  | recv =>
    simp only
    cases hq : s.videoQueue with
    | nil =>
      simp only [hc, if_true]
      split <;> rfl
    | cons k rest => rfl
  | dispatch k =>
    simp only
    split <;> rfl
  | send k =>
    simp only
    split
    · rfl
    · have : s.readyQueue.length < MaxVideoBuffers := by
        simp only [hs, stageAHeld, List.length_cons, List.length_nil, MaxVideoBuffers] at hlen ⊢
        omega
      simp [this]
  | exited => exact absurd hs hA

/-- Once `readyQueue` is closed and no conversion goroutine runs, Stage B can
always take a step until it has exited. -/
theorem stageB_enabled {c : Settings} {s : State} (hi : Inv c s)
    (hst : 5 ≤ stopStage s.render) (hB : s.stageB ≠ .exited) (ht : s.tasks = []) :
    (stageBStep s).isSome = true := by
  have hstop := hi.stop
  have hl := hi.lock
  have htask := hi.task.1
  simp only [StopInv, stopOK] at hstop
  simp only [LockInv, lockOK] at hl
  have hc := hstop.2.1.mpr hst
  have hrh : renderHolds s.render = false := by
    cases hr : s.render <;> simp [hr, stopStage, renderHolds] at hst ⊢
  unfold stageBStep
  cases hs : s.stageB with
  | recv =>
    simp only
    cases hq : s.readyQueue with
    | nil =>
      simp only [hc, if_true]
      split <;> rfl
    | cons k rest => rfl
  | wait k =>
    have : (s.slots k).convertSync = 0 := by rw [htask k, ht]; rfl
    simp [this]
  | write k =>
    simp only
    split <;> rfl
  | lock k =>
    have : s.pboSync = false := by
      rw [hl.1, hrh, hs]; rfl
    simp [this]
  | test k =>
    simp only
    split
    · split <;> rfl
    · rfl
  | append k => rfl
  | unlock => rfl
  | exited => exact absurd hs hB

theorem isProgress_nextAction (s : State) : isProgress (nextAction s) = true := by
  unfold nextAction
  repeat' split
  all_goals rfl

/-- During `stopVideo`, when no goroutine runs, the workers cannot move and the
oldest fence is not pending, the render thread can take a step. -/
theorem render_enabled {c : Settings} {s : State} (hi : Inv c s) (hfe : FenceInv s)
    (hst : 1 ≤ stopStage s.render) (hr : s.render ≠ .stopped) (ht : s.tasks = [])
    (hA : (stageAStep s).isSome = false) (hB : (stageBStep s).isSome = false)
    (hp : ∀ k rest, s.syncPool = k :: rest → (s.slots k).sync ≠ .pending) :
    (renderStep s).isSome = true := by
  have hstop := hi.stop
  have hlen := length_allSlots hi.slots
  simp only [StopInv, stopOK] at hstop
  obtain ⟨h1, h2, h3, h4, h5, h6, h7, h8, h9, h10, h11, h12, h13, h14⟩ := hstop
  simp only [allSlots, List.length_append, MaxVideoBuffers] at hlen
  have hAe : 3 ≤ stopStage s.render → s.stageA = .exited := by
    intro h3'
    by_contra hne
    rw [stageA_enabled hi h3' hne] at hA
    exact absurd hA (by simp)
  have hBe : 5 ≤ stopStage s.render → s.stageB = .exited := by
    intro h5'
    by_contra hne
    rw [stageB_enabled hi h5' hne ht] at hB
    exact absurd hB (by simp)
  unfold renderStep
  cases hs : s.render with
  | checkData i wF wA ret =>
    cases ret with
    | stop =>
      simp only [hs, drainArgs] at h14
      simp only
      cases hq : s.syncPool with
      | nil => rfl
      | cons k rest =>
        have hk := hfe k (by simp [hq])
        have hnp := hp k rest hq
        have hsig : (s.slots k).sync = .signaled := by
          rcases hk with hk | hk
          · exact absurd hk hnp
          · exact hk
        simp [h14, hsig]
    | acquire => simp [hs, stopStage] at hst
    | limiter => simp [hs, stopStage] at hst
  | checkSend i wF wA ret k =>
    simp only
    split
    · rfl
    · have : s.videoQueue.length < MaxVideoBuffers := by
        simp only [hs, renderSending, List.length_cons, List.length_nil, MaxVideoBuffers] at hlen ⊢
        omega
      simp [this]
  | closeVideoQueue => simp only; split <;> rfl
  | waitVideo =>
    have := h5 (hAe (by simp [hs, stopStage]))
    simp [this]
  | closeReadyQueue => simp only; split <;> rfl
  | waitReady =>
    have := h7 (hBe (by simp [hs, stopStage]))
    simp [this]
  | closePipe => rfl
  | waitCmd => rfl
  | stopped => exact absurd hs hr
  | idle => simp [hs, stopStage] at hst
  | poolTest => simp [hs, stopStage] at hst
  | emptyWait => simp [hs, stopStage] at hst
  | lock => simp [hs, stopStage] at hst
  | take => simp [hs, stopStage] at hst
  | add k => simp [hs, stopStage] at hst
  | unlock k => simp [hs, stopStage] at hst
  | readback k => simp [hs, stopStage] at hst
  | limiterSync => simp [hs, stopStage] at hst

/-- No deadlock: during `stopVideo`, until it has returned, the action the
scheduler picks is enabled. -/
theorem nextAction_enabled {c : Settings} {s : State} (hi : Inv c s) (hfe : FenceInv s)
    (hst : 1 ≤ stopStage s.render) (hr : s.render ≠ .stopped) (hf : s.fault = none) :
    (step c s (nextAction s)).isSome = true := by
  unfold nextAction
  split
  · rename_i k rest ht
    simp only [step, hf, Option.isSome_none, Bool.false_eq_true, if_false, convertStep, ht,
      List.mem_cons, true_or, if_true]
    split <;> rfl
  · rename_i ht
    by_cases hB : (stageBStep s).isSome = true
    · simp [hB, step, hf]
    · by_cases hA : (stageAStep s).isSome = true
      · simp [hB, hA, step, hf]
      · simp only [hB, hA, Bool.false_eq_true, if_false]
        simp only [Bool.not_eq_true] at hA hB
        split
        · rename_i k rest hq
          split
          · rename_i hp
            simp [step, hf, gpuSignal, hp]
          · rename_i hp
            simp only [step, hf, Option.isSome_none, Bool.false_eq_true, if_false]
            apply render_enabled hi hfe hst hr ht hA hB
            intro k' rest' hq'
            rw [hq] at hq'
            cases hq'
            exact hp
        · rename_i hq
          simp only [step, hf, Option.isSome_none, Bool.false_eq_true, if_false]
          apply render_enabled hi hfe hst hr ht hA hB
          intro k' rest' hq'
          rw [hq] at hq'
          cases hq'

theorem fenceInv_of_reachable {c : Settings} {s : State} (h : Reachable c s) : FenceInv s := by
  induction h with
  | start => exact fenceInv_start c
  | step a hr hs ih => exact fenceInv_step (inv_of_reachable hr).slots ih hs

theorem reachable_run {c : Settings} (as : List Action) :
    ∀ {s s' : State}, Reachable c s → run c s as = some s' → Reachable c s' := by
  induction as with
  | nil => intro s s' h hr; simp only [run, Option.some.injEq] at hr; exact hr ▸ h
  | cons a as ih =>
    intro s s' h hr
    simp only [run] at hr
    cases hs : step c s a with
    | none => simp [hs] at hr
    | some s1 =>
      simp only [hs, Option.some_bind] at hr
      exact ih (Reachable.step a h hs) hr

/-- During `stopVideo` the scheduler brings the pipeline to the return of
`stopVideo` in at most `n` steps when the measure is at most `n`. -/
theorem drain_exists {c : Settings} : ∀ (n : Nat) (s : State), Reachable c s →
    drainMeasure s ≤ n → 1 ≤ stopStage s.render → s.fault = none →
    ∃ (as : List Action) (s' : State), (∀ a ∈ as, isProgress a = true) ∧
      run c s as = some s' ∧ s'.render = .stopped ∧ s'.captured = s.captured := by
  intro n
  induction n with
  | zero =>
    intro s h hm hst hf
    by_cases hr : s.render = .stopped
    · exact ⟨[], s, by simp, rfl, hr, rfl⟩
    · have he := nextAction_enabled (c := c) (inv_of_reachable h) (fenceInv_of_reachable h) hst hr hf
      obtain ⟨s1, hs1⟩ := Option.isSome_iff_exists.mp he
      have := (drain_step (inv_of_reachable h) hst (isProgress_nextAction s) hs1).1
      omega
  | succ n ih =>
    intro s h hm hst hf
    by_cases hr : s.render = .stopped
    · exact ⟨[], s, by simp, rfl, hr, rfl⟩
    · have he := nextAction_enabled (c := c) (inv_of_reachable h) (fenceInv_of_reachable h) hst hr hf
      obtain ⟨s1, hs1⟩ := Option.isSome_iff_exists.mp he
      obtain ⟨d1, d2, d3, d4⟩ :=
        drain_step (inv_of_reachable h) hst (isProgress_nextAction s) hs1
      obtain ⟨as, s', ha, hrun, hstop, hcap⟩ :=
        ih s1 (Reachable.step _ h hs1) (by omega) d2 d3
      refine ⟨nextAction s :: as, s', ?_, ?_, hstop, hcap.trans d4⟩
      · intro a hm'
        rcases List.mem_cons.mp hm' with e | e
        · rw [e]; exact isProgress_nextAction s
        · exact ha a e
      · simp [run, hs1, hrun]

/-- During `stopVideo` every run of the pipeline's own actions is at most as long
as the measure allows, whatever the schedule. -/
theorem drain_bounded {c : Settings} (as : List Action) :
    ∀ (s s' : State), Reachable c s → 1 ≤ stopStage s.render →
    (∀ a ∈ as, isProgress a = true) → run c s as = some s' →
    as.length + drainMeasure s' ≤ drainMeasure s ∧ 1 ≤ stopStage s'.render ∧
      s'.captured = s.captured := by
  induction as with
  | nil =>
    intro s s' h hst ha hr
    simp only [run, Option.some.injEq] at hr
    subst hr
    exact ⟨by simp, hst, rfl⟩
  | cons a as ih =>
    intro s s' h hst ha hr
    simp only [run] at hr
    cases hs : step c s a with
    | none => simp [hs] at hr
    | some s1 =>
      simp only [hs, Option.some_bind] at hr
      obtain ⟨d1, d2, d3, d4⟩ := drain_step (inv_of_reachable h) hst (ha a (by simp)) hs
      obtain ⟨e1, e2, e3⟩ :=
        ih s1 s' (Reachable.step _ h hs) d2 (fun b hb => ha b (by simp [hb])) hr
      refine ⟨?_, e2, e3.trans d4⟩
      simp only [List.length_cons]
      omega

theorem fault_none_of_run {c : Settings} (as : List Action) :
    ∀ (s s' : State), Reachable c s → 1 ≤ stopStage s.render →
    (∀ a ∈ as, isProgress a = true) → s.fault = none → run c s as = some s' →
    s'.fault = none := by
  induction as with
  | nil =>
    intro s s' h hst ha hf hr
    simp only [run, Option.some.injEq] at hr
    exact hr ▸ hf
  | cons a as ih =>
    intro s s' h hst ha hf hr
    simp only [run] at hr
    cases hs : step c s a with
    | none => simp [hs] at hr
    | some s1 =>
      simp only [hs, Option.some_bind] at hr
      obtain ⟨d1, d2, d3, d4⟩ := drain_step (inv_of_reachable h) hst (ha a (by simp)) hs
      exact ih s1 s' (Reachable.step _ h hs) d2 (fun b hb => ha b (by simp [hb])) d3 hr

theorem checkData_waitForAll (signaled : Nat → Bool) (waitForFirst : Bool)
    (syncPool videoQueue : List Nat) :
    (checkData signaled waitForFirst true syncPool videoQueue).syncPool = [] ∧
    (checkData signaled waitForFirst true syncPool videoQueue).videoQueue =
      videoQueue ++ syncPool := by
  have hall : ∀ e, passed signaled waitForFirst true e = true := by
    intro e; simp [passed, waitedOn]
  simp only [checkData, checkDataLoop_eq, takeWhile_enumFrom_all _ _ hall]
  simp

/-- C4: shutdown drains fully. Once `stopVideo` has returned, every captured
frame has been written to `videoPipe` in capture order, `syncPool`, `videoQueue`
and `readyQueue` are empty, no conversion goroutine runs, all ten slots are back
in `pboPool` and both worker loops have exited. A call of `stopVideo` in a
reachable state with K frames in flight does return: a schedule of the
pipeline's own actions leads to the return, after which exactly the K frames have
been added to the stream, in capture order; and under every schedule of these
actions the run after the call is bounded by `drainMeasure`, is never stuck
before the return, and at the return has written the K frames. In particular
`checkData(true, true)` ends with `syncPool` empty and every slot that was
pending appended to `videoQueue` in issue order. -/
theorem shutdown_drains (c : Settings) (s : State) (h : Reachable c s) :
    (s.render = .stopped →
      s.written = s.captured.map (converted c) ∧ s.syncPool = [] ∧ s.videoQueue = [] ∧
      s.readyQueue = [] ∧ s.tasks = [] ∧ s.pboPool.Perm (List.range MaxVideoBuffers) ∧
      s.stageA = .exited ∧ s.stageB = .exited) ∧
    (s.render = .idle → s.fault = none →
      ∃ (as : List Action) (s' : State), (∀ a ∈ as, isProgress a = true) ∧
        run c s (.stopVideo :: as) = some s' ∧ s'.render = .stopped ∧
        s'.written = s.written ++ s.inflight.map (fun i => converted c (s.slots i).data)) ∧
    (∀ (s1 s2 : State) (as : List Action), step c s .stopVideo = some s1 →
      (∀ a ∈ as, isProgress a = true) → run c s1 as = some s2 →
      as.length ≤ drainMeasure s1 ∧
      (s2.render ≠ .stopped → ∃ a, isProgress a = true ∧ (step c s2 a).isSome = true) ∧
      (s2.render = .stopped →
        s2.written = s.written ++ s.inflight.map (fun i => converted c (s.slots i).data))) ∧
    (∀ (signaled : Nat → Bool) (videoQueue : List Nat),
      (checkData signaled true true s.syncPool videoQueue).syncPool = [] ∧
      (checkData signaled true true s.syncPool videoQueue).videoQueue =
        videoQueue ++ s.syncPool) := by
  have hi := inv_of_reachable h
  have hord : s.written ++ s.inflight.map (fun i => converted c (s.slots i).data) =
      s.captured.map (converted c) := hi.order.2
  have hcall : ∀ s1, step c s .stopVideo = some s1 →
      Reachable c s1 ∧ stopStage s1.render = 1 ∧ s1.fault = none ∧ s1.captured = s.captured := by
    intro s1 hs1
    refine ⟨Reachable.step _ h hs1, ?_⟩
    simp only [step] at hs1
    split at hs1
    · simp at hs1
    · rename_i hf
      simp only [Option.not_isSome_iff_eq_none] at hf
      simp only [stopVideo] at hs1
      split at hs1
      · cases hs1
        exact ⟨rfl, hf, rfl⟩
      · simp at hs1
  refine ⟨?_, ?_, ?_, fun signaled vq => checkData_waitForAll signaled true s.syncPool vq⟩
  · intro hr
    obtain ⟨h1, h2, h3, h4, h5, h6, h7, h8⟩ := stopped_state hi hr
    exact ⟨h7, h1, h2, h3, h6, h8, h4, h5⟩
  · intro hr hf
    have hs1 : step c s .stopVideo =
        some { s with render := .checkData 0 true true .stop } := by
      simp [step, hf, stopVideo, hr]
    obtain ⟨r1, r2, r3, r4⟩ := hcall _ hs1
    obtain ⟨as, s', ha, hrun, hstop, hcap⟩ :=
      drain_exists (drainMeasure { s with render := .checkData 0 true true .stop }) _ r1
        (Nat.le_refl _) (by rw [r2]) r3
    refine ⟨as, s', ha, by simp [run, hs1, hrun], hstop, ?_⟩
    have hr' := reachable_run as r1 hrun
    rw [(stopped_state (inv_of_reachable hr') hstop).2.2.2.2.2.2.1, hcap, hord]
  · intro s1 s2 as hs1 ha hrun
    obtain ⟨r1, r2, r3, r4⟩ := hcall _ hs1
    obtain ⟨b1, b2, b3⟩ := drain_bounded as s1 s2 r1 (by rw [r2]) ha hrun
    have hr2 := reachable_run as r1 hrun
    have hf2 := fault_none_of_run as s1 s2 r1 (by rw [r2]) ha r3 hrun
    refine ⟨by omega, ?_, ?_⟩
    · intro hne
      exact ⟨nextAction s2, isProgress_nextAction s2,
        nextAction_enabled (inv_of_reachable hr2) (fenceInv_of_reachable hr2) b2 hne hf2⟩
    · intro hstop
      rw [(stopped_state (inv_of_reachable hr2) hstop).2.2.2.2.2.2.1, b3, r4, hord]

set_option maxRecDepth 1000000 in
/-- C4 on `demoRun`: when `stopVideo` is called two frames are in flight in
`syncPool`; the rest of the schedule is a run of enabled actions that ends with
`stopVideo` returned and both frames written. -/
theorem shutdown_drains_witness :
    Reachable demo (exec demo (startVideo demo) (demoRun.take 22)) ∧
    (exec demo (startVideo demo) (demoRun.take 22)).render = .idle ∧
    (exec demo (startVideo demo) (demoRun.take 22)).inflight = [0, 1] ∧
    (exec demo (startVideo demo) (demoRun.take 22)).written = [] ∧
    (run demo (exec demo (startVideo demo) (demoRun.take 22)) (demoRun.drop 22)).map
      (fun s => (s.render, s.written, s.pboPool)) =
      some (.stopped, [[101, 102, 103, 104, 105, 106], [107, 108, 109, 110, 111, 112]],
        [2, 3, 4, 5, 6, 7, 8, 9, 0, 1]) ∧
    (∃ (as : List Action) (s' : State), (∀ a ∈ as, isProgress a = true) ∧
      run demo (exec demo (startVideo demo) (demoRun.take 22)) (.stopVideo :: as) = some s' ∧
      s'.render = .stopped ∧
      s'.written = (exec demo (startVideo demo) (demoRun.take 22)).written ++
        (exec demo (startVideo demo) (demoRun.take 22)).inflight.map
          (fun i => converted demo ((exec demo (startVideo demo) (demoRun.take 22)).slots i).data)) :=
  ⟨reachable_exec _ _, by decide, by decide, by decide, by decide,
    (shutdown_drains demo _ (reachable_exec _ _)).2.1 (by decide) (by decide)⟩

/-! ## The steps of the render thread run `checkData` -/

theorem run_append (c : Settings) (as bs : List Action) :
    ∀ s, run c s (as ++ bs) = (run c s as).bind (fun s' => run c s' bs) := by
  induction as with
  | nil => intro s; simp [run]
  | cons a as ih =>
    intro s
    simp only [List.cons_append, run]
    cases step c s a with
    | none => simp
    | some s1 => simp [ih]

theorem checkDataLoop_congr (sig sig' : Nat → Bool) (wF wA : Bool) (l : List Nat)
    (h : ∀ p ∈ l, sig p = sig' p) :
    ∀ (i : Nat) (vq : List Nat) (calls : List GLCall),
      checkDataLoop sig wF wA i l vq calls = checkDataLoop sig' wF wA i l vq calls := by
  induction l with
  | nil => intro i vq calls; rfl
  | cons p rest ih =>
    intro i vq calls
    have ih' := ih (fun q hq => h q (by simp [hq]))
    unfold checkDataLoop
    rw [h p (by simp), ih', ih']

theorem checkDataLoop_calls (sig : Nat → Bool) (wF wA : Bool) (l : List Nat) (i : Nat)
    (vq : List Nat) (calls : List GLCall) :
    (checkDataLoop sig wF wA i l vq calls).syncPool =
      (checkDataLoop sig wF wA i l vq []).syncPool ∧
    (checkDataLoop sig wF wA i l vq calls).videoQueue =
      (checkDataLoop sig wF wA i l vq []).videoQueue := by
  simp [checkDataLoop_eq]

/-- The steps of the render thread inside `checkData` compute the sequential
function `checkDataLoop`: from the head of the loop, with room in the open
channel, the render thread alone (and the GPU, which signals the fences the loop
waits for) reaches the return of `checkData` with `syncPool` and `videoQueue` as
the function gives them for the fence states at the start. -/
theorem checkData_run {c : Settings} : ∀ (l : List Nat) (s : State) (i : Nat)
    (wF wA : Bool) (ret : Ret),
    s.fault = none → s.render = .checkData i wF wA ret → s.syncPool = l →
    s.videoQueueClosed = false → s.videoQueue.length + l.length ≤ MaxVideoBuffers → l.Nodup →
    (∀ p ∈ l, (s.slots p).sync = .pending ∨ (s.slots p).sync = .signaled) →
    ∃ (as : List Action) (s' : State),
      (∀ a ∈ as, a = .render ∨ ∃ p, a = .gpuSignal p) ∧
      run c s as = some s' ∧ s'.render = retPc ret ∧
      s'.syncPool = (checkDataLoop (signaledIn s) wF wA i l s.videoQueue []).syncPool ∧
      s'.videoQueue = (checkDataLoop (signaledIn s) wF wA i l s.videoQueue []).videoQueue := by
  intro l
  induction l with
  | nil =>
    intro s i wF wA ret hf hr hsp hc hlen hnd hfe
    refine ⟨[.render], { s with render := retPc ret }, by simp, ?_, rfl, ?_, ?_⟩
    · simp [run, step, hf, renderStep, hr, hsp]
    · simp [checkDataLoop, hsp]
    · simp [checkDataLoop]
  | cons p rest ih =>
    intro s i wF wA ret hf hr hsp hc hlen hnd hfe
    have hprest : p ∉ rest := (List.nodup_cons.mp hnd).1
    have hndr : rest.Nodup := (List.nodup_cons.mp hnd).2
    simp only [List.length_cons] at hlen
    have hvq : s.videoQueue.length < MaxVideoBuffers := by omega
    -- the state after the entry `p` has been retired and sent
    have key : ∀ (s0 : State), s0.fault = none → s0.render = .checkData i wF wA ret →
        s0.syncPool = p :: rest → s0.videoQueueClosed = false → s0.videoQueue = s.videoQueue →
        (s0.slots p).sync = .signaled → (∀ q, q ≠ p → s0.slots q = s.slots q) →
        (((i == 0 && wF) || wA) = true ∨ signaledIn s p = true) →
        ∃ (as : List Action) (s' : State),
          (∀ a ∈ as, a = .render ∨ ∃ p, a = .gpuSignal p) ∧
          run c s0 as = some s' ∧ s'.render = retPc ret ∧
          s'.syncPool =
            (checkDataLoop (signaledIn s) wF wA i (p :: rest) s.videoQueue []).syncPool ∧
          s'.videoQueue =
            (checkDataLoop (signaledIn s) wF wA i (p :: rest) s.videoQueue []).videoQueue := by
      intro s0 hf0 hr0 hsp0 hc0 hvq0 hsig0 hsame hpass
      have hstep1 : step c s0 .render = some (retire s0 i wF wA ret p rest) := by
        simp only [step, hf0, Option.isSome_none, Bool.false_eq_true, if_false, renderStep, hr0,
          hsp0, hsig0, if_true]
        split <;> rfl
      have hstep2 : step c (retire s0 i wF wA ret p rest) .render =
          some { retire s0 i wF wA ret p rest with
            videoQueue := s0.videoQueue ++ [p], render := .checkData (i + 1) wF wA ret } := by
        simp [step, retire, hf0, renderStep, hc0, hvq0, hvq]
      obtain ⟨as, s', ha, hrun, h1, h2, h3⟩ := ih
        { retire s0 i wF wA ret p rest with
            videoQueue := s0.videoQueue ++ [p], render := .checkData (i + 1) wF wA ret }
        (i + 1) wF wA ret hf0 rfl rfl hc0
        (by simp only [List.length_append, hvq0, List.length_cons, List.length_nil]; omega) hndr
        (by
          intro q hq
          have hqp : q ≠ p := fun e => hprest (e ▸ hq)
          simp only [retire, setSlot_of_ne _ _ _ hqp, hsame q hqp]
          exact hfe q (by simp [hq]))
      refine ⟨.render :: .render :: as, s', ?_, ?_, h1, ?_, ?_⟩
      · intro a hm
        simp only [List.mem_cons] at hm
        rcases hm with e | e | e
        · exact Or.inl e
        · exact Or.inl e
        · exact ha a e
      · simp [run, hstep1, hstep2, hrun]
      all_goals
        have hcg := checkDataLoop_congr
          (signaledIn { retire s0 i wF wA ret p rest with
            videoQueue := s0.videoQueue ++ [p], render := .checkData (i + 1) wF wA ret })
          (signaledIn s) wF wA rest (by
            intro q hq
            have hqp : q ≠ p := fun e => hprest (e ▸ hq)
            simp only [signaledIn, retire, setSlot_of_ne _ _ _ hqp, hsame q hqp])
          (i + 1) (s0.videoQueue ++ [p]) []
        simp only at h2 h3
        rw [hcg] at h2 h3
        rw [hvq0] at h2 h3
      · rw [h2]
        conv_rhs => unfold checkDataLoop
        rcases hpass with hw | hs
        · rw [if_pos hw]
          exact ((checkDataLoop_calls _ _ _ _ _ _ _).1).symm
        · by_cases hw : ((i == 0 && wF) || wA) = true
          · rw [if_pos hw]
            exact ((checkDataLoop_calls _ _ _ _ _ _ _).1).symm
          · rw [if_neg hw, if_pos hs]
            exact ((checkDataLoop_calls _ _ _ _ _ _ _).1).symm
      · rw [h3]
        conv_rhs => unfold checkDataLoop
        rcases hpass with hw | hs
        · rw [if_pos hw]
          exact ((checkDataLoop_calls _ _ _ _ _ _ _).2).symm
        · by_cases hw : ((i == 0 && wF) || wA) = true
          · rw [if_pos hw]
            exact ((checkDataLoop_calls _ _ _ _ _ _ _).2).symm
          · rw [if_neg hw, if_pos hs]
            exact ((checkDataLoop_calls _ _ _ _ _ _ _).2).symm
    by_cases hsig : (s.slots p).sync = .signaled
    · exact key s hf hr hsp hc rfl hsig (fun _ _ => rfl) (Or.inr (by simp [signaledIn, hsig]))
    · have hpend : (s.slots p).sync = .pending := by
        rcases hfe p (by simp) with h | h
        · exact h
        · exact absurd h hsig
      by_cases hw : ((i == 0 && wF) || wA) = true
      · -- the loop waits: the GPU signals the fence
        have hg : step c s (.gpuSignal p) =
            some { s with slots := setSlot s.slots p { s.slots p with sync := .signaled } } := by
          simp [step, hf, gpuSignal, hpend]
        obtain ⟨as, s', ha, hrun, h1, h2, h3⟩ :=
          key { s with slots := setSlot s.slots p { s.slots p with sync := .signaled } }
            hf hr hsp hc rfl (by simp [setSlot_self])
            (fun q hq => by simp [setSlot_of_ne _ _ _ hq]) (Or.inl hw)
        refine ⟨.gpuSignal p :: as, s', ?_, by simp [run, hg, hrun], h1, h2, h3⟩
        intro a hm
        rcases List.mem_cons.mp hm with e | e
        · exact Or.inr ⟨p, e⟩
        · exact ha a e
      · -- the poll finds the fence not signaled: `checkData` returns
        refine ⟨[.render], { s with render := retPc ret }, by simp, ?_, rfl, ?_, ?_⟩
        · simp [run, step, hf, renderStep, hr, hsp, hw, hsig]
        · unfold checkDataLoop
          simp [hw, signaledIn, hsig, hsp]
        · unfold checkDataLoop
          simp [hw, signaledIn, hsig]

/-! ## C11: the sizes of package `attribute` -/

theorem wrap64_wrap64_add (x n : ℤ) : wrap64 (wrap64 x + n) = wrap64 (x + n) := by
  unfold wrap64
  omega

theorem Attribute.size_eq_none_iff (t : Attribute.AttrType) :
    Attribute.AttrType.Size t = none ↔ t ∉ Attribute.listed := by
  constructor
  · intro hs hm
    simp only [Attribute.listed, List.mem_cons, List.mem_singleton, List.not_mem_nil,
      or_false] at hm
    rcases hm with e | e | e | e | e | e | e | e | e | e | e | e | e | e <;>
      · subst e
        revert hs
        decide
  · intro hm
    simp only [Attribute.listed, List.mem_cons, List.mem_singleton, List.not_mem_nil,
      or_false, not_or] at hm
    obtain ⟨h1, h2, h3, h4, h5, h6, h7, h8, h9, h10, h11, h12, h13, h14⟩ := hm
    unfold Attribute.AttrType.Size
    rw [if_neg h1, if_neg h2, if_neg h3, if_neg h4, if_neg h5, if_neg h6, if_neg h7, if_neg h8,
      if_neg h9, if_neg h10, if_neg h11, if_neg h12, if_neg h13, if_neg h14]

theorem Attribute.bytes_bounds (t : Attribute.AttrType) :
    0 ≤ Attribute.bytes t ∧ Attribute.bytes t ≤ 64 := by
  by_cases hm : t ∈ Attribute.listed
  · simp only [Attribute.listed, List.mem_cons, List.mem_singleton, List.not_mem_nil,
      or_false] at hm
    rcases hm with e | e | e | e | e | e | e | e | e | e | e | e | e | e <;>
      · subst e
        decide
  · simp [Attribute.bytes, (Attribute.size_eq_none_iff t).mpr hm]

theorem Attribute.size_of_listed {t : Attribute.AttrType} (h : t ∈ Attribute.listed) :
    Attribute.AttrType.Size t = some (Attribute.bytes t) := by
  cases hs : Attribute.AttrType.Size t with
  | none => exact absurd h ((Attribute.size_eq_none_iff t).mp hs)
  | some n => simp [Attribute.bytes, hs]

theorem Attribute.sumBytes_bounds (af : Attribute.Format) :
    0 ≤ Attribute.sumBytes af ∧ Attribute.sumBytes af ≤ 64 * af.length := by
  induction af with
  | nil => simp [Attribute.sumBytes]
  | cons a rest ih =>
    have hb := Attribute.bytes_bounds a.Type_
    simp only [Attribute.sumBytes, List.map_cons, List.sum_cons, List.length_cons,
      Nat.cast_add, Nat.cast_one] at ih ⊢
    omega

theorem Attribute.sumBytes_append (a b : Attribute.Format) :
    Attribute.sumBytes (a ++ b) = Attribute.sumBytes a + Attribute.sumBytes b := by
  simp [Attribute.sumBytes]

theorem Attribute.sizeLoop_of_listed (af : Attribute.Format)
    (h : ∀ a ∈ af, a.Type_ ∈ Attribute.listed) :
    ∀ total, wrap64 total = total →
      Attribute.Format.sizeLoop af total = some (wrap64 (total + Attribute.sumBytes af)) := by
  induction af with
  | nil =>
    intro total ht
    simp [Attribute.Format.sizeLoop, Attribute.sumBytes, ht]
  | cons a rest ih =>
    intro total ht
    have ha := Attribute.size_of_listed (h a (by simp))
    have hr := ih (fun x hx => h x (by simp [hx])) (wrap64 (total + Attribute.bytes a.Type_))
      (by unfold wrap64; omega)
    simp only [Attribute.Format.sizeLoop, ha, hr, wrap64_wrap64_add]
    simp only [Attribute.sumBytes, List.map_cons, List.sum_cons, add_assoc]

theorem Attribute.sizeLoop_eq_none_iff (af : Attribute.Format) :
    ∀ total, Attribute.Format.sizeLoop af total = none ↔
      ∃ a ∈ af, a.Type_ ∉ Attribute.listed := by
  induction af with
  | nil => intro total; simp [Attribute.Format.sizeLoop]
  | cons a rest ih =>
    intro total
    cases hs : Attribute.AttrType.Size a.Type_ with
    | none =>
      simp only [Attribute.Format.sizeLoop, hs, true_iff]
      exact ⟨a, by simp, (Attribute.size_eq_none_iff _).mp hs⟩
    | some n =>
      have hl : a.Type_ ∈ Attribute.listed := by
        by_contra hn
        rw [(Attribute.size_eq_none_iff _).mpr hn] at hs
        cases hs
      simp only [Attribute.Format.sizeLoop, hs, ih, List.mem_cons, exists_eq_or_imp, hl,
        not_true_eq_false, false_or]

theorem Attribute.size_of_all_listed (af : Attribute.Format)
    (h : ∀ a ∈ af, a.Type_ ∈ Attribute.listed) :
    Attribute.Format.Size af = some (wrap64 (Attribute.sumBytes af)) ∧
    (af.length < 2 ^ 57 → Attribute.Format.Size af = some (Attribute.sumBytes af)) := by
  have h1 := Attribute.sizeLoop_of_listed af h 0 (by decide)
  simp only [zero_add] at h1
  refine ⟨h1, fun hl => ?_⟩
  have hb := Attribute.sumBytes_bounds af
  have hl' : (af.length : ℤ) < 2 ^ 57 := by exact_mod_cast hl
  rw [Attribute.Format.Size, h1, wrap64_of_lt hb.1 (by omega)]

/-- C11: `Type.Size` returns 4 bytes times the number of scalar components for
each of the fourteen listed types (`Int`, `Float`: 1; `VecN`: N; `MatRC`: R*C)
and panics exactly for a value outside the list. For a format whose attributes
all have a listed type, `Format.Size` returns the sum of the sizes of its
attributes (computed on the `int` of Go: the sum itself whenever the format has
fewer than 2^57 attributes, beyond which an `int` cannot hold it); it panics
exactly when an attribute has a type outside the list. The empty format has size
0 and the size of a concatenation is the sum of the sizes. -/
theorem format_size :
    Attribute.listed.map Attribute.AttrType.Size =
      [some (4 * 1), some (4 * 1), some (4 * 2), some (4 * 3), some (4 * 4),
        some (4 * (2 * 2)), some (4 * (2 * 3)), some (4 * (2 * 4)), some (4 * (3 * 3)),
        some (4 * (3 * 2)), some (4 * (3 * 4)), some (4 * (4 * 4)), some (4 * (4 * 2)),
        some (4 * (4 * 3))] ∧
    Attribute.listed.length = 14 ∧ Attribute.listed.Nodup ∧
    (∀ t, Attribute.AttrType.Size t = none ↔ t ∉ Attribute.listed) ∧
    (∀ af : Attribute.Format, (∀ a ∈ af, a.Type_ ∈ Attribute.listed) →
      Attribute.Format.Size af = some (wrap64 (Attribute.sumBytes af)) ∧
      (af.length < 2 ^ 57 → Attribute.Format.Size af = some (Attribute.sumBytes af))) ∧
    (∀ af : Attribute.Format, Attribute.Format.Size af = none ↔
      ∃ a ∈ af, a.Type_ ∉ Attribute.listed) ∧
    Attribute.Format.Size [] = some 0 ∧
    (∀ a b : Attribute.Format, (∀ x ∈ a ++ b, x.Type_ ∈ Attribute.listed) →
      (a ++ b).length < 2 ^ 57 →
      ∃ x y, Attribute.Format.Size a = some x ∧ Attribute.Format.Size b = some y ∧
        Attribute.Format.Size (a ++ b) = some (x + y)) := by
  refine ⟨by decide, by decide, by decide, Attribute.size_eq_none_iff,
    Attribute.size_of_all_listed, fun af => Attribute.sizeLoop_eq_none_iff af 0, rfl, ?_⟩
  intro a b hl hlen
  simp only [List.length_append] at hlen
  refine ⟨Attribute.sumBytes a, Attribute.sumBytes b, ?_, ?_, ?_⟩
  · exact (Attribute.size_of_all_listed a (fun x hx => hl x (by simp [hx]))).2 (by omega)
  · exact (Attribute.size_of_all_listed b (fun x hx => hl x (by simp [hx]))).2 (by omega)
  · rw [← Attribute.sumBytes_append]
    exact (Attribute.size_of_all_listed (a ++ b) hl).2 (by simpa using hlen)

/-- C11 on `demoFormat`: a `Vec2`, a `Vec4` and a `Mat34` take 8 + 16 + 48 bytes;
a format with a type outside the list makes `Size` panic. -/
theorem format_size_witness :
    (∀ a ∈ Attribute.demoFormat, a.Type_ ∈ Attribute.listed) ∧
    Attribute.demoFormat.length < 2 ^ 57 ∧
    Attribute.sumBytes Attribute.demoFormat = 72 ∧
    Attribute.Format.Size Attribute.demoFormat = some (Attribute.sumBytes Attribute.demoFormat) ∧
    Attribute.Format.Size [⟨"position", Attribute.Vec2, 0⟩, ⟨"flag", 5, 1⟩] = none :=
  ⟨by decide, by decide, by decide,
    (format_size.2.2.2.2.1 Attribute.demoFormat (by decide)).2 (by decide), by decide⟩

/-! ## C12: the layout of a 4:2:0 readback -/

theorem mappedArrayLen_eq : mappedArrayLen = 2 ^ 30 := by decide

theorem int32_natCast (n : Nat) (h : n < 2 ^ 31) : int32 (n : ℤ) = n := by
  unfold int32
  omega

theorem int32_mul_natCast (a b : Nat) (h : a * b < 2 ^ 31) :
    (int32 (a : ℤ) * int32 (b : ℤ) * ((1 : Nat) : ℤ)).toNat = a * b := by
  rcases Nat.eq_zero_or_pos a with ha | ha
  · subst ha; simp [int32]
  rcases Nat.eq_zero_or_pos b with hb | hb
  · subst hb; simp [int32]
  have h1 : a ≤ a * b := Nat.le_mul_of_pos_right a hb
  have h2 : b ≤ a * b := Nat.le_mul_of_pos_left b ha
  rw [int32_natCast a (by omega), int32_natCast b (by omega)]
  simp only [Nat.cast_one, mul_one]
  exact_mod_cast Int.toNat_ofNat (a * b)

theorem half_mul_half_le (w h : Nat) : 4 * ((w / 2) * (h / 2)) ≤ w * h := by
  have h1 : w / 2 * 2 ≤ w := Nat.div_mul_le_self w 2
  have h2 : h / 2 * 2 ≤ h := Nat.div_mul_le_self h 2
  calc 4 * ((w / 2) * (h / 2)) = (w / 2 * 2) * (h / 2 * 2) := by ring
    _ ≤ w * h := Nat.mul_le_mul h1 h2

theorem half_mul_half_even (w h : Nat) (hw : w % 2 = 0) (hh : h % 2 = 0) :
    w * h = 4 * ((w / 2) * (h / 2)) := by
  have h1 : w = w / 2 * 2 := by omega
  have h2 : h = h / 2 * 2 := by omega
  calc w * h = (w / 2 * 2) * (h / 2 * 2) := by rw [← h1, ← h2]
    _ = 4 * ((w / 2) * (h / 2)) := by ring

theorem bytes_420 (c : Settings) (format : PixFmt)
    (hf : format = .I420 ∨ format = .NV12 ∨ format = .NV21)
    (hs : glSize c format ≤ mappedArrayLen) :
    (readbackCalls c format).map ReadCall.bytes =
      [c.w * c.h, (c.w / 2) * (c.h / 2), (c.w / 2) * (c.h / 2)] ∧
    (readbackCalls c format).map ReadCall.bufSize =
      [some ((c.w * c.h : Nat) : ℤ), some ((c.w * c.h / 4 : Nat) : ℤ),
        some ((c.w * c.h / 4 : Nat) : ℤ)] := by
  have hq : c.w * c.h < 2 ^ 31 := by
    simp only [glSize, hf, if_true, mappedArrayLen_eq] at hs
    omega
  have hc := half_mul_half_le c.w c.h
  have hl := int32_mul_natCast c.w c.h hq
  have hk := int32_mul_natCast (c.w / 2) (c.h / 2) (by omega)
  simp only [readbackCalls, hf, if_true, List.map_cons, List.map_nil, ReadCall.bytes, hl, hk,
    int32_natCast (c.w * c.h) hq, int32_natCast (c.w * c.h / 4) (by omega), and_self]

theorem offsets_420 (c : Settings) (format : PixFmt)
    (hf : format = .I420 ∨ format = .NV12 ∨ format = .NV21) :
    (readbackCalls c format).map ReadCall.offset = [0, c.w * c.h, c.w * c.h * 5 / 4] := by
  simp only [readbackCalls, hf, if_true, List.map_cons, List.map_nil]

theorem planes420_disjoint (w h : Nat) : (planes420 w h).Pairwise List.Disjoint := by
  have hc := half_mul_half_le w h
  simp only [planes420, List.pairwise_cons, List.mem_cons, List.mem_singleton,
    List.not_mem_nil, forall_eq_or_imp, forall_eq, false_implies, implies_true, and_true,
    List.Pairwise.nil, List.Disjoint, List.mem_range'_1]
  refine ⟨⟨?_, ?_⟩, ?_⟩ <;> intro a h1 h2 <;> omega

theorem planes420_inside (w h : Nat) : ∀ r ∈ planes420 w h, ∀ i ∈ r, i < w * h * 3 / 2 := by
  have hc := half_mul_half_le w h
  intro r hm i hi
  simp only [planes420, List.mem_cons, List.mem_singleton, List.not_mem_nil, or_false] at hm
  rcases hm with e | e | e <;> subst e <;> simp only [List.mem_range'_1] at hi <;> omega

theorem planes420_even (w h : Nat) (hw : w % 2 = 0) (hh : h % 2 = 0) :
    (planes420 w h).flatten = List.range (w * h * 3 / 2) ∧
    (planes420 w h).map List.length = [w * h, w * h / 4, w * h / 4] ∧
    w * h + w * h / 4 = w * h * 5 / 4 ∧ w * h * 5 / 4 + w * h / 4 = w * h * 3 / 2 := by
  have he := half_mul_half_even w h hw hh
  have hq : w * h / 4 = (w / 2) * (h / 2) := by omega
  refine ⟨?_, ?_, by omega, by omega⟩
  · simp only [planes420, List.flatten, List.append_nil, List.range_eq_range']
    have e1 : w * h * 5 / 4 = w * h + (w / 2) * (h / 2) := by omega
    have e2 : w * h * 3 / 2 = (w / 2) * (h / 2) + ((w / 2) * (h / 2) + w * h) := by omega
    rw [e1, e2, ← List.range'_append_1, ← List.range'_append_1]
    simp [Nat.add_comm]
  · simp [planes420, hq]

/-- C12: for the formats I420, NV12 and NV21 and all `w`, `h`, the slot's buffer
has `glSize = w*h*3/2` bytes and the three readback commands of `MakeFrame` write
at the offsets 0, `w*h` and `w*h*5/4`; the three regions of `w*h`, `(w/2)*(h/2)`
and `(w/2)*(h/2)` bytes at these offsets are pairwise disjoint and lie inside the
buffer, and when `w` and `h` are even they follow one another, cover the buffer
exactly and each chroma plane has `w*h/4` bytes. At every size for which
`createPBO` can make the buffer (`glSize` within the `1 << 30` bytes of the array
type the mapped memory is sliced through, so that the `int32` conversions keep
the arguments) these are the regions the three commands write, none larger than
the size limit passed with it, and the size limit of each chroma plane is
`w*h/4`. -/
theorem yuv420_layout (c : Settings) (format : PixFmt)
    (hf : format = .I420 ∨ format = .NV12 ∨ format = .NV21) :
    glSize c format = c.w * c.h * 3 / 2 ∧
    (createPBO c format).data.length = glSize c format ∧
    (readbackCalls c format).map ReadCall.offset = [0, c.w * c.h, c.w * c.h * 5 / 4] ∧
    (planes420 c.w c.h).Pairwise List.Disjoint ∧
    (∀ r ∈ planes420 c.w c.h, ∀ i ∈ r, i < glSize c format) ∧
    (c.w % 2 = 0 → c.h % 2 = 0 →
      (planes420 c.w c.h).flatten = List.range (glSize c format) ∧
      (planes420 c.w c.h).map List.length = [c.w * c.h, c.w * c.h / 4, c.w * c.h / 4]) ∧
    (glSize c format ≤ mappedArrayLen →
      (readbackCalls c format).map ReadCall.region = planes420 c.w c.h ∧
      (∀ r ∈ readbackCalls c format, ∃ n : Nat, r.bufSize = some (n : ℤ) ∧ r.bytes ≤ n) ∧
      (readbackCalls c format).map ReadCall.bufSize =
        [some ((c.w * c.h : Nat) : ℤ), some ((c.w * c.h / 4 : Nat) : ℤ),
          some ((c.w * c.h / 4 : Nat) : ℤ)]) := by
  have hg : glSize c format = c.w * c.h * 3 / 2 := by simp [glSize, hf]
  have ho := offsets_420 c format hf
  refine ⟨hg, by simp [createPBO], ho, planes420_disjoint _ _, ?_, ?_, ?_⟩
  · rw [hg]
    exact planes420_inside _ _
  · intro hw hh
    rw [hg]
    exact ⟨(planes420_even _ _ hw hh).1, (planes420_even _ _ hw hh).2.1⟩
  · intro hs
    obtain ⟨hb, hz⟩ := bytes_420 c format hf hs
    have hc := half_mul_half_le c.w c.h
    have hcalls : ∃ r1 r2 r3, readbackCalls c format = [r1, r2, r3] := by
      simp [readbackCalls, hf]
    obtain ⟨r1, r2, r3, hr⟩ := hcalls
    rw [hr] at hb ho hz ⊢
    simp only [List.map_cons, List.map_nil, List.cons.injEq, and_true] at hb ho hz
    obtain ⟨b1, b2, b3⟩ := hb
    obtain ⟨o1, o2, o3⟩ := ho
    obtain ⟨z1, z2, z3⟩ := hz
    refine ⟨?_, ?_, ?_⟩
    · simp [ReadCall.region, planes420, o1, o2, o3, b1, b2, b3]
    · intro r hm
      simp only [List.mem_cons, List.mem_singleton, List.not_mem_nil, or_false] at hm
      rcases hm with e | e | e <;> subst e
      · exact ⟨_, z1, by omega⟩
      · exact ⟨_, z2, by omega⟩
      · exact ⟨_, z3, by omega⟩
    · simp [z1, z2, z3]

/-- C12 on a frame of 2 by 2 pixels in NV12 (the planes take the bytes 0 to 3, 4
and 5 of the 6) and on a frame of 3 by 3 pixels in I420, where the planes are
apart: of the 13 bytes, bytes 10 and 12 belong to no plane. -/
theorem yuv420_layout_witness :
    (demo.parsedFormat = .I420 ∨ demo.parsedFormat = .NV12 ∨ demo.parsedFormat = .NV21) ∧
    glSize demo demo.parsedFormat ≤ mappedArrayLen ∧
    glSize demo demo.parsedFormat = 6 ∧
    planes420 demo.w demo.h = [[0, 1, 2, 3], [4], [5]] ∧
    (readbackCalls demo demo.parsedFormat).map ReadCall.region = planes420 demo.w demo.h ∧
    glSize demoOdd .I420 = 13 ∧
    planes420 demoOdd.w demoOdd.h = [[0, 1, 2, 3, 4, 5, 6, 7, 8], [9], [11]] ∧
    (readbackCalls demoOdd .I420).map ReadCall.region = planes420 demoOdd.w demoOdd.h ∧
    (planes420 demoOdd.w demoOdd.h).Pairwise List.Disjoint :=
  ⟨by decide, by decide, by decide, by decide,
    ((yuv420_layout demo demo.parsedFormat (by decide)).2.2.2.2.2.2 (by decide)).1,
    by decide, by decide,
    ((yuv420_layout demoOdd .I420 (by decide)).2.2.2.2.2.2 (by decide)).1,
    (yuv420_layout demoOdd .I420 (by decide)).2.2.2.1⟩

/-! ## C13: the pixel format declared to the encoder -/

theorem parseFormat_cases (e : VideoEnv) :
    (parseFormat e = .I420 ↔ e.ToLower e.PixelFormat = "yuv420p") ∧
    (parseFormat e = .I422 ↔ e.ToLower e.PixelFormat = "yuv422p") ∧
    (parseFormat e = .I444 ↔ e.ToLower e.PixelFormat = "yuv444p") ∧
    (parseFormat e = .NV12 ↔ e.ToLower e.PixelFormat = "nv12") ∧
    (parseFormat e = .NV21 ↔ e.ToLower e.PixelFormat = "nv21") ∧
    (parseFormat e = .ARGB ↔
      e.ToLower e.PixelFormat ∉ ["yuv420p", "yuv422p", "yuv444p", "nv12", "nv21"]) := by
  unfold parseFormat
  generalize e.ToLower e.PixelFormat = l
  by_cases h1 : l = "yuv420p"
  · subst h1; decide
  by_cases h2 : l = "yuv422p"
  · subst h2; decide
  by_cases h3 : l = "yuv444p"
  · subst h3; decide
  by_cases h4 : l = "nv12"
  · subst h4; decide
  by_cases h5 : l = "nv21"
  · subst h5; decide
  simp [h1, h2, h3, h4, h5]

theorem pixFmtName_parseFormat (e : VideoEnv) :
    pixFmtName (parseFormat e) = some (inputPixFmt e) := by
  unfold inputPixFmt parseFormat
  generalize e.ToLower e.PixelFormat = l
  by_cases h1 : l = "yuv420p"
  · subst h1; decide
  by_cases h2 : l = "yuv422p"
  · subst h2; decide
  by_cases h3 : l = "yuv444p"
  · subst h3; decide
  by_cases h4 : l = "nv12"
  · subst h4; decide
  by_cases h5 : l = "nv21"
  · subst h5; decide
  simp [h1, h2, h3, h4, h5, pixFmtName]

theorem streamedLayout_eq (format : PixFmt) : streamedLayout format = format := by
  cases format <;> rfl

theorem sourceLayout_eq_readbackLayout (format : PixFmt) (h : passThrough format = false) :
    sourceLayout format = readbackLayout format := by
  cases format <;> first | rfl | (revert h; decide)

/-- C13: `startVideo` parses the configured pixel format through `strings.ToLower`
(`yuv420p` to I420, `yuv422p` to I422, `yuv444p` to I444, `nv12` to NV12, `nv21`
to NV21, anything else to packed RGB). The `-pix_fmt` argument of the input is
`rgb24` exactly when the parsed format is packed RGB and the lowercased setting
otherwise; in both cases it is the name of the layout of the bytes that Stage A
and Stage B stream for the parsed format (the layout read back for a format
passed through, the target of the conversion otherwise, whose source layout is
the layout read back). In the argument list the input `-pix_fmt` stands before
`-i`, and after the fixed arguments a second `-pix_fmt` with the lowercased
setting is appended exactly when the parsed format is packed RGB. -/
theorem declared_layout (c : Settings) (e : VideoEnv) (fps : ℤ) :
    ((parseFormat e = .I420 ↔ e.ToLower e.PixelFormat = "yuv420p") ∧
      (parseFormat e = .I422 ↔ e.ToLower e.PixelFormat = "yuv422p") ∧
      (parseFormat e = .I444 ↔ e.ToLower e.PixelFormat = "yuv444p") ∧
      (parseFormat e = .NV12 ↔ e.ToLower e.PixelFormat = "nv12") ∧
      (parseFormat e = .NV21 ↔ e.ToLower e.PixelFormat = "nv21") ∧
      (parseFormat e = .ARGB ↔
        e.ToLower e.PixelFormat ∉ ["yuv420p", "yuv422p", "yuv444p", "nv12", "nv21"])) ∧
    (inputPixFmt e = "rgb24" ↔ parseFormat e = .ARGB) ∧
    (parseFormat e ≠ .ARGB → inputPixFmt e = e.ToLower e.PixelFormat) ∧
    streamedLayout (parseFormat e) = parseFormat e ∧
    (passThrough (parseFormat e) = true →
      readbackLayout (parseFormat e) = parseFormat e) ∧
    (passThrough (parseFormat e) = false →
      sourceLayout (parseFormat e) = readbackLayout (parseFormat e)) ∧
    pixFmtName (streamedLayout (parseFormat e)) = some (inputPixFmt e) ∧
    (∀ opts, encoderOptions c e fps = some opts →
      (opts.drop 7).take 2 = ["-pix_fmt", inputPixFmt e] ∧
      (opts.drop 11).take 1 = ["-i"] ∧
      ∃ enc, e.encOptions = some enc ∧
        opts.drop 28 =
          (if parseFormat e = .ARGB then ["-pix_fmt", e.ToLower e.PixelFormat] else []) ++
            enc ++ [e.outputPath]) := by
  have hp := parseFormat_cases e
  have hn := pixFmtName_parseFormat e
  refine ⟨hp, ?_, ?_, streamedLayout_eq _, ?_, sourceLayout_eq_readbackLayout _, ?_, ?_⟩
  · constructor
    · intro h
      by_contra hne
      rw [h] at hn
      revert hn
      generalize parseFormat e = f at hne
      cases f <;> first | exact absurd rfl hne | decide | (intro h; cases h)
    · intro h
      simp [inputPixFmt, h]
  · intro h
    simp [inputPixFmt, h]
  · intro h
    have := streamedLayout_eq (parseFormat e)
    simpa [streamedLayout, h] using this
  · rw [streamedLayout_eq]
    exact hn
  · intro opts ho
    unfold encoderOptions at ho
    split at ho
    · rename_i r input enc h1 h2 h3
      cases ho
      exact ⟨rfl, rfl, enc, h3, rfl⟩
    · cases ho

set_option maxRecDepth 1000000 in
/-- C13 on `demoEnv` (setting `NV12`, declared as `nv12`, no second `-pix_fmt`)
and on the settings `YuV420P` and `bgr0`: the latter is parsed as packed RGB,
declared as `rgb24`, and `-pix_fmt bgr0` is appended for the output. -/
theorem declared_layout_witness :
    encoderOptions demo demoEnv 60 = some demoOptions ∧
    (demoOptions.drop 7).take 2 = ["-pix_fmt", inputPixFmt demoEnv] ∧
    inputPixFmt demoEnv = "nv12" ∧
    parseFormat { demoEnv with PixelFormat := "YuV420P" } = .I420 ∧
    parseFormat { demoEnv with PixelFormat := "bgr0" } = .ARGB ∧
    (encoderOptions demo { demoEnv with PixelFormat := "bgr0" } 60).map (fun o => o.drop 7) =
      some ["-pix_fmt", "rgb24", "-r", "60", "-i", "-", "-an", "-vf", "vflip,hflip",
      "-c:v", "libx264", "-color_range", "1", "-colorspace", "1", "-color_trc", "1",
      "-color_primaries", "1", "-movflags", "+write_colr", "-pix_fmt", "bgr0", "-crf", "14",
      "video.mp4"] :=
  ⟨by decide, ((declared_layout demo demoEnv 60).2.2.2.2.2.2.2 demoOptions (by decide)).1,
    by decide, by decide, by decide, by decide⟩

/-! ## C14: allocation and conversion agree -/

theorem dispInv_start (c : Settings) : DispInv (startVideo c) := by
  simp [DispInv, dispOK, startVideo, stageBWriting, stageASending]

theorem convData_convertPBO_ne_nil (c : Settings) (p : PBO) (h : p.convData ≠ .nil) :
    (convertPBO c p).convData ≠ .nil := by
  unfold convertPBO
  split
  · rename_i e; exact absurd e h
  · rename_i e; simp [e]
  · simp

set_option maxHeartbeats 4000000 in
theorem dispInv_step {c : Settings} {s s' : State} {a : Action}
    (hsh : ShapeInv c s) (h : DispInv s) (hs : step c s a = some s') : DispInv s' := by
  obtain ⟨slots, pboPool, syncPool, videoQueue, videoQueueClosed, readyQueue, readyQueueClosed,
    pboSync, emptySync, endSyncVideo, endSyncReady, frameNumber, frameBuffer, tasks, written,
    pipeClosed, cmdWaited, render, stageA, stageB, fault, captured, acquired, released⟩ := s
  simp only [DispInv, dispOK] at h
  simp only [ShapeInv, slotShape] at hsh
  have hown : ∀ k, ¬passThrough (slots k).convFormat = true → (slots k).convData ≠ .nil := by
    intro k hk
    have e := (hsh k).2.2
    rw [← (hsh k).1, if_neg hk] at e
    obtain ⟨b, hb, _⟩ := e
    rw [hb]
    simp
  clear hsh
  unfold step at hs
  split at hs
  · simp at hs
  rename_i hf
  clear hf
  cases a <;>
    simp only [MakeFrame, stopVideo, renderStep, retire, stageAStep, stageBStep, convertStep,
      gpuSignal, pipeError] at hs
  all_goals repeat' split at hs
  all_goals first | (simp at hs; done) | skip
  all_goals cases hs
  all_goals simp only [DispInv, dispOK]
  all_goals first
    | exact h
    | (intro i hi
       simp only [convData_setSlot, readback]
       split
       · subst_vars
         first
         | exact h _ hi
         | exact convData_convertPBO_ne_nil c _ (h _ hi)
         | simp
       · first
         | exact h i hi
         | (apply h i
            simp_all [stageBWriting, stageASending]
            done))
    | (intro i hi
       apply h i
       simp_all [stageBWriting, stageASending]
       done)
    | skip
  all_goals (intro i hi; simp only [convData_setSlot, readback]; split)
  · subst_vars
    exact hown _ ‹_›
  · apply h i
    simp_all [stageBWriting, stageASending]

theorem dispInv_of_reachable {c : Settings} {s : State} (h : Reachable c s) : DispInv s := by
  induction h with
  | start => exact dispInv_start c
  | step a hr hs ih => exact dispInv_step (inv_of_reachable hr).shape ih hs

theorem createPBO_convData (c : Settings) (format : PixFmt) :
    (passThrough format = true → (createPBO c format).convData = .nil) ∧
    (passThrough format = false →
      (createPBO c format).convData = .own (List.replicate (convSize c format) 0)) := by
  cases format <;> simp [passThrough, createPBO, convSize]

/-- C14: for every pixel format value, `createPBO` makes a conversion buffer
exactly when Stage A offloads a conversion for the format, that is, for every
format but `ARGB`, `I420` and `I444`: Stage A at its dispatch starts a conversion
goroutine exactly when `createPBO` has made a buffer for the format of the slot.
So in every reachable state the slot of every running conversion goroutine has a
conversion buffer of its own, into which `pixconv.Convert` writes, and when
Stage B is at its write the `convData` of its slot is not `nil`: it is the
captured data for a format passed through and the conversion buffer otherwise. -/
theorem dispatch_consistency (c : Settings) (s : State) (h : Reachable c s) :
    (∀ format : PixFmt,
      ((createPBO c format).convData ≠ .nil ↔ passThrough format = false) ∧
      (passThrough format = false ↔
        format ≠ .ARGB ∧ format ≠ .I420 ∧ format ≠ .I444) ∧
      (passThrough format = false →
        (createPBO c format).convData = .own (List.replicate (convSize c format) 0))) ∧
    (∀ (t : State) (k : Nat), t.stageA = .dispatch k →
      ∃ t', stageAStep t = some t' ∧
        t'.tasks = (if passThrough (t.slots k).convFormat then t.tasks else t.tasks ++ [k]) ∧
        (t'.tasks ≠ t.tasks ↔ (createPBO c (t.slots k).convFormat).convData ≠ .nil)) ∧
    (∀ k ∈ s.tasks, passThrough (s.slots k).convFormat = false ∧
      ∃ b, (s.slots k).convData = .own b ∧ b.length = convSize c c.parsedFormat ∧
        (convertPBO c (s.slots k)).convData =
          .own (convertBytes c (s.slots k).data (sourceLayout (s.slots k).convFormat) b.length
            (s.slots k).convFormat)) ∧
    (∀ k, s.stageB = .write k →
      (s.slots k).convData ≠ .nil ∧
      (passThrough (s.slots k).convFormat = true →
        (s.slots k).convData = .alias ∧ convBytes (s.slots k) = (s.slots k).data) ∧
      (passThrough (s.slots k).convFormat = false →
        ∃ b, (s.slots k).convData = .own b ∧ b.length = convSize c c.parsedFormat ∧
          convBytes (s.slots k) = b)) := by
  have hi := inv_of_reachable h
  have hd := dispInv_of_reachable h
  simp only [DispInv, dispOK] at hd
  have hshape : ∀ k, passThrough (s.slots k).convFormat = false →
      ∃ b, (s.slots k).convData = .own b ∧ b.length = convSize c c.parsedFormat := by
    intro k hk
    have e := (hi.shape k).2.2
    rw [(hi.shape k).1] at hk
    simpa [hk] using e
  refine ⟨?_, ?_, ?_, ?_⟩
  · intro format
    have hc := createPBO_convData c format
    refine ⟨?_, ?_, hc.2⟩
    · cases hp : passThrough format
      · simp [hc.2 hp]
      · simp [hc.1 hp]
    · cases format <;> simp [passThrough]
  · intro t k hk
    have hc := createPBO_convData c (t.slots k).convFormat
    cases hp : passThrough (t.slots k).convFormat
    · refine ⟨_, by simp only [stageAStep, hk, hp]; rfl, by simp, ?_⟩
      simp [hc.2 hp]
    · refine ⟨_, by simp only [stageAStep, hk, hp]; rfl, by simp, ?_⟩
      simp [hc.1 hp]
  · intro k hk
    have ht := hi.task
    simp only [TaskInv, taskOK] at ht
    have hne : s.tasks ≠ [] := List.ne_nil_of_mem hk
    have hp : passThrough (s.slots k).convFormat = false := by
      rw [(hi.shape k).1]
      exact ht.2.2.1 hne
    obtain ⟨b, hb, hl⟩ := hshape k hp
    refine ⟨hp, b, hb, hl, ?_⟩
    simp [convertPBO, hb]
  · intro k hk
    have hn : (s.slots k).convData ≠ .nil := hd k (by simp [hk, stageBWriting])
    refine ⟨hn, ?_, ?_⟩
    · intro hp
      have e := (hi.shape k).2.2
      rw [(hi.shape k).1] at hp
      simp only [hp, if_true] at e
      rcases e with e | e
      · exact absurd e hn
      · exact ⟨e, by simp [convBytes, e]⟩
    · intro hp
      obtain ⟨b, hb, hl⟩ := hshape k hp
      exact ⟨b, hb, hl, by simp [convBytes, hb]⟩

set_option maxRecDepth 1000000 in
/-- C14 on `demoRun` (NV12), at a state in which the conversion goroutines of both
frames run, each slot with its buffer of 6 bytes, and on `demoRunRGB` (packed
RGB) at the write of Stage B, where `convData` is the captured data. -/
theorem dispatch_consistency_witness :
    Reachable demo (exec demo (startVideo demo) (demoRun.take 35)) ∧
    (exec demo (startVideo demo) (demoRun.take 35)).tasks = [0, 1] ∧
    (∀ k ∈ (exec demo (startVideo demo) (demoRun.take 35)).tasks,
      passThrough ((exec demo (startVideo demo) (demoRun.take 35)).slots k).convFormat = false ∧
      ∃ b, ((exec demo (startVideo demo) (demoRun.take 35)).slots k).convData = .own b ∧
        b.length = convSize demo demo.parsedFormat ∧
        (convertPBO demo ((exec demo (startVideo demo) (demoRun.take 35)).slots k)).convData =
          .own (convertBytes demo ((exec demo (startVideo demo) (demoRun.take 35)).slots k).data
            (sourceLayout ((exec demo (startVideo demo) (demoRun.take 35)).slots k).convFormat)
            b.length ((exec demo (startVideo demo) (demoRun.take 35)).slots k).convFormat)) ∧
    (exec demoRGB (startVideo demoRGB) (demoRunRGB.take 24)).stageB = .write 0 ∧
    ((exec demoRGB (startVideo demoRGB) (demoRunRGB.take 24)).slots 0).convData ≠ .nil :=
  ⟨reachable_exec _ _, by decide,
    (dispatch_consistency demo _ (reachable_exec _ _)).2.2.1,
    by decide,
    ((dispatch_consistency demoRGB _ (reachable_exec _ _)).2.2.2 0 (by decide)).1⟩

/-! ## C15: the capacity of the channels -/

/-- C15: in every reachable state `videoQueue` and `readyQueue` each hold at most
`MaxVideoBuffers` slots (together with the other places they hold the
`MaxVideoBuffers` slots that exist, and both channels are made with that
capacity). When the render thread is at the send `videoQueue <- pbo` of
`checkData` the channel is open and holds fewer slots than its capacity, so the
send goes through at once; likewise for Stage A at `readyQueue <- pbo`. Neither
send blocks, and none panics on a closed channel. -/
theorem channel_capacity (c : Settings) (s : State) (h : Reachable c s) :
    s.videoQueue.length ≤ MaxVideoBuffers ∧
    s.readyQueue.length ≤ MaxVideoBuffers ∧
    (allSlots s).length = MaxVideoBuffers ∧
    (∀ i waitForFirst waitForAll ret pbo,
      s.render = .checkSend i waitForFirst waitForAll ret pbo →
      s.videoQueue.length < MaxVideoBuffers ∧ s.videoQueueClosed = false ∧
      renderStep s = some { s with
        videoQueue := s.videoQueue ++ [pbo]
        render := .checkData (i + 1) waitForFirst waitForAll ret } ∧
      (s.fault = none → (step c s .render).isSome = true)) ∧
    (∀ pbo, s.stageA = .send pbo →
      s.readyQueue.length < MaxVideoBuffers ∧ s.readyQueueClosed = false ∧
      stageAStep s = some { s with readyQueue := s.readyQueue ++ [pbo], stageA := .recv } ∧
      (s.fault = none → (step c s .stageA).isSome = true)) ∧
    s.fault ≠ some .sendOnClosedChannel := by
  have hi := inv_of_reachable h
  have hlen := length_allSlots hi.slots
  have hstop := hi.stop
  simp only [StopInv, stopOK] at hstop
  obtain ⟨h1, h2, h3, h4, h5, h6, h7, h8, h9, h10, h11, h12, h13, h14⟩ := hstop
  have hl := hlen
  simp only [allSlots, List.length_append, MaxVideoBuffers] at hl
  refine ⟨by simp only [MaxVideoBuffers]; omega, by simp only [MaxVideoBuffers]; omega, hlen,
    ?_, ?_, (fault_cases hi).2.2.1⟩
  · intro i wF wA ret pbo hr
    have hlt : s.videoQueue.length < MaxVideoBuffers := by
      simp only [hr, renderSending, List.length_cons, List.length_nil] at hl
      simp only [MaxVideoBuffers]
      omega
    have hc : s.videoQueueClosed = false := by
      cases hq : s.videoQueueClosed
      · rfl
      · have := h1.mp hq
        cases ret <;> simp [hr, stopStage] at this
    have hstep : renderStep s = some { s with
        videoQueue := s.videoQueue ++ [pbo]
        render := .checkData (i + 1) wF wA ret } := by
      simp [renderStep, hr, hc, hlt]
    refine ⟨hlt, hc, hstep, ?_⟩
    intro hf
    simp [step, hf, hstep]
  · intro pbo ha
    have hlt : s.readyQueue.length < MaxVideoBuffers := by
      simp only [ha, stageAHeld, List.length_cons, List.length_nil] at hl
      simp only [MaxVideoBuffers]
      omega
    have hc : s.readyQueueClosed = false := by
      cases hq : s.readyQueueClosed
      · rfl
      · have h5' := h2.mp hq
        have := h11 (by omega)
        rw [ha] at this
        cases this
    have hstep : stageAStep s =
        some { s with readyQueue := s.readyQueue ++ [pbo], stageA := .recv } := by
      simp [stageAStep, ha, hc, hlt]
    refine ⟨hlt, hc, hstep, ?_⟩
    intro hf
    simp [step, hf, hstep]

set_option maxRecDepth 1000000 in
/-- C15 on `demoRun`: at the second send of the `checkData` of `stopVideo`, with
one slot in `videoQueue`, and at the second send of Stage A, with one slot in
`readyQueue`, the send is enabled. -/
theorem channel_capacity_witness :
    Reachable demo (exec demo (startVideo demo) (demoRun.take 26)) ∧
    (exec demo (startVideo demo) (demoRun.take 26)).render = .checkSend 1 true true .stop 1 ∧
    (exec demo (startVideo demo) (demoRun.take 26)).videoQueue = [0] ∧
    (exec demo (startVideo demo) (demoRun.take 26)).videoQueue.length < MaxVideoBuffers ∧
    (exec demo (startVideo demo) (demoRun.take 34)).stageA = .send 1 ∧
    (exec demo (startVideo demo) (demoRun.take 34)).readyQueue = [0] ∧
    (exec demo (startVideo demo) (demoRun.take 34)).readyQueue.length < MaxVideoBuffers :=
  ⟨reachable_exec _ _, by decide, by decide,
    ((channel_capacity demo _ (reachable_exec _ _)).2.2.2.1 1 true true .stop 1 (by decide)).1,
    by decide, by decide,
    ((channel_capacity demo _ (reachable_exec _ _)).2.2.2.2.1 1 (by decide)).1⟩

end Video
